import Mathlib

/-!
# NetworkEventsInWindows: event aggregation and the FWPM transaction wrapper

A shallow embedding of `src/local-ip-proxy/main.cpp` (the aggregator that the
net-event callback writes and `doPrint` drains, the callback itself and the
negotiation of the net-event option), of `src/local-ip-proxy/FwpmTransaction.hpp`
(the transaction state machine), of `src/local-ip-proxy/FwpmEngine.hpp` (the
session) and of `src/local-ip-proxy/NetEventCollectionGuard.hpp` (the guard of
the option), with the properties that the specification states of them.

Conventions of the embedding.

* `uint64_t` is `Nat` with an explicit `% 2 ^ 64` at every increment.
* `std::unordered_map<EventKey, EventStats, EventKeyHasher>` is an association
  list without duplicate keys.  `EventKeyHasher` is a function of the fields
  that the defaulted `operator==` compares, so the container is a map in the
  ordinary sense; its iteration order is unspecified, the list keeps insertion
  order, and every theorem is stated through membership and lookup only.
* The mutex makes `recordEvent` and the locked block of `doPrint` atomic, so an
  interleaving of threads is a sequence of these two operations.
* The Windows Filtering Platform is external: its entry points and status
  constants are the fields of `FwpmApi`, over an arbitrary engine state.
* A C++ exception is the `Except.error` branch of a result; a call that does
  not return is `none`.
-/

namespace NetEvents

/-! ## Data model (`Event.hpp`, `main.cpp`) -/

/-- The scoped enum `EventDirection` from `Event.hpp`. -/
inductive EventDirection where
  | Unknown
  | Inbound
  | Outbound
deriving DecidableEq, Repr

/-- The scoped enum `EventType` from `Event.hpp`. -/
inductive EventType where
  | Other
  | Drop
  | Allow
deriving DecidableEq, Repr

/-- The struct `EventKey` from `Event.hpp`; the derived equality is the
defaulted member-wise `operator==`.  `appName` is a `std::wstring`, kept as its
list of code units. -/
structure EventKey where
  localSocket : String
  remoteSocket : String
  protocol : Nat
  layerId : Nat
  type : EventType
  direction : EventDirection
  filterId : Nat
  appName : List Nat
deriving DecidableEq, Repr

/-- The modulus of `uint64_t` arithmetic. -/
abbrev U64 : Nat := 2 ^ 64

/-- The struct `EventStats` from `main.cpp`, with its default member
initialisers. -/
structure EventStats where
  count : Nat := 0
  lastPrinted : Nat := 0
deriving DecidableEq, Repr

/-- The struct `Aggregator` from `main.cpp`: the map (the mutex is the
atomicity of the operations below). -/
structure Aggregator where
  map : List (EventKey × EventStats) := []
deriving DecidableEq, Repr

/-- The lookup `map.find(k)`: the statistics stored under `k`, if any. -/
def findStats (k : EventKey) : List (EventKey × EventStats) → Option EventStats
  | [] => none
  | e :: rest => if e.1 = k then some e.2 else findStats k rest

/-- The body of the lambda `recordEvent` in `netEventCallback`, on the map:
`try_emplace(key, EventStats{})` finds the entry of `key` or inserts a
zero-initialised one, and `++stats.count` increments it as a `uint64_t`. -/
def recordMap (k : EventKey) : List (EventKey × EventStats) → List (EventKey × EventStats)
  | [] => [(k, { count := (0 + 1) % U64, lastPrinted := 0 })]
  | e :: rest =>
    if e.1 = k then (e.1, { e.2 with count := (e.2.count + 1) % U64 }) :: rest
    else e :: recordMap k rest

/-- The lambda `recordEvent` of `netEventCallback` (`record(key)` in the
specification). -/
def recordEvent (agg : Aggregator) (k : EventKey) : Aggregator :=
  { map := recordMap k agg.map }

/-- The locked loop of `doPrint`: every entry whose `count` differs from
`lastPrinted` is appended to `changed` with its `count`, and its `lastPrinted`
is set to `count`.  The result is `changed` and the map afterwards. -/
def drainMap : List (EventKey × EventStats) →
    List (EventKey × Nat) × List (EventKey × EventStats)
  | [] => ([], [])
  | e :: rest =>
    if e.2.count ≠ e.2.lastPrinted then
      ((e.1, e.2.count) :: (drainMap rest).1,
        (e.1, { e.2 with lastPrinted := e.2.count }) :: (drainMap rest).2)
    else ((drainMap rest).1, e :: (drainMap rest).2)

/-- The function `doPrint` up to its output: the vector `changed` that it then
prints line by line (`drainChanged()` in the specification) and the aggregator
afterwards. -/
def doPrint (agg : Aggregator) : List (EventKey × Nat) × Aggregator :=
  ((drainMap agg.map).1, { map := (drainMap agg.map).2 })

/-- One atomic operation on the aggregator. -/
inductive Call where
  | record (k : EventKey)
  | drainChanged
deriving DecidableEq, Repr

/-- The effect of one call on the aggregator. -/
def step (agg : Aggregator) : Call → Aggregator
  | .record k => recordEvent agg k
  | .drainChanged => (doPrint agg).2

/-- The aggregator after a sequence of calls. -/
def run (calls : List Call) (agg : Aggregator) : Aggregator :=
  calls.foldl step agg

/-- The number of `record` calls with key `k` in a sequence of calls. -/
def recordCount (k : EventKey) (calls : List Call) : Nat :=
  calls.count (Call.record k)

/-- The count stored for `k`, if `k` has an entry. -/
def storedCount (agg : Aggregator) (k : EventKey) : Option Nat :=
  (findStats k agg.map).map EventStats.count

/-- A sample key `A`. -/
def keyA : EventKey :=
  { localSocket := "10.0.0.1:80", remoteSocket := "10.0.0.2:5000", protocol := 6,
    layerId := 13, type := EventType.Allow, direction := EventDirection.Inbound,
    filterId := 7, appName := [97] }

/-- A sample key `B`, differing from `A` in the protocol only. -/
def keyB : EventKey := { keyA with protocol := 17 }

/-! ## The FWPM transaction (`FwpmTransaction.hpp`) -/

/-- A Win32 `DWORD` status code. -/
abbrev DWORD := Nat

/-- A Win32 `HANDLE`; `0` is `nullptr`. -/
abbrev HANDLE := Nat

/-- The fields of `FWPM_SUBLAYER0` that `main.cpp` fills in. -/
structure FWPM_SUBLAYER0 where
  subLayerKey : Nat
  name : List Nat
  flags : Nat
  weight : Nat
deriving DecidableEq, Repr

/-- The fields of `FWPM_FILTER0` that `main.cpp` fills in. -/
structure FWPM_FILTER0 where
  name : List Nat
  layerKey : Nat
  subLayerKey : Nat
  actionType : Nat
  weightType : Nat
deriving DecidableEq, Repr

/-- The Windows Filtering Platform as the transaction sees it (`fwpmu.h`,
`winerror.h`; none of it is part of the repository): the two status constants
the wrapper compares against and the five entry points it calls, as transitions
of an arbitrary engine state `σ`. -/
structure FwpmApi (σ : Type) where
  ERROR_SUCCESS : DWORD
  FWP_E_ALREADY_EXISTS : DWORD
  FwpmTransactionBegin0 : σ → HANDLE → DWORD × σ
  FwpmTransactionCommit0 : σ → HANDLE → DWORD × σ
  FwpmTransactionAbort0 : σ → HANDLE → DWORD × σ
  FwpmSubLayerAdd0 : σ → HANDLE → FWPM_SUBLAYER0 → DWORD × σ
  FwpmFilterAdd0 : σ → HANDLE → FWPM_FILTER0 → (DWORD × Nat) × σ

/-- A call that reached the engine. -/
inductive EngineCall where
  | TransactionBegin0 (h : HANDLE)
  | TransactionCommit0 (h : HANDLE)
  | TransactionAbort0 (h : HANDLE)
  | SubLayerAdd0 (h : HANDLE) (sublayer : FWPM_SUBLAYER0)
  | FilterAdd0 (h : HANDLE) (filter : FWPM_FILTER0)
deriving DecidableEq, Repr

/-- The engine together with the record of the calls made to it so far. -/
structure World (σ : Type) where
  eng : σ
  log : List EngineCall

/-- The enum `FwpmTransaction::State`. -/
inductive State where
  | Aborted
  | Active
  | Committed
deriving DecidableEq, Repr

/-- The exceptions thrown by `FwpmTransaction`: the logic exception of the
constructor, the finalized exception of `ensureActive` and the runtime
exception with its message and status code. -/
inductive FwpmException where
  | FwpmTransactionLogicException (msg : String)
  | FwpmTransactionFinalizedException (msg : String)
  | FwpmTransactionRuntimeException (msg : String) (code : DWORD)
deriving DecidableEq, Repr

/-- The data members of `FwpmTransaction`. -/
structure FwpmTransaction where
  m_engine : HANDLE
  m_state : State := State.Aborted
deriving DecidableEq, Repr

/-- The outcome of a member function: the value returned or the exception
thrown, the object afterwards and the world afterwards; `none` when the call
does not return. -/
abbrev Outcome (σ : Type) (α : Type) := Option (Except FwpmException α × FwpmTransaction × World σ)

/-- The member `FwpmTransaction::errorMsg`. -/
def errorMsg (api : String) (code : DWORD) : String :=
  api ++ " failed: " ++ toString code

/-- The member `FwpmTransaction::ensureActive`. -/
def ensureActive (t : FwpmTransaction) (what : String) : Except FwpmException Unit :=
  if t.m_state ≠ State.Active then
    Except.error (FwpmException.FwpmTransactionFinalizedException
      ("FwpmTransaction is finalized; cannot " ++ what))
  else Except.ok ()

/-- The private constructor `FwpmTransaction(const HANDLE&)`, which
`FwpmEngine::beginTransaction` calls: on an exception no object exists. -/
def FwpmTransaction.begin {σ : Type} (api : FwpmApi σ) (engine : HANDLE) (w : World σ) :
    Except FwpmException FwpmTransaction × World σ :=
  if engine = 0 then
    (Except.error (FwpmException.FwpmTransactionLogicException
      "FwpmTransaction: null engine handle"), w)
  else
    let r := api.FwpmTransactionBegin0 w.eng engine
    let w1 : World σ := { eng := r.2, log := w.log ++ [EngineCall.TransactionBegin0 engine] }
    if r.1 ≠ api.ERROR_SUCCESS then
      (Except.error (FwpmException.FwpmTransactionRuntimeException
        (errorMsg "FwpmTransactionBegin0" r.1) r.1), w1)
    else (Except.ok { m_engine := engine, m_state := State.Active }, w1)

/-- The member `FwpmTransaction::abort`.  Its failure branch calls `abort()`
again before throwing; `fuel` bounds the depth of that re-entry, and `none`
is returned when the bound is reached. -/
def FwpmTransaction.abort {σ : Type} (api : FwpmApi σ) :
    Nat → FwpmTransaction → World σ → Outcome σ Unit
  | fuel, t, w =>
    match ensureActive t "abort" with
    | Except.error e => some (Except.error e, t, w)
    | Except.ok () =>
      let r := api.FwpmTransactionAbort0 w.eng t.m_engine
      let w1 : World σ := { eng := r.2, log := w.log ++ [EngineCall.TransactionAbort0 t.m_engine] }
      if r.1 ≠ api.ERROR_SUCCESS then
        match fuel with
        | 0 => none
        | fuel + 1 =>
          match FwpmTransaction.abort api fuel t w1 with
          | none => none
          | some (Except.error e, t2, w2) => some (Except.error e, t2, w2)
          | some (Except.ok (), t2, w2) =>
            some (Except.error (FwpmException.FwpmTransactionRuntimeException
              (errorMsg "FwpmTransactionAbort0" r.1) r.1), t2, w2)
      else some (Except.ok (), { t with m_state := State.Aborted }, w1)

/-- The statement `abort(); throw FwpmTransactionRuntimeException(errorMsg(api, s), s);`
shared by the failure branches of `commit`, `addSubLayer` and `addFilter`: an
exception leaving `abort()` replaces the one about to be thrown. -/
def abortThenThrow {σ : Type} {α : Type} (api : FwpmApi σ) (fuel : Nat) (name : String)
    (s : DWORD) (t : FwpmTransaction) (w : World σ) : Outcome σ α :=
  match FwpmTransaction.abort api fuel t w with
  | none => none
  | some (Except.error e, t2, w2) => some (Except.error e, t2, w2)
  | some (Except.ok (), t2, w2) =>
    some (Except.error (FwpmException.FwpmTransactionRuntimeException (errorMsg name s) s), t2, w2)

/-- The member `FwpmTransaction::commit`. -/
def FwpmTransaction.commit {σ : Type} (api : FwpmApi σ) (fuel : Nat) (t : FwpmTransaction)
    (w : World σ) : Outcome σ Unit :=
  match ensureActive t "commit" with
  | Except.error e => some (Except.error e, t, w)
  | Except.ok () =>
    let r := api.FwpmTransactionCommit0 w.eng t.m_engine
    let w1 : World σ := { eng := r.2, log := w.log ++ [EngineCall.TransactionCommit0 t.m_engine] }
    if r.1 ≠ api.ERROR_SUCCESS then
      abortThenThrow api fuel "FwpmTransactionCommit0" r.1 t w1
    else some (Except.ok (), { t with m_state := State.Committed }, w1)

/-- The member `FwpmTransaction::addSubLayer` (`addRuleGroup` in the
specification). -/
def FwpmTransaction.addSubLayer {σ : Type} (api : FwpmApi σ) (fuel : Nat) (t : FwpmTransaction)
    (w : World σ) (sublayer : FWPM_SUBLAYER0) : Outcome σ Unit :=
  match ensureActive t "addSubLayer" with
  | Except.error e => some (Except.error e, t, w)
  | Except.ok () =>
    let r := api.FwpmSubLayerAdd0 w.eng t.m_engine sublayer
    let w1 : World σ :=
      { eng := r.2, log := w.log ++ [EngineCall.SubLayerAdd0 t.m_engine sublayer] }
    if r.1 ≠ api.ERROR_SUCCESS ∧ r.1 ≠ api.FWP_E_ALREADY_EXISTS then
      abortThenThrow api fuel "FwpmSubLayerAdd0" r.1 t w1
    else some (Except.ok (), t, w1)

/-- The member `FwpmTransaction::addFilter` (`addRule` in the specification);
the value returned is the filter id the engine wrote. -/
def FwpmTransaction.addFilter {σ : Type} (api : FwpmApi σ) (fuel : Nat) (t : FwpmTransaction)
    (w : World σ) (filter : FWPM_FILTER0) : Outcome σ Nat :=
  match ensureActive t "addFilter" with
  | Except.error e => some (Except.error e, t, w)
  | Except.ok () =>
    let r := api.FwpmFilterAdd0 w.eng t.m_engine filter
    let w1 : World σ :=
      { eng := r.2, log := w.log ++ [EngineCall.FilterAdd0 t.m_engine filter] }
    if r.1.1 ≠ api.ERROR_SUCCESS then
      abortThenThrow api fuel "FwpmFilterAdd0" r.1.1 t w1
    else some (Except.ok r.1.2, t, w1)

/-- The destructor `~FwpmTransaction`: the status of the engine's abort is
discarded. -/
def FwpmTransaction.destroy {σ : Type} (api : FwpmApi σ) (t : FwpmTransaction) (w : World σ) :
    FwpmTransaction × World σ :=
  if t.m_state = State.Active then
    let r := api.FwpmTransactionAbort0 w.eng t.m_engine
    ({ t with m_state := State.Aborted },
      { eng := r.2, log := w.log ++ [EngineCall.TransactionAbort0 t.m_engine] })
  else (t, w)

/-- A member function called by a client of the transaction. -/
inductive TxnOp where
  | commit
  | abort
  | addSubLayer (sublayer : FWPM_SUBLAYER0)
  | addFilter (filter : FWPM_FILTER0)
deriving DecidableEq, Repr

/-- A client calls one member function and catches whatever it throws: the
object and the world afterwards, `none` when the call does not return. -/
def applyOp {σ : Type} (api : FwpmApi σ) (fuel : Nat) (op : TxnOp) (t : FwpmTransaction)
    (w : World σ) : Option (FwpmTransaction × World σ) :=
  match op with
  | TxnOp.commit => (FwpmTransaction.commit api fuel t w).map Prod.snd
  | TxnOp.abort => (FwpmTransaction.abort api fuel t w).map Prod.snd
  | TxnOp.addSubLayer sl => (FwpmTransaction.addSubLayer api fuel t w sl).map Prod.snd
  | TxnOp.addFilter f => (FwpmTransaction.addFilter api fuel t w f).map Prod.snd

/-- A client calls a sequence of member functions on one transaction. -/
def runOps {σ : Type} (api : FwpmApi σ) (fuel : Nat) :
    List TxnOp → FwpmTransaction → World σ → Option (FwpmTransaction × World σ)
  | [], t, w => some (t, w)
  | op :: ops, t, w =>
    match applyOp api fuel op t w with
    | none => none
    | some (t1, w1) => runOps api fuel ops t1 w1

/-! ### Sample engines

The engine state is the number of calls it has answered. -/

/-- An engine that accepts every call. -/
def okApi : FwpmApi Nat :=
  { ERROR_SUCCESS := 0
    FWP_E_ALREADY_EXISTS := 0x80320009
    FwpmTransactionBegin0 := fun n _ => (0, n + 1)
    FwpmTransactionCommit0 := fun n _ => (0, n + 1)
    FwpmTransactionAbort0 := fun n _ => (0, n + 1)
    FwpmSubLayerAdd0 := fun n _ _ => (0, n + 1)
    FwpmFilterAdd0 := fun n _ _ => ((0, 41), n + 1) }

/-- An engine that rejects commits and filters with status 5, rejects
sublayers with status 6, and accepts aborts. -/
def rejectApi : FwpmApi Nat :=
  { okApi with
    FwpmTransactionCommit0 := fun n _ => (5, n + 1)
    FwpmSubLayerAdd0 := fun n _ _ => (6, n + 1)
    FwpmFilterAdd0 := fun n _ _ => ((5, 0), n + 1) }

/-- An engine that rejects commits and filters with status 5 and whose abort
fails with status 7 on every call. -/
def stuckApi : FwpmApi Nat :=
  { rejectApi with FwpmTransactionAbort0 := fun n _ => (7, n + 1) }

/-- An engine that rejects commits and filters with status 5 and whose abort
fails with status 7 on its first call (engine state below 2) and succeeds
afterwards. -/
def flakyApi : FwpmApi Nat :=
  { rejectApi with FwpmTransactionAbort0 := fun n _ => (if n < 2 then 7 else 0, n + 1) }

/-- An engine that answers the first sublayer with success and every later one
with "already exists". -/
def dupApi : FwpmApi Nat :=
  { okApi with
    FwpmSubLayerAdd0 := fun n _ _ => (if n = 0 then 0 else 0x80320009, n + 1) }

/-- A fresh world for the sample engines. -/
def world0 : World Nat := { eng := 0, log := [] }

/-- An active transaction on handle 1. -/
def txn0 : FwpmTransaction := { m_engine := 1, m_state := State.Active }

/-- The sublayer that `main` installs. -/
def sublayer0 : FWPM_SUBLAYER0 :=
  { subLayerKey := 0x6F606926, name := [73, 80], flags := 0, weight := 0x0100 }

/-- A filter like the one that `main` installs. -/
def filter0 : FWPM_FILTER0 :=
  { name := [73], layerKey := 1, subLayerKey := 0x6F606926, actionType := 2, weightType := 0 }

/-! ## Auxiliary definitions for the statements -/

/-- The statistics of `k`, a zero-initialised `EventStats` when `k` has no
entry. -/
def statsOf (k : EventKey) (m : List (EventKey × EventStats)) : EventStats :=
  (findStats k m).getD {}

/-- The keys of a map, in list order. -/
def keysOf (m : List (EventKey × EventStats)) : List EventKey :=
  m.map Prod.fst

/-- The exception of `ensureActive` for the member function `what`. -/
def finalizedError (what : String) : FwpmException :=
  FwpmException.FwpmTransactionFinalizedException ("FwpmTransaction is finalized; cannot " ++ what)

/-- The runtime exception thrown for the failed entry point `name` with
status `s`. -/
def runtimeError (name : String) (s : DWORD) : FwpmException :=
  FwpmException.FwpmTransactionRuntimeException (errorMsg name s) s

/-- Every member function called on `t` throws the finalized exception, makes
no engine call and leaves `t` as it is, whatever the world and the arguments. -/
def RejectsAll {σ : Type} (api : FwpmApi σ) (t : FwpmTransaction) : Prop :=
  ∀ (fuel : Nat) (w : World σ) (sl : FWPM_SUBLAYER0) (f : FWPM_FILTER0),
    FwpmTransaction.commit api fuel t w = some (Except.error (finalizedError "commit"), t, w) ∧
    FwpmTransaction.abort api fuel t w = some (Except.error (finalizedError "abort"), t, w) ∧
    FwpmTransaction.addSubLayer api fuel t w sl
      = some (Except.error (finalizedError "addSubLayer"), t, w) ∧
    FwpmTransaction.addFilter api fuel t w f
      = some (Except.error (finalizedError "addFilter"), t, w)

/-- The world after one more engine call `c` that left the engine in `e`. -/
def World.after {σ : Type} (w : World σ) (e : σ) (c : EngineCall) : World σ :=
  { eng := e, log := w.log ++ [c] }

/-- The transaction `t2` is `t` marked `Aborted`, and the log of `w2` extends
the log of `w` by calls among which is the engine's abort on the handle of
`t`. -/
def AbortedSince {σ : Type} (t : FwpmTransaction) (w : World σ) (t2 : FwpmTransaction)
    (w2 : World σ) : Prop :=
  t2 = { t with m_state := State.Aborted } ∧
    ∃ rest, w2.log = w.log ++ rest ∧ EngineCall.TransactionAbort0 t.m_engine ∈ rest

/-- The transaction `t` works on the handle `engine`, the log of `w` extends
`base`, and if `t` is `Aborted` the extension contains the engine's abort on
that handle. -/
def AbortLogged {σ : Type} (engine : HANDLE) (base : List EngineCall) (t : FwpmTransaction)
    (w : World σ) : Prop :=
  t.m_engine = engine ∧
    ∃ rest, w.log = base ++ rest ∧
      (t.m_state = State.Aborted → EngineCall.TransactionAbort0 engine ∈ rest)

/-- A sample interleaving: `A`, `B`, a drain, `A` again. -/
def calls0 : List Call :=
  [Call.record keyA, Call.record keyB, Call.drainChanged, Call.record keyA]

/-- A committed transaction on handle 1. -/
def txnCommitted : FwpmTransaction := { m_engine := 1, m_state := State.Committed }

/-! ## The session (`FwpmEngine.hpp`) and the net-event option (`main.cpp`,
`NetEventCollectionGuard.hpp`) -/

/-- The fields of `FWP_VALUE0` that the program reads and writes: the type tag
and the `uint32` member. -/
structure FWP_VALUE0 where
  type : Nat
  uint32 : Nat
deriving DecidableEq, Repr

/-- The part of the Windows Filtering Platform used for sessions and engine
options (`fwpmu.h`, `winerror.h`, `handleapi.h`; none of it is part of the
repository): the constants the code compares against and the entry points, as
transitions of an arbitrary engine state `σ`.  `FwpmEngineOpen0` gets whether a
dynamic session was asked for and answers a status and a handle;
`FwpmEngineGetOption0` answers a status and the value written through `pOpt`
(`none` for a null pointer). -/
structure SessionApi (σ : Type) where
  ERROR_SUCCESS : DWORD
  INVALID_HANDLE_VALUE : HANDLE
  FWP_UINT32 : Nat
  FwpmEngineOpen0 : σ → Bool → (DWORD × HANDLE) × σ
  FwpmEngineClose0 : σ → HANDLE → DWORD × σ
  FwpmEngineGetOption0 : σ → HANDLE → (DWORD × Option FWP_VALUE0) × σ
  FwpmEngineSetOption0 : σ → HANDLE → FWP_VALUE0 → DWORD × σ

/-- A diagnostic written to `std::cerr`, by the message it carries. -/
inductive Diag where
  | openFailed
  | readFailed (status : DWORD)
  | disabledNoPrompt
  | setFailed (status : DWORD)
  | restoreOpenFailed (status : DWORD)
  | restoreSetFailed (status : DWORD)
deriving DecidableEq, Repr

/-- An observable action of the session and option code: an engine call with
its answer, a line read from `std::cin` (`none` when `std::getline` fails), or
a diagnostic. -/
inductive SysCall where
  | EngineOpen0 (dynamic : Bool) (status : DWORD) (h : HANDLE)
  | EngineClose0 (h : HANDLE)
  | EngineGetOption0 (h : HANDLE) (status : DWORD) (value : Option FWP_VALUE0)
  | EngineSetOption0 (h : HANDLE) (value : FWP_VALUE0) (status : DWORD)
  | FreeMemory0
  | getline (line : Option String)
  | cerr (d : Diag)
deriving DecidableEq, Repr

/-- The engine, the record of the actions so far and the lines still waiting
on `std::cin`. -/
structure Sys (σ : Type) where
  eng : σ
  log : List SysCall
  cin : List String

/-- The class `FwpmRuntimeException`: the message and, when the constructor
taking a code was used, the code. -/
structure FwpmRuntimeException where
  msg : String
  code : Option DWORD
deriving DecidableEq, Repr

/-- The data member `m_engine` of `FwpmEngine` (`m_sessionName` is never
read). -/
structure FwpmEngine where
  m_engine : HANDLE := 0
deriving DecidableEq, Repr

/-- The member `FwpmEngine::operator bool`. -/
def FwpmEngine.toBool (INVALID_HANDLE_VALUE : HANDLE) (e : FwpmEngine) : Bool :=
  e.m_engine ≠ 0 && e.m_engine ≠ INVALID_HANDLE_VALUE

/-- The private constructor `FwpmEngine(HANDLE)`. -/
def FwpmEngine.ofHandle (engineHandle : HANDLE) : Except FwpmRuntimeException FwpmEngine :=
  if engineHandle = 0 then
    Except.error { msg := "FwpmTransaction: null engine handle", code := none }
  else Except.ok { m_engine := engineHandle }

/-- The call `FwpmEngineOpen0(nullptr, RPC_C_AUTHN_DEFAULT, nullptr, session, &engine)`
with its entry in the log. -/
def engineOpen {σ : Type} (api : SessionApi σ) (dynamic : Bool) (s : Sys σ) :
    (DWORD × HANDLE) × Sys σ :=
  let r := api.FwpmEngineOpen0 s.eng dynamic
  (r.1, { s with eng := r.2, log := s.log ++ [SysCall.EngineOpen0 dynamic r.1.1 r.1.2] })

/-- The call `FwpmEngineClose0(h)` with its entry in the log. -/
def engineClose {σ : Type} (api : SessionApi σ) (h : HANDLE) (s : Sys σ) : Sys σ :=
  { s with eng := (api.FwpmEngineClose0 s.eng h).2, log := s.log ++ [SysCall.EngineClose0 h] }

/-- The static members `FwpmEngine::acquireGlobal` (`dynamic = false`) and
`FwpmEngine::acquireTemporary` (`dynamic = true`). -/
def FwpmEngine.acquire {σ : Type} (api : SessionApi σ) (dynamic : Bool) (s : Sys σ) :
    Except FwpmRuntimeException FwpmEngine × Sys σ :=
  let r := engineOpen api dynamic s
  if r.1.1 ≠ api.ERROR_SUCCESS then
    (Except.error { msg := "Construct new FwpmEngine", code := some r.1.1 }, r.2)
  else (FwpmEngine.ofHandle r.1.2, r.2)

/-- The destructor `~FwpmEngine`. -/
def FwpmEngine.destroy {σ : Type} (api : SessionApi σ) (e : FwpmEngine) (s : Sys σ) :
    FwpmEngine × Sys σ :=
  if e.toBool api.INVALID_HANDLE_VALUE then ({ m_engine := 0 }, engineClose api e.m_engine s)
  else ({ m_engine := 0 }, s)

/-- The defaulted copy constructor and copy assignment of `FwpmEngine`: the
new value of the target. -/
def FwpmEngine.copy (other : FwpmEngine) : FwpmEngine :=
  { m_engine := other.m_engine }

/-- The move constructor and the move assignment of `FwpmEngine`: the new
values of the target and of `other`. -/
def FwpmEngine.move (other : FwpmEngine) : FwpmEngine × FwpmEngine :=
  ({ m_engine := other.m_engine }, { m_engine := 0 })

/-- The member `FwpmEngine::beginTransaction`. -/
def FwpmEngine.beginTransaction {σ : Type} (api : FwpmApi σ) (e : FwpmEngine) (w : World σ) :
    Except FwpmException FwpmTransaction × World σ :=
  FwpmTransaction.begin api e.m_engine w

/-- An operation of a client on its session objects, which are numbered in the
order of their construction. -/
inductive SessionOp where
  | acquireGlobal
  | acquireTemporary
  | copyConstruct (src : Nat)
  | moveConstruct (src : Nat)
  | copyAssign (dst src : Nat)
  | moveAssign (dst src : Nat)
  | destroy (i : Nat)
deriving DecidableEq, Repr

/-- The session object number `i`, when it has been constructed and not yet
destroyed. -/
def liveSession (objs : List (Option FwpmEngine)) (i : Nat) : Option FwpmEngine :=
  (objs.get? i).join

/-- One operation on the session objects; an operation that names an object
outside its lifetime, or whose constructor throws, leaves the objects as they
are. -/
def sessionStep {σ : Type} (api : SessionApi σ) (objs : List (Option FwpmEngine)) (s : Sys σ) :
    SessionOp → List (Option FwpmEngine) × Sys σ
  | SessionOp.acquireGlobal =>
    match FwpmEngine.acquire api false s with
    | (Except.ok e, s1) => (objs ++ [some e], s1)
    | (Except.error _, s1) => (objs, s1)
  | SessionOp.acquireTemporary =>
    match FwpmEngine.acquire api true s with
    | (Except.ok e, s1) => (objs ++ [some e], s1)
    | (Except.error _, s1) => (objs, s1)
  | SessionOp.copyConstruct src =>
    match liveSession objs src with
    | some other => (objs ++ [some other.copy], s)
    | none => (objs, s)
  | SessionOp.moveConstruct src =>
    match liveSession objs src with
    | some other => (objs.set src (some other.move.2) ++ [some other.move.1], s)
    | none => (objs, s)
  | SessionOp.copyAssign dst src =>
    match liveSession objs dst, liveSession objs src with
    | some _, some other => (objs.set dst (some other.copy), s)
    | _, _ => (objs, s)
  | SessionOp.moveAssign dst src =>
    match liveSession objs dst, liveSession objs src with
    | some _, some other => ((objs.set dst (some other.move.1)).set src (some other.move.2), s)
    | _, _ => (objs, s)
  | SessionOp.destroy i =>
    match liveSession objs i with
    | some e => (objs.set i none, (FwpmEngine.destroy api e s).2)
    | none => (objs, s)

/-- A sequence of operations on the session objects. -/
def sessionRun {σ : Type} (api : SessionApi σ) :
    List SessionOp → List (Option FwpmEngine) → Sys σ → List (Option FwpmEngine) × Sys σ
  | [], objs, s => (objs, s)
  | op :: ops, objs, s =>
    sessionRun api ops (sessionStep api objs s op).1 (sessionStep api objs s op).2

/-- The number of `FwpmEngineClose0(h)` calls in a log. -/
def closeCount (h : HANDLE) (log : List SysCall) : Nat :=
  log.count (SysCall.EngineClose0 h)

/-- An engine that opens every session, with the handles 5, 6, ... in turn,
the option value read being 0 with the `FWP_UINT32` tag 3, and accepts every
other call. -/
def handleApi : SessionApi Nat :=
  { ERROR_SUCCESS := 0
    INVALID_HANDLE_VALUE := 2 ^ 64 - 1
    FWP_UINT32 := 3
    FwpmEngineOpen0 := fun n _ => ((0, n + 5), n + 1)
    FwpmEngineClose0 := fun n _ => (0, n)
    FwpmEngineGetOption0 := fun n _ => ((0, some { type := 3, uint32 := 0 }), n)
    FwpmEngineSetOption0 := fun n _ _ => (0, n) }

/-- A fresh system for the sample engines, with nothing on `std::cin`. -/
def sys0 : Sys Nat := { eng := 0, log := [], cin := [] }

/-- The struct `RunConfig` of `main.cpp`. -/
structure RunConfig where
  interactive : Bool := true
deriving DecidableEq, Repr

/-- The struct `NetEventState` of `NetEventCollectionGuard.hpp`, with its
default member initialisers. -/
structure NetEventState where
  engineCollectsNetEvents : Bool := false
  weChangedOption : Bool := false
  originalValue : Nat := 0
deriving DecidableEq, Repr

/-- One more action in the log. -/
def Sys.note {σ : Type} (s : Sys σ) (c : SysCall) : Sys σ :=
  { s with log := s.log ++ [c] }

/-- The loop of `promptYesNo` on the lines waiting on `std::cin`: the answer,
the lines left and the lines read (`none` for a failed `std::getline`).  An
empty line stands for the default answer, and the answer is
`tolower(line[0])`.  Each turn of the loop reads one line, so the loop ends on
every finite input. -/
def promptYesNoLoop (defaultAnswer : Char) : List String → Bool × List String × List SysCall
  | [] => (false, [], [SysCall.getline none])
  | l :: rest =>
    let c := (match l.data with
      | [] => defaultAnswer
      | ch :: _ => ch).toLower
    if c = 'y' then (true, rest, [SysCall.getline (some l)])
    else if c = 'n' then (false, rest, [SysCall.getline (some l)])
    else
      ((promptYesNoLoop defaultAnswer rest).1, (promptYesNoLoop defaultAnswer rest).2.1,
        SysCall.getline (some l) :: (promptYesNoLoop defaultAnswer rest).2.2)

/-- The function `promptYesNo` of `main.cpp`. -/
def promptYesNo {σ : Type} (defaultAnswer : Char) (s : Sys σ) : Bool × Sys σ :=
  ((promptYesNoLoop defaultAnswer s.cin).1,
    { s with cin := (promptYesNoLoop defaultAnswer s.cin).2.1,
             log := s.log ++ (promptYesNoLoop defaultAnswer s.cin).2.2 })

/-- The loop of `promptChoice` on the lines waiting on `std::cin`; the test
`valid.contains(c)` is membership among the characters of `valid`. -/
def promptChoiceLoop (valid : String) (defaultAnswer : Char) :
    List String → Char × List String × List SysCall
  | [] => (defaultAnswer, [], [SysCall.getline none])
  | l :: rest =>
    match l.data with
    | [] => (defaultAnswer, rest, [SysCall.getline (some l)])
    | ch :: _ =>
      if valid.data.contains ch.toLower then (ch.toLower, rest, [SysCall.getline (some l)])
      else
        ((promptChoiceLoop valid defaultAnswer rest).1,
          (promptChoiceLoop valid defaultAnswer rest).2.1,
          SysCall.getline (some l) :: (promptChoiceLoop valid defaultAnswer rest).2.2)

/-- The function `promptChoice` of `main.cpp`. -/
def promptChoice {σ : Type} (valid : String) (defaultAnswer : Char) (s : Sys σ) :
    Char × Sys σ :=
  ((promptChoiceLoop valid defaultAnswer s.cin).1,
    { s with cin := (promptChoiceLoop valid defaultAnswer s.cin).2.1,
             log := s.log ++ (promptChoiceLoop valid defaultAnswer s.cin).2.2 })

/-- The call `FwpmEngineGetOption0(h, FWPM_ENGINE_COLLECT_NET_EVENTS, &pOpt)`
with its entry in the log. -/
def engineGetOption {σ : Type} (api : SessionApi σ) (h : HANDLE) (s : Sys σ) :
    (DWORD × Option FWP_VALUE0) × Sys σ :=
  let r := api.FwpmEngineGetOption0 s.eng h
  (r.1, { s with eng := r.2, log := s.log ++ [SysCall.EngineGetOption0 h r.1.1 r.1.2] })

/-- The call `FwpmEngineSetOption0(h, FWPM_ENGINE_COLLECT_NET_EVENTS, &opt)`
with its entry in the log. -/
def engineSetOption {σ : Type} (api : SessionApi σ) (h : HANDLE) (opt : FWP_VALUE0)
    (s : Sys σ) : DWORD × Sys σ :=
  let r := api.FwpmEngineSetOption0 s.eng h opt
  (r.1, { s with eng := r.2, log := s.log ++ [SysCall.EngineSetOption0 h opt r.1] })

/-- The question both failure branches of `probeAndNegotiateNetEvents` ask
when the state of the option cannot be determined: fail when unattended or
when the operator declines, else go on without the option. -/
def continueWithoutOption {σ : Type} (config : RunConfig) (state : NetEventState)
    (s : Sys σ) : Bool × NetEventState × Sys σ :=
  if !config.interactive then (false, state, s)
  else if !(promptYesNo 'y' s).1 then (false, state, (promptYesNo 'y' s).2)
  else (true, { state with engineCollectsNetEvents := false, weChangedOption := false },
    (promptYesNo 'y' s).2)

/-- The part of `probeAndNegotiateNetEvents` after the option was read as
disabled (lines 283 to 334): the handle `h` is the one named `engine` there. -/
def enableOption {σ : Type} (api : SessionApi σ) (config : RunConfig) (h : HANDLE)
    (state : NetEventState) (s : Sys σ) : Bool × NetEventState × Sys σ :=
  if !config.interactive then (false, state, s.note (SysCall.cerr Diag.disabledNoPrompt))
  else
    let choice := promptChoice "ecq" 'e' s
    if choice.1 = 'q' ∨ choice.1 = 'Q' then (false, state, choice.2)
    else if choice.1 = 'c' ∨ choice.1 = 'C' then
      (true, { state with weChangedOption := false }, choice.2)
    else
      let r := engineSetOption api h { type := api.FWP_UINT32, uint32 := 1 } choice.2
      if r.1 ≠ api.ERROR_SUCCESS then (false, state, r.2.note (SysCall.cerr (Diag.setFailed r.1)))
      else
        (true, { state with engineCollectsNetEvents := true,
                            weChangedOption := (state.originalValue == 0) }, r.2)

/-- The function `probeAndNegotiateNetEvents` of `main.cpp`: the value returned,
the `NetEventState` afterwards and the system afterwards.  The session
`globalEngine` lives in the `try` block only, so its destructor runs at the end
of that block; the names `globalEngine` (line 235) and `engine` (line 319),
which no declaration in scope binds, are read as the handle that was opened. -/
def probeAndNegotiateNetEvents {σ : Type} (api : SessionApi σ) (config : RunConfig)
    (state : NetEventState) (s : Sys σ) : Bool × NetEventState × Sys σ :=
  match FwpmEngine.acquire api false s with
  | (Except.error _, s1) =>
    continueWithoutOption config state (s1.note (SysCall.cerr Diag.openFailed))
  | (Except.ok globalEngine, s1) =>
    let s2 := (FwpmEngine.destroy api globalEngine s1).2
    let g := engineGetOption api globalEngine.m_engine s2
    match g.1.2 with
    | none =>
      continueWithoutOption config state (g.2.note (SysCall.cerr (Diag.readFailed g.1.1)))
    | some opt =>
      if g.1.1 ≠ api.ERROR_SUCCESS ∨ opt.type ≠ api.FWP_UINT32 then
        continueWithoutOption config state
          ((g.2.note (SysCall.cerr (Diag.readFailed g.1.1))).note SysCall.FreeMemory0)
      else
        let state1 : NetEventState :=
          { state with engineCollectsNetEvents := (opt.uint32 != 0),
                       originalValue := opt.uint32 }
        let s3 := g.2.note SysCall.FreeMemory0
        if state1.engineCollectsNetEvents then
          (true, { state1 with weChangedOption := false }, s3)
        else enableOption api config globalEngine.m_engine state1 s3

/-- The function `restoreNetEventsIfNeeded` of `NetEventCollectionGuard.hpp`. -/
def restoreNetEventsIfNeeded {σ : Type} (api : SessionApi σ) (state : NetEventState)
    (s : Sys σ) : Sys σ :=
  if !state.weChangedOption then s
  else
    let o := engineOpen api false s
    if o.1.1 ≠ api.ERROR_SUCCESS then o.2.note (SysCall.cerr (Diag.restoreOpenFailed o.1.1))
    else
      let r := engineSetOption api o.1.2
        { type := api.FWP_UINT32, uint32 := state.originalValue } o.2
      let s3 := if r.1 ≠ api.ERROR_SUCCESS then
        r.2.note (SysCall.cerr (Diag.restoreSetFailed r.1)) else r.2
      engineClose api o.1.2 s3

/-- The destructor `~NetEventCollectionGuard`, on the state its pointer refers
to (`none` for a null pointer). -/
def NetEventCollectionGuard.destroy {σ : Type} (api : SessionApi σ)
    (state : Option NetEventState) (s : Sys σ) : Sys σ :=
  match state with
  | some st => if st.weChangedOption then restoreNetEventsIfNeeded api st s else s
  | none => s

/-- The set-option calls among logged actions, each with its value and the
status the engine answered. -/
def setOptionCalls : List SysCall → List (FWP_VALUE0 × DWORD)
  | [] => []
  | SysCall.EngineSetOption0 _ v st :: rest => (v, st) :: setOptionCalls rest
  | _ :: rest => setOptionCalls rest

/-- The lines read from `std::cin`, or attempts to, among logged actions. -/
def getlineCalls : List SysCall → List (Option String)
  | [] => []
  | SysCall.getline l :: rest => l :: getlineCalls rest
  | _ :: rest => getlineCalls rest

/-- An engine like `handleApi` on which the option is read as enabled
(value 1). -/
def enabledApi : SessionApi Nat :=
  { handleApi with
    FwpmEngineGetOption0 := fun n _ => ((0, some { type := 3, uint32 := 1 }), n) }

/-- An engine like `handleApi` on which reading the option fails with
status 5. -/
def unreadableApi : SessionApi Nat :=
  { handleApi with FwpmEngineGetOption0 := fun n _ => ((5, none), n) }

/-- An engine like `handleApi` that rejects set-option calls with status 5. -/
def readOnlyApi : SessionApi Nat :=
  { handleApi with FwpmEngineSetOption0 := fun n _ _ => (5, n) }

/-- The value with which the option was read, when one of the logged
get-option calls answered success with a non-null value of type `FWP_UINT32`
(the first such call). -/
def optionRead {σ : Type} (api : SessionApi σ) : List SysCall → Option Nat
  | [] => none
  | SysCall.EngineGetOption0 _ st (some v) :: rest =>
    if st = api.ERROR_SUCCESS ∧ v.type = api.FWP_UINT32 then some v.uint32
    else optionRead api rest
  | _ :: rest => optionRead api rest

/-- The actions logged between the systems `s` and `s1`. -/
def newLog {σ : Type} (s s1 : Sys σ) : List SysCall :=
  s1.log.drop s.log.length

/-- A system on which the operator answers `e`. -/
def sysE : Sys Nat := { eng := 0, log := [], cin := ["e"] }

/-- A system on which the operator answers `c`. -/
def sysC : Sys Nat := { eng := 0, log := [], cin := ["c"] }

/-! ## The net-event callback (`main.cpp`, `FwpmNetEventHeader.hpp`, `UTF16.hpp`,
`SocketAddress.hpp`) -/

/-- The enum `UTF16::ResultCodes`. -/
inductive UTF16.ResultCodes where
  | SUCCESS
  | INCOMPLETE_PAIR
  | INVALID_HIGH_SURROGATE
  | INVALID_LOW_SURROGATE
deriving DecidableEq, Repr

/-- The struct `UTF16::Result`, with its default member initialisers. -/
structure UTF16.Result where
  codepoint : Nat := 0
  error_code : UTF16.ResultCodes := UTF16.ResultCodes.SUCCESS
deriving DecidableEq, Repr

/-- The member `UTF16::isHighSurrogate`. -/
def UTF16.isHighSurrogate (u : Nat) : Bool :=
  decide (u ≥ 0xD800) && decide (u ≤ 0xDBFF)

/-- The member `UTF16::isLowSurrogate`. -/
def UTF16.isLowSurrogate (u : Nat) : Bool :=
  decide (u ≥ 0xDC00) && decide (u ≤ 0xDFFF)

/-- The member `UTF16::combineSurrogates`: the differences are computed in
`int` and converted to `uint32_t`, the shift and the bitwise ors are
`uint32_t` operations. -/
def UTF16.combineSurrogates (high low : Nat) : Nat :=
  ((((high + 2 ^ 32 - 0xD800) % 2 ^ 32) <<< 10) % 2 ^ 32)
    ||| ((low + 2 ^ 32 - 0xDC00) % 2 ^ 32)
    ||| 0x10000

/-- The 16-bit unit `static_cast<uint16_t>(b0 | (b1 << 8))` of two bytes read
through `static_cast<uint8_t>`. -/
def UTF16.unit (b0 b1 : Nat) : Nat :=
  ((b0 % 256) ||| ((b1 % 256) <<< 8)) % 65536

/-- The member `UTF16::nextCodepoint`.  The iterator is the list of the
elements it has yet to yield, the end iterator being the empty list; the
answer is the value returned, `result` and the iterator afterwards. -/
def UTF16.nextCodepoint : List Nat → (Nat × UTF16.Result) × List Nat
  | [] => ((0, { codepoint := 0, error_code := UTF16.ResultCodes.SUCCESS }), [])
  | [b0] =>
    ((0, { codepoint := b0 % 256, error_code := UTF16.ResultCodes.INCOMPLETE_PAIR }), [])
  | b0 :: b1 :: rest =>
    if !UTF16.isHighSurrogate (UTF16.unit b0 b1) then
      if UTF16.isLowSurrogate (UTF16.unit b0 b1) then
        ((0, { codepoint := UTF16.unit b0 b1,
               error_code := UTF16.ResultCodes.INVALID_LOW_SURROGATE }), rest)
      else
        ((UTF16.unit b0 b1, { codepoint := UTF16.unit b0 b1,
                              error_code := UTF16.ResultCodes.SUCCESS }), rest)
    else
      match rest with
      | [] =>
        ((0, { codepoint := UTF16.unit b0 b1,
               error_code := UTF16.ResultCodes.INCOMPLETE_PAIR }), [])
      | [_] =>
        ((0, { codepoint := UTF16.unit b0 b1,
               error_code := UTF16.ResultCodes.INCOMPLETE_PAIR }), [])
      | c0 :: c1 :: rest2 =>
        if !UTF16.isLowSurrogate (UTF16.unit c0 c1) then
          ((0, { codepoint := ((UTF16.unit b0 b1 <<< 16) % 2 ^ 32) ||| UTF16.unit c0 c1,
                 error_code := UTF16.ResultCodes.INVALID_HIGH_SURROGATE }), rest2)
        else
          ((UTF16.combineSurrogates (UTF16.unit b0 b1) (UTF16.unit c0 c1),
            { codepoint := UTF16.combineSurrogates (UTF16.unit b0 b1) (UTF16.unit c0 c1),
              error_code := UTF16.ResultCodes.SUCCESS }), rest2)

/-- The fields of `FWP_BYTE_BLOB`: the size and the bytes `data` points to,
`none` for a null pointer. -/
structure FWP_BYTE_BLOB where
  size : Nat
  data : Option (List Nat)
deriving DecidableEq, Repr

/-- The fields of `FWPM_NET_EVENT_HEADER3` that the callback reads, which are
the data members of `FwpmNetEventHeader`. -/
structure FwpmNetEventHeader where
  ipVersion : Nat
  ipProtocol : Nat
  localAddrV4 : Nat
  remoteAddrV4 : Nat
  localAddrV6 : List Nat
  remoteAddrV6 : List Nat
  localPort : Nat
  remotePort : Nat
  appId : FWP_BYTE_BLOB
deriving DecidableEq, Repr

/-- The literal `L"<unknown>"`. -/
def unknownAppPath : List Nat := [60, 117, 110, 107, 110, 111, 119, 110, 62]

/-- The lambda `emitBreak` of `getAppPath`: the literal `L" �| "`. -/
def emitBreak : List Nat := [0x20, 0xFFFD, 0x7C, 0x20]

/-- The lambda `emitBreakEnd` of `getAppPath`: the literal `L" |� "`. -/
def emitBreakEnd : List Nat := [0x20, 0x7C, 0xFFFD, 0x20]

/-- An upper-case hexadecimal digit as a character code. -/
def hexDigitUpper (d : Nat) : Nat :=
  if d < 10 then 0x30 + d else 0x41 + (d - 10)

/-- The text that `swprintf(buf, 7, L"0x%04X", u)` writes for `u` below
`0x10000`. -/
def hex04X (u : Nat) : List Nat :=
  [0x30, 0x78, hexDigitUpper (u / 4096 % 16), hexDigitUpper (u / 256 % 16),
    hexDigitUpper (u / 16 % 16), hexDigitUpper (u % 16)]

/-- The test `std::isspace` of the classic locale on a byte. -/
def isSpaceByte (b : Nat) : Bool :=
  decide (b % 256 = 0x20) || (decide (0x09 ≤ b % 256) && decide (b % 256 ≤ 0x0D))

/-- The elements that the `std::istream_iterator<char>` over the bytes yields:
it reads through the formatted `operator>>`, which skips white space. -/
def istreamChars (bytes : List Nat) : List Nat :=
  bytes.filter (fun b => !isSpaceByte b)

/-- The `while` loop of `getAppPath`: `it` is the iterator, `out` the string
built so far, `fuel` the number of turns allowed, and `none` is returned when
they are used up. -/
def getAppPathLoop : Nat → List Nat → List Nat → Option (List Nat)
  | fuel, it, out =>
    match it with
    | [] => some out
    | _ :: _ =>
      match fuel with
      | 0 => none
      | fuel + 1 =>
        let r := UTF16.nextCodepoint it
        match r.1.2.error_code with
        | UTF16.ResultCodes.SUCCESS =>
          if r.1.1 ≤ 0xFFFF then getAppPathLoop fuel r.2 (out ++ [r.1.1 % 65536])
          else
            getAppPathLoop fuel r.2
              (out ++ [(0xD800 + (((r.1.1 - 0x10000) % 2 ^ 32) >>> 10)) % 65536,
                       (0xDC00 + (((r.1.1 - 0x10000) % 2 ^ 32) &&& 0x3FF)) % 65536])
        | UTF16.ResultCodes.INCOMPLETE_PAIR =>
          getAppPathLoop fuel []
            (out ++ emitBreak ++ hex04X (r.1.2.codepoint &&& 0xFFFF) ++ emitBreakEnd)
        | UTF16.ResultCodes.INVALID_LOW_SURROGATE =>
          getAppPathLoop fuel r.2
            (out ++ emitBreak ++ hex04X (r.1.2.codepoint &&& 0xFFFF) ++ emitBreakEnd)
        | UTF16.ResultCodes.INVALID_HIGH_SURROGATE =>
          getAppPathLoop fuel r.2
            (out ++ emitBreak ++ hex04X ((r.1.2.codepoint >>> 16) &&& 0xFFFF) ++ [0x20]
              ++ hex04X (r.1.2.codepoint &&& 0xFFFF) ++ emitBreakEnd)

/-- The member `FwpmNetEventHeader::getAppPath`, as a list of `wchar_t` units;
`none` when the loop has not ended after one turn for each element of the
iterator. -/
def FwpmNetEventHeader.getAppPath (hdr : FwpmNetEventHeader) : Option (List Nat) :=
  match hdr.appId.data with
  | none => some unknownAppPath
  | some data =>
    if hdr.appId.size = 0 then some unknownAppPath
    else
      match getAppPathLoop (istreamChars (data.take hdr.appId.size)).length
          (istreamChars (data.take hdr.appId.size)) [] with
      | none => none
      | some out => if out = [] then some unknownAppPath else some out

/-- The function `to_string(const std::pair<UINT32, UINT16>&)` of
`SocketAddress.hpp`. -/
def socketV4ToString (addr port : Nat) : String :=
  toString ((addr >>> 24) &&& 0xFF) ++ "." ++ toString ((addr >>> 16) &&& 0xFF) ++ "."
    ++ toString ((addr >>> 8) &&& 0xFF) ++ "." ++ toString ((addr >>> 0) &&& 0xFF)
    ++ ":" ++ toString port

/-- A lower-case hexadecimal digit. -/
def hexDigitLower (d : Nat) : Char :=
  if d < 10 then Char.ofNat (0x30 + d) else Char.ofNat (0x61 + (d - 10))

/-- The text of `std::format("{:04x}", u)` for `u` below `0x10000`. -/
def hex04x (u : Nat) : String :=
  String.mk [hexDigitLower (u / 4096 % 16), hexDigitLower (u / 256 % 16),
    hexDigitLower (u / 16 % 16), hexDigitLower (u % 16)]

/-- The group number `i / 2` of an IPv6 address,
`(addr.byteArray16[i] << 8) | addr.byteArray16[i + 1]`. -/
def v6Group (addr : List Nat) (i : Nat) : Nat :=
  (((addr.getD i 0) % 256) <<< 8) ||| ((addr.getD (i + 1) 0) % 256)

/-- The function `to_string(const std::pair<FWP_BYTE_ARRAY16, UINT16>&)` of
`SocketAddress.hpp`. -/
def socketV6ToString (addr : List Nat) (port : Nat) : String :=
  "[" ++ hex04x (v6Group addr 0) ++ ":" ++ hex04x (v6Group addr 2) ++ ":"
    ++ hex04x (v6Group addr 4) ++ ":" ++ hex04x (v6Group addr 6) ++ ":"
    ++ hex04x (v6Group addr 8) ++ ":" ++ hex04x (v6Group addr 10) ++ ":"
    ++ hex04x (v6Group addr 12) ++ ":" ++ hex04x (v6Group addr 14) ++ "]:" ++ toString port

/-- The constants of `fwpmtypes.h` and `fwptypes.h` that the callback compares
against (none of them is part of the repository).  The labels of one `switch`
are distinct, or the program is ill-formed. -/
structure EventCodes where
  FWPM_NET_EVENT_TYPE_CLASSIFY_DROP : Nat
  FWPM_NET_EVENT_TYPE_CLASSIFY_ALLOW : Nat
  FWP_DIRECTION_INBOUND : Nat
  FWP_DIRECTION_OUTBOUND : Nat
  FWP_IP_VERSION_V4 : Nat
  FWP_IP_VERSION_V6 : Nat
  drop_ne_allow : FWPM_NET_EVENT_TYPE_CLASSIFY_DROP ≠ FWPM_NET_EVENT_TYPE_CLASSIFY_ALLOW
  inbound_ne_outbound : FWP_DIRECTION_INBOUND ≠ FWP_DIRECTION_OUTBOUND

/-- The fields of `FWPM_NET_EVENT_CLASSIFY_DROP2` and of
`FWPM_NET_EVENT_CLASSIFY_ALLOW0` that the callback reads. -/
structure FWPM_NET_EVENT_CLASSIFY where
  layerId : Nat
  filterId : Nat
  msFwpDirection : Nat
deriving DecidableEq, Repr

/-- The fields of `FWPM_NET_EVENT5` that the callback reads; the payload
pointers are `none` when null. -/
structure FWPM_NET_EVENT5 where
  header : FwpmNetEventHeader
  type : Nat
  classifyDrop : Option FWPM_NET_EVENT_CLASSIFY
  classifyAllow : Option FWPM_NET_EVENT_CLASSIFY
deriving DecidableEq, Repr

/-- The inner `switch` on `msFwpDirection` in `netEventCallback`. -/
def directionOf (codes : EventCodes) (msFwpDirection : Nat) : EventDirection :=
  if msFwpDirection = codes.FWP_DIRECTION_INBOUND then EventDirection.Inbound
  else if msFwpDirection = codes.FWP_DIRECTION_OUTBOUND then EventDirection.Outbound
  else EventDirection.Unknown

/-- The locals `layerId`, `filterId`, `dir` and `type` of `netEventCallback`
after the `switch` on `event->type` (lines 351 to 414). -/
def classifyEvent (codes : EventCodes) (event : FWPM_NET_EVENT5) :
    Nat × Nat × EventDirection × EventType :=
  if event.type = codes.FWPM_NET_EVENT_TYPE_CLASSIFY_DROP then
    match event.classifyDrop with
    | some p => (p.layerId, p.filterId, directionOf codes p.msFwpDirection, EventType.Drop)
    | none => (0, 0, EventDirection.Unknown, EventType.Drop)
  else if event.type = codes.FWPM_NET_EVENT_TYPE_CLASSIFY_ALLOW then
    match event.classifyAllow with
    | some p => (p.layerId, p.filterId, directionOf codes p.msFwpDirection, EventType.Allow)
    | none => (0, 0, EventDirection.Unknown, EventType.Allow)
  else (0, 0, EventDirection.Unknown, EventType.Other)

/-- The locals `localSocket` and `remoteSocket` of `netEventCallback` when
`recordEvent` is called (lines 416 to 447). -/
def eventSockets (codes : EventCodes) (hdr : FwpmNetEventHeader) : String × String :=
  let v4 : String × String :=
    if hdr.ipVersion = codes.FWP_IP_VERSION_V4 then
      (socketV4ToString hdr.localAddrV4 hdr.localPort,
        socketV4ToString hdr.remoteAddrV4 hdr.remotePort)
    else ("N/A", "N/A")
  if hdr.ipVersion = codes.FWP_IP_VERSION_V6 then
    (socketV6ToString hdr.localAddrV6 hdr.localPort,
      socketV6ToString hdr.remoteAddrV6 hdr.remotePort)
  else v4

/-- The key that `netEventCallback` builds for an event; `none` when
`getAppPath` does not return. -/
def eventKey (codes : EventCodes) (event : FWPM_NET_EVENT5) : Option EventKey :=
  match event.header.getAppPath with
  | none => none
  | some appPath =>
    some { localSocket := (eventSockets codes event.header).1
           remoteSocket := (eventSockets codes event.header).2
           protocol := event.header.ipProtocol
           layerId := (classifyEvent codes event).1
           type := (classifyEvent codes event).2.2.2
           direction := (classifyEvent codes event).2.2.1
           filterId := (classifyEvent codes event).2.1
           appName := appPath }

/-- The function `netEventCallback` of `main.cpp`: the aggregator that
`context` points to afterwards (`none` for a null `context`), and `none` when
the callback does not return. -/
def netEventCallback (codes : EventCodes) (context : Option Aggregator)
    (event : Option FWPM_NET_EVENT5) : Option (Option Aggregator) :=
  match event, context with
  | none, _ => some context
  | some _, none => some none
  | some ev, some agg =>
    match eventKey codes ev with
    | none => none
    | some key => some (some (recordEvent agg key))

/-- The sum of all counts in the aggregator. -/
def sumCounts (agg : Aggregator) : Nat :=
  (agg.map.map (fun e => e.2.count)).sum

/-- The values of the constants in the Windows SDK. -/
def sdkCodes : EventCodes :=
  { FWPM_NET_EVENT_TYPE_CLASSIFY_DROP := 3
    FWPM_NET_EVENT_TYPE_CLASSIFY_ALLOW := 6
    FWP_DIRECTION_INBOUND := 1
    FWP_DIRECTION_OUTBOUND := 0
    FWP_IP_VERSION_V4 := 0
    FWP_IP_VERSION_V6 := 1
    drop_ne_allow := by decide
    inbound_ne_outbound := by decide }

/-- A header for TCP from 10.0.0.2:5000 to 10.0.0.1:80 without application
identity. -/
def header0 : FwpmNetEventHeader :=
  { ipVersion := 0, ipProtocol := 6, localAddrV4 := 0x0A000001, remoteAddrV4 := 0x0A000002,
    localAddrV6 := [], remoteAddrV6 := [], localPort := 80, remotePort := 5000,
    appId := { size := 0, data := none } }

/-- A classify-drop event whose direction code 77 is none of the known ones. -/
def eventOddDirection : FWPM_NET_EVENT5 :=
  { header := header0, type := 3,
    classifyDrop := some { layerId := 13, filterId := 7, msFwpDirection := 77 },
    classifyAllow := none }

/-- The key of `eventOddDirection`. -/
def keyOddDirection : EventKey :=
  { localSocket := "10.0.0.1:80", remoteSocket := "10.0.0.2:5000", protocol := 6,
    layerId := 13, type := EventType.Drop, direction := EventDirection.Unknown,
    filterId := 7, appName := unknownAppPath }

/-- The UTF-16LE encoding of a sequence of 16-bit code units: for each unit its
low byte, then its high byte. -/
def utf16leBytes (units : List Nat) : List Nat :=
  units.flatMap (fun u => [u % 256, u / 256 % 256])

/-- The header `header0` with the bytes `bytes` as application identity. -/
def headerWithAppId (bytes : List Nat) : FwpmNetEventHeader :=
  { header0 with appId := { size := bytes.length, data := some bytes } }

/-! ## UTF-8 (`UTF8.hpp`, `console.hpp`) -/

/-- The enum `UTF8::ResultCodes`. -/
inductive UTF8.ResultCodes where
  | SUCCESS
  | INCOMPLETE_SEQUENCE
  | INVALID_FIRST_BYTE
  | INVALID_CONTINUATION_BYTE
deriving DecidableEq, Repr

/-- The struct `UTF8::Result`. -/
structure UTF8.Result where
  codepoint : Nat
  error_code : UTF8.ResultCodes
deriving DecidableEq, Repr

/-- The member `UTF8::expectedByteCount`. -/
def UTF8.expectedByteCount (byte : Nat) : Nat :=
  if byte &&& 0x80 = 0 then 1
  else if byte &&& 0xE0 = 0xC0 then 2
  else if byte &&& 0xF0 = 0xE0 then 3
  else if byte &&& 0xF8 = 0xF0 then 4
  else 0

/-- The member `UTF8::isValidContinuationByte`. -/
def UTF8.isValidContinuationByte (byte : Nat) : Bool :=
  decide (byte &&& 0xC0 = 0x80)

/-- The statement `codepoint = (codepoint << 6) | (byte & 0x3F)` on a
`uint32_t`. -/
def UTF8.push6 (codepoint byte : Nat) : Nat :=
  ((codepoint <<< 6) % 2 ^ 32) ||| (byte &&& 0x3F)

/-- The `while` loop of `UTF8::recoverFromError`: `byte` is the byte read last;
the answer is the code point and the iterator afterwards. -/
def UTF8.recoverLoop (codepoint byte : Nat) : List Nat → Nat × List Nat
  | [] => (codepoint, [])
  | b :: rest =>
    if byte &&& 0xC0 ≠ 0x80 then UTF8.recoverLoop (UTF8.push6 codepoint (b % 256)) (b % 256) rest
    else (codepoint, b :: rest)

/-- The member `UTF8::recoverFromError`: the value returned and the iterator
afterwards. -/
def UTF8.recoverFromError (codepoint : Nat) (it : List Nat) : Nat × List Nat :=
  match it with
  | [] => (codepoint, [])
  | b :: rest => UTF8.recoverLoop (UTF8.push6 codepoint (b % 256)) (b % 256) rest

/-- The `for` loop of `UTF8::nextCodepoint` and the statements after it, with
the number of turns still to make; the line it writes to `std::cout` on each
turn is left out. -/
def UTF8.readContinuation : Nat → Nat → List Nat → (Nat × UTF8.Result) × List Nat
  | 0, codepoint, it =>
    ((codepoint, { codepoint := codepoint, error_code := UTF8.ResultCodes.SUCCESS }), it)
  | _ + 1, codepoint, [] =>
    ((0, { codepoint := codepoint, error_code := UTF8.ResultCodes.INCOMPLETE_SEQUENCE }), [])
  | n + 1, codepoint, b :: rest =>
    if !UTF8.isValidContinuationByte (b % 256) then
      ((0, { codepoint := (UTF8.recoverFromError codepoint rest).1,
             error_code := UTF8.ResultCodes.INVALID_CONTINUATION_BYTE }),
        (UTF8.recoverFromError codepoint rest).2)
    else UTF8.readContinuation n (UTF8.push6 codepoint (b % 256)) rest

/-- The member `UTF8::nextCodepoint`.  The iterator is the list of the
elements it has yet to yield; the answer is the value returned, `result` and
the iterator afterwards. -/
def UTF8.nextCodepoint : List Nat → (Nat × UTF8.Result) × List Nat
  | [] => ((0, { codepoint := 0, error_code := UTF8.ResultCodes.SUCCESS }), [])
  | b :: rest =>
    match UTF8.expectedByteCount (b % 256) with
    | 1 => ((b % 256, { codepoint := b % 256, error_code := UTF8.ResultCodes.SUCCESS }), rest)
    | 2 => UTF8.readContinuation 1 ((b % 256) &&& 0x1F) rest
    | 3 => UTF8.readContinuation 2 ((b % 256) &&& 0x0F) rest
    | 4 => UTF8.readContinuation 3 ((b % 256) &&& 0x07) rest
    | _ =>
      ((0, { codepoint := (UTF8.recoverFromError (b % 256) rest).1,
             error_code := UTF8.ResultCodes.INVALID_FIRST_BYTE }),
        (UTF8.recoverFromError (b % 256) rest).2)

/-- The three bytes that `append_utf8` appends for `ch` between `0x800` and
`0xFFFF`. -/
def utf8Bytes3 (ch : Nat) : List Nat :=
  [(0xE0 ||| ((ch >>> 12) &&& 0x0F)) % 256, (0x80 ||| ((ch >>> 6) &&& 0x3F)) % 256,
    (0x80 ||| (ch &&& 0x3F)) % 256]

/-- The function `ansi_ui::append_utf8` of `console.hpp`, on the bytes of
`out`; its last branch calls itself with `0xFFFD`, which takes the three-byte
branch. -/
def append_utf8 (out : List Nat) (ch : Nat) : List Nat :=
  if ch ≤ 0x7F then out ++ [ch % 256]
  else if ch ≤ 0x7FF then
    out ++ [(0xC0 ||| ((ch >>> 6) &&& 0x1F)) % 256, (0x80 ||| (ch &&& 0x3F)) % 256]
  else if ch ≤ 0xFFFF then out ++ utf8Bytes3 ch
  else if ch ≤ 0x10FFFF then
    out ++ [(0xF0 ||| ((ch >>> 18) &&& 0x07)) % 256, (0x80 ||| ((ch >>> 12) &&& 0x3F)) % 256,
      (0x80 ||| ((ch >>> 6) &&& 0x3F)) % 256, (0x80 ||| (ch &&& 0x3F)) % 256]
  else out ++ utf8Bytes3 0xFFFD

/-! ## The report line (`Event.hpp`, `doPrint` of `main.cpp`) -/

/-- The function `to_string(EventType)` of `Event.hpp`. -/
def to_string_EventType : EventType → String
  | EventType.Drop => "DROP"
  | EventType.Allow => "ALLOW"
  | _ => "OTHER"

/-- The function `to_string(const EventDirection&)` of `Event.hpp`. -/
def to_string_EventDirection : EventDirection → String
  | EventDirection.Inbound => "IN"
  | EventDirection.Outbound => "OUT"
  | _ => "UNK"

/-- The enumerators of `IPPROTO` (`ws2def.h`, not part of the repository) that
label the `switch` of `to_string(const IPPROTO&)`.  The labels of one `switch`
are distinct, or the program is ill-formed. -/
structure ProtoCodes where
  IPPROTO_TCP : Nat
  IPPROTO_UDP : Nat
  IPPROTO_ICMP : Nat
  tcp_ne_udp : IPPROTO_TCP ≠ IPPROTO_UDP
  tcp_ne_icmp : IPPROTO_TCP ≠ IPPROTO_ICMP
  udp_ne_icmp : IPPROTO_UDP ≠ IPPROTO_ICMP

/-- The function `to_string(const IPPROTO&)` of `Event.hpp`; the default
branch formats `(UINT8) ipProto`, an unsigned integer, in decimal. -/
def to_string_IPPROTO (codes : ProtoCodes) (ipProto : Nat) : String :=
  if ipProto = codes.IPPROTO_TCP then "TCP"
  else if ipProto = codes.IPPROTO_UDP then "UDP"
  else if ipProto = codes.IPPROTO_ICMP then "ICMP"
  else "IP" ++ toString (ipProto % 256)

/-- What `layerIdToName` learns from the engine about one layer:
`FwpmEngineOpen0` fails; `FwpmLayerGetById0` fails or answers a null layer; the
layer has no display name; `WideCharToMultiByte` cannot convert the name into
the buffer; or the name in UTF-8. -/
inductive LayerAnswer where
  | openFailed
  | lookupFailed
  | unnamed
  | unconvertible
  | named (utf8 : String)
deriving DecidableEq, Repr

/-- The function `layerIdToName` of `Event.hpp`: the name returned and the
static `cache` afterwards.  The two early returns leave the cache as it is. -/
def layerIdToName (cache : List (Nat × String)) (answer : Nat → LayerAnswer) (layerId : Nat) :
    String × List (Nat × String) :=
  match cache.lookup layerId with
  | some name => (name, cache)
  | none =>
    match answer layerId with
    | LayerAnswer.openFailed => ("LAYER_" ++ toString layerId, cache)
    | LayerAnswer.lookupFailed => ("LAYER_" ++ toString layerId, cache)
    | LayerAnswer.unnamed =>
      ("LAYER_" ++ toString layerId, cache ++ [(layerId, "LAYER_" ++ toString layerId)])
    | LayerAnswer.unconvertible => ("<unknown-layer>", cache ++ [(layerId, "<unknown-layer>")])
    | LayerAnswer.named utf8 => (utf8, cache ++ [(layerId, utf8)])

/-- The function `to_string(const EventKey&)` of `Event.hpp`: the text and the
cache of `layerIdToName` afterwards. -/
def to_string_EventKey (codes : ProtoCodes) (cache : List (Nat × String))
    (answer : Nat → LayerAnswer) (k : EventKey) : String × List (Nat × String) :=
  ("[" ++ to_string_EventType k.type ++ "]"
    ++ "[" ++ (layerIdToName cache answer k.layerId).1 ++ "]"
    ++ "[" ++ to_string_IPPROTO codes k.protocol ++ "]"
    ++ "[" ++ to_string_EventDirection k.direction ++ "] "
    ++ k.localSocket ++ " -> " ++ k.remoteSocket,
    (layerIdToName cache answer k.layerId).2)

/-- One line of the report: the text written to `std::cout` and, after it, the
wide text written to `std::wcout`; the line feed ends it. -/
structure ReportLine where
  text : String
  subject : List Nat
deriving DecidableEq, Repr

/-- The body of the printing loop of `doPrint` (lines 482 to 490) for one
element of `changed`: the line written and the cache afterwards. -/
def printEntry (codes : ProtoCodes) (cache : List (Nat × String)) (answer : Nat → LayerAnswer)
    (k : EventKey) (total : Nat) : ReportLine × List (Nat × String) :=
  ({ text := (to_string_EventKey codes cache answer k).1 ++ "  (x" ++ toString total ++ ") "
     subject := k.appName },
    (to_string_EventKey codes cache answer k).2)

/-- The printing loop of `doPrint` (lines 480 to 491) over `changed`. -/
def printChanged (codes : ProtoCodes) (answer : Nat → LayerAnswer) :
    List (Nat × String) → List (EventKey × Nat) → List ReportLine
  | _, [] => []
  | cache, e :: rest =>
    (printEntry codes cache answer e.1 e.2).1
      :: printChanged codes answer (printEntry codes cache answer e.1 e.2).2 rest

/-- The values of the enumerators in the Windows SDK. -/
def sdkProtoCodes : ProtoCodes :=
  { IPPROTO_TCP := 6
    IPPROTO_UDP := 17
    IPPROTO_ICMP := 1
    tcp_ne_udp := by decide
    tcp_ne_icmp := by decide
    udp_ne_icmp := by decide }

/-- An engine that names layer 13 and no other. -/
def layerAnswer0 (layerId : Nat) : LayerAnswer :=
  if layerId = 13 then LayerAnswer.named "Inbound Transport v4" else LayerAnswer.lookupFailed

/-- A key for protocol 47 (GRE), of unknown direction and type. -/
def keyGre : EventKey :=
  { keyA with protocol := 47, layerId := 44, type := EventType.Other,
              direction := EventDirection.Unknown }

/-! ## The Reporter and the controller (`RunPrinter` and `main` of `main.cpp`) -/

/-- The function `RunPrinter`, for a run in which a stop is requested.  Each
element of the list is one turn of the `while` loop, entered because
`st.stop_requested()` was false: `doPrint(agg)` runs, and the element holds the
keys that the callback records from then until the loop tests
`st.stop_requested()` again, in their order.  At the end of the list the test
is true and the function returns.  The result is the vector `changed` of each
`doPrint` call and the aggregator when the function returns. -/
def RunPrinter : List (List EventKey) → Aggregator → List (List (EventKey × Nat)) × Aggregator
  | [], agg => ([], agg)
  | batch :: rounds, agg =>
    ((doPrint agg).1 :: (RunPrinter rounds (batch.foldl recordEvent (doPrint agg).2)).1,
      (RunPrinter rounds (batch.foldl recordEvent (doPrint agg).2)).2)

/-- The function `parseCommandLine` of `main.cpp`. -/
def parseCommandLine (args : List String) : RunConfig :=
  args.foldl
    (fun cfg arg => if arg = "--no-prompt" then { cfg with interactive := false } else cfg)
    ({} : RunConfig)

/-- The platform as `main` uses it: the session and option entry points, the
transaction entry points, WinSock start-up and clean-up, and the subscription
to net events (`fwpmu.h`, `WinSock2.h`; none of it is part of the repository).
`FwpmNetEventSubscribe4` answers a status and the subscription handle. -/
structure MainApi (σ : Type) where
  session : SessionApi σ
  txn : FwpmApi σ
  WSAStartup : σ → Nat × σ
  WSACleanup : σ → σ
  FwpmNetEventSubscribe4 : σ → HANDLE → (DWORD × HANDLE) × σ
  FwpmNetEventUnsubscribe0 : σ → HANDLE → HANDLE → DWORD × σ

/-- An observable action of `main`: an action of the session and option code,
a call of the transaction, a WinSock call, a subscription call, a diagnostic of
`main`, the banner, or a call of `doPrint` with the vector `changed` it prints,
made by the Reporter thread (`byReporter`) or by `main` itself. -/
inductive MainCall where
  | WSAStartup (err : Nat)
  | WSACleanup
  | sys (c : SysCall)
  | engine (c : EngineCall)
  | NetEventSubscribe4 (engine : HANDLE) (status : DWORD) (subscription : HANDLE)
  | NetEventUnsubscribe0 (engine subscription : HANDLE)
  | cerrSubscribeFailed (status : DWORD)
  | cerrTerminated
  | wcoutActive
  | doPrint (byReporter : Bool) (changed : List (EventKey × Nat))
deriving DecidableEq, Repr

/-- The engine, the record of the actions of `main` so far and the lines still
waiting on `std::cin`. -/
structure MainSys (σ : Type) where
  eng : σ
  log : List MainCall
  cin : List String

/-- One more action in the log of `main`. -/
def MainSys.note {σ : Type} (m : MainSys σ) (c : MainCall) : MainSys σ :=
  { m with log := m.log ++ [c] }

/-- The system handed to the session and option code, with an empty log to
collect what that code does. -/
def MainSys.toSys {σ : Type} (m : MainSys σ) : Sys σ :=
  { eng := m.eng, log := [], cin := m.cin }

/-- The system of `main` after the session and option code has run from
`m.toSys` to `s`. -/
def MainSys.ofSys {σ : Type} (m : MainSys σ) (s : Sys σ) : MainSys σ :=
  { eng := s.eng, log := m.log ++ s.log.map MainCall.sys, cin := s.cin }

/-- The world handed to the transaction code, with an empty log. -/
def MainSys.toWorld {σ : Type} (m : MainSys σ) : World σ :=
  { eng := m.eng, log := [] }

/-- The system of `main` after the transaction code has run from `m.toWorld`
to `w`. -/
def MainSys.ofWorld {σ : Type} (m : MainSys σ) (w : World σ) : MainSys σ :=
  { m with eng := w.eng, log := m.log ++ w.log.map MainCall.engine }

/-- The destructor `~WinSockSession` of the local `wsa`. -/
def wsaDestroy {σ : Type} (api : MainApi σ) (ok : Bool) (m : MainSys σ) : MainSys σ :=
  if ok then { m with eng := api.WSACleanup m.eng, log := m.log ++ [MainCall.WSACleanup] }
  else m

/-- Leaving the `try` block of `main` after `netEventsGuard` was constructed:
the destructors of `tempEngine` (when it was constructed), of `netEventsGuard`
and of `wsa` run in this order. -/
def unwindMain {σ : Type} (api : MainApi σ) (tempEngine : Option FwpmEngine)
    (netState : NetEventState) (wsaOk : Bool) (m : MainSys σ) : MainSys σ :=
  let m1 := match tempEngine with
    | some e => m.ofSys (FwpmEngine.destroy api.session e m.toSys).2
    | none => m
  wsaDestroy api wsaOk
    (m1.ofSys (NetEventCollectionGuard.destroy api.session (some netState) m1.toSys))

/-- The handler `catch (const std::exception&)` of `main` and what follows it:
the diagnostic, the final `doPrint(&aggregator)` and `return 0`. -/
def mainCaught {σ : Type} (agg : Aggregator) (m : MainSys σ) : Nat × MainSys σ :=
  (0, (m.note MainCall.cerrTerminated).note (MainCall.doPrint false (doPrint agg).1))

/-- The block of `main` that installs the policy (lines 589 to 614), with the
destructor of `txn` at its end or when an exception leaves it: the exception
thrown, if any, and the world afterwards; `none` when a call does not
return.  `sublayer` and `filter` are the two objects the block fills in. -/
def installPolicy {σ : Type} (api : FwpmApi σ) (fuel : Nat) (sublayer : FWPM_SUBLAYER0)
    (filter : FWPM_FILTER0) (tempEngine : FwpmEngine) (w : World σ) :
    Option (Except FwpmException Unit × World σ) :=
  match tempEngine.beginTransaction api w with
  | (Except.error e, w1) => some (Except.error e, w1)
  | (Except.ok txn, w1) =>
    match FwpmTransaction.addSubLayer api fuel txn w1 sublayer with
    | none => none
    | some (Except.error e, t2, w2) => some (Except.error e, (FwpmTransaction.destroy api t2 w2).2)
    | some (Except.ok (), t2, w2) =>
      match FwpmTransaction.addFilter api fuel t2 w2 filter with
      | none => none
      | some (Except.error e, t3, w3) =>
        some (Except.error e, (FwpmTransaction.destroy api t3 w3).2)
      | some (Except.ok _, t3, w3) =>
        match FwpmTransaction.commit api fuel t3 w3 with
        | none => none
        | some (Except.error e, t4, w4) =>
          some (Except.error e, (FwpmTransaction.destroy api t4 w4).2)
        | some (Except.ok (), t4, w4) =>
          some (Except.ok (), (FwpmTransaction.destroy api t4 w4).2)

/-- The call `std::getline(std::cin, line)` of `main` (line 641). -/
def mainGetline {σ : Type} (m : MainSys σ) : MainSys σ :=
  match m.cin with
  | [] => m.note (MainCall.sys (SysCall.getline none))
  | l :: rest =>
    { m with cin := rest, log := m.log ++ [MainCall.sys (SysCall.getline (some l))] }

/-- The last block of `main` (lines 616 to 650) and what follows it on each of
its two ways out: the exit code and the system afterwards.  The argument
`tempEngine` of the engine calls is read as the handle `m_engine`.  When the
subscription succeeds the callback records `early` before the Reporter thread
first tests its stop token, the Reporter runs through `rounds`, and the
callback records `late` after the Reporter has seen the stop and before the
subscription ends; the Reporter writes while `main` waits in `std::getline`,
and its output is listed after the line read. -/
def subscribeAndRun {σ : Type} (api : MainApi σ) (tempEngine : FwpmEngine)
    (netState : NetEventState) (wsaOk : Bool) (early : List EventKey)
    (rounds : List (List EventKey)) (late : List EventKey) (m : MainSys σ) : Nat × MainSys σ :=
  let sub := api.FwpmNetEventSubscribe4 m.eng tempEngine.m_engine
  let m1 : MainSys σ :=
    { m with eng := sub.2
             log := m.log ++ [MainCall.NetEventSubscribe4 tempEngine.m_engine sub.1.1 sub.1.2] }
  if sub.1.1 ≠ api.session.ERROR_SUCCESS then
    let m2 := m1.note (MainCall.cerrSubscribeFailed sub.1.1)
    let m3 := m2.ofSys (engineClose api.session tempEngine.m_engine m2.toSys)
    (1, unwindMain api (some tempEngine) netState wsaOk m3)
  else
    let printer := RunPrinter rounds (early.foldl recordEvent {})
    let m2 := mainGetline (m1.note MainCall.wcoutActive)
    let m3 : MainSys σ := { m2 with log := m2.log ++ printer.1.map (MainCall.doPrint true) }
    let un := api.FwpmNetEventUnsubscribe0 m3.eng tempEngine.m_engine sub.1.2
    let m4 : MainSys σ :=
      { m3 with eng := un.2
                log := m3.log ++ [MainCall.NetEventUnsubscribe0 tempEngine.m_engine sub.1.2] }
    (0, (unwindMain api (some tempEngine) netState wsaOk m4).note
      (MainCall.doPrint false (doPrint (late.foldl recordEvent printer.2)).1))

/-- The function `main` of `main.cpp` on the arguments after the program name:
the exit code and the system afterwards, `none` when a call of the transaction
does not return.  No event reaches the callback before the subscription, so
the aggregator is empty on the paths that end before it. -/
def main {σ : Type} (api : MainApi σ) (fuel : Nat) (sublayer : FWPM_SUBLAYER0)
    (filter : FWPM_FILTER0) (args : List String) (early : List EventKey)
    (rounds : List (List EventKey)) (late : List EventKey) (m : MainSys σ) :
    Option (Nat × MainSys σ) :=
  let cfg := parseCommandLine args
  let wsa := api.WSAStartup m.eng
  let wsaOk := decide (wsa.1 = 0)
  let m0 : MainSys σ := { m with eng := wsa.2, log := m.log ++ [MainCall.WSAStartup wsa.1] }
  let p := probeAndNegotiateNetEvents api.session cfg {} m0.toSys
  let m1 := m0.ofSys p.2.2
  if !p.1 then some (1, wsaDestroy api wsaOk m1)
  else
    match FwpmEngine.acquire api.session true m1.toSys with
    | (Except.error _, s2) => some (mainCaught {} (unwindMain api none p.2.1 wsaOk (m1.ofSys s2)))
    | (Except.ok tempEngine, s2) =>
      match installPolicy api.txn fuel sublayer filter tempEngine (m1.ofSys s2).toWorld with
      | none => none
      | some (Except.error _, w3) =>
        some (mainCaught {}
          (unwindMain api (some tempEngine) p.2.1 wsaOk ((m1.ofSys s2).ofWorld w3)))
      | some (Except.ok (), w3) =>
        some (subscribeAndRun api tempEngine p.2.1 wsaOk early rounds late
          ((m1.ofSys s2).ofWorld w3))

/-- The number of `FwpmEngineClose0(h)` calls in a log of `main`. -/
def mainCloseCount (h : HANDLE) (log : List MainCall) : Nat :=
  log.count (MainCall.sys (SysCall.EngineClose0 h))

/-- A platform over the session engine `session` and the transaction engine
`txn` on which WinSock starts and the subscription is answered with `status`
and the subscription handle 9. -/
def mainApiOf (session : SessionApi Nat) (txn : FwpmApi Nat) (status : DWORD) : MainApi Nat :=
  { session := session
    txn := txn
    WSAStartup := fun n => (0, n)
    WSACleanup := fun n => n
    FwpmNetEventSubscribe4 := fun n _ => ((status, if status = 0 then 9 else 0), n)
    FwpmNetEventUnsubscribe0 := fun n _ _ => (0, n) }

/-- An engine like `enabledApi` that refuses dynamic sessions with status 5. -/
def noTemporaryApi : SessionApi Nat :=
  { enabledApi with
    FwpmEngineOpen0 := fun n dynamic => if dynamic then ((5, 0), n + 1) else ((0, n + 5), n + 1) }

/-- A fresh system of `main` for the sample engines, with one line on
`std::cin`. -/
def mainSys0 : MainSys Nat := { eng := 0, log := [], cin := [""] }

/-- The aggregator when `main` reaches its final `doPrint` after a run in which
the subscription succeeded: the records `early`, the Reporter's run through
`rounds`, then the records `late`. -/
def aggregatorAtExit (early : List EventKey) (rounds : List (List EventKey))
    (late : List EventKey) : Aggregator :=
  late.foldl recordEvent (RunPrinter rounds (early.foldl recordEvent {})).2

/-- A system of `main` on the sample engines at the point where the policy is
installed on the temporary session with handle 6. -/
def mainSysInstalled : MainSys Nat := { eng := 6, log := [], cin := [""] }

/-! ## Lemmas on the aggregator -/

theorem findStats_recordMap_self (k : EventKey) (m : List (EventKey × EventStats)) :
    findStats k (recordMap k m) =
      some { count := ((statsOf k m).count + 1) % U64,
             lastPrinted := (statsOf k m).lastPrinted } := by
  induction m with
  | nil => simp [recordMap, findStats, statsOf]
  | cons e rest ih =>
    by_cases h : e.1 = k
    · simp [recordMap, findStats, statsOf, h]
    · simp only [recordMap, findStats, statsOf, h, if_false] at ih ⊢
      exact ih

theorem findStats_recordMap_ne (k k' : EventKey) (h : k' ≠ k)
    (m : List (EventKey × EventStats)) :
    findStats k' (recordMap k m) = findStats k' m := by
  have h2 : ¬ k = k' := fun e => h e.symm
  induction m with
  | nil => simp [recordMap, findStats, h2]
  | cons e rest ih =>
    obtain ⟨ek, es⟩ := e
    by_cases h1 : ek = k
    · subst h1
      simp [recordMap, findStats, h2]
    · by_cases h3 : ek = k'
      · subst h3
        simp [recordMap, findStats, h]
      · simp [recordMap, findStats, h1, h3, ih]

theorem findStats_drainMap (k : EventKey) (m : List (EventKey × EventStats)) :
    findStats k (drainMap m).2 =
      (findStats k m).map (fun s => { s with lastPrinted := s.count }) := by
  induction m with
  | nil => simp [drainMap, findStats]
  | cons e rest ih =>
    by_cases hc : e.2.count = e.2.lastPrinted
    · by_cases h : e.1 = k
      · obtain ⟨ek, ⟨c, l⟩⟩ := e
        simp only at hc h
        simp [drainMap, findStats, hc, h]
      · simp [drainMap, findStats, hc, h, ih]
    · by_cases h : e.1 = k
      · simp [drainMap, findStats, hc, h]
      · simp [drainMap, findStats, hc, h, ih]

theorem drainMap_drainMap (m : List (EventKey × EventStats)) :
    drainMap (drainMap m).2 = ([], (drainMap m).2) := by
  induction m with
  | nil => simp [drainMap]
  | cons e rest ih =>
    by_cases hc : e.2.count = e.2.lastPrinted
    · simp [drainMap, hc, ih]
    · simp [drainMap, hc, ih]

theorem keysOf_drainMap (m : List (EventKey × EventStats)) :
    keysOf (drainMap m).2 = keysOf m := by
  induction m with
  | nil => simp [drainMap, keysOf]
  | cons e rest ih =>
    simp only [keysOf] at ih
    by_cases hc : e.2.count = e.2.lastPrinted
    · simp [drainMap, keysOf, hc, ih]
    · simp [drainMap, keysOf, hc, ih]

theorem keysOf_recordMap (k : EventKey) (m : List (EventKey × EventStats)) :
    keysOf (recordMap k m) = if k ∈ keysOf m then keysOf m else keysOf m ++ [k] := by
  induction m with
  | nil => simp [recordMap, keysOf]
  | cons e rest ih =>
    simp only [keysOf] at ih
    by_cases h : e.1 = k
    · simp [recordMap, keysOf, h]
    · have h2 : ¬ k = e.1 := fun e2 => h e2.symm
      by_cases hm : k ∈ List.map Prod.fst rest
      · simp only [hm, if_true] at ih
        have hm2 : ∃ a, (k, a) ∈ rest := by simpa using hm
        simp [recordMap, keysOf, h, h2, ih, hm2]
      · simp only [hm, if_false] at ih
        have hm2 : ¬ ∃ a, (k, a) ∈ rest := by simpa using hm
        simp [recordMap, keysOf, h, h2, ih, hm2]

theorem nodup_keysOf_recordMap (k : EventKey) (m : List (EventKey × EventStats))
    (h : (keysOf m).Nodup) : (keysOf (recordMap k m)).Nodup := by
  rw [keysOf_recordMap]
  by_cases hm : k ∈ keysOf m
  · simpa [hm] using h
  · simp only [hm, if_false]
    rw [List.nodup_append]
    refine ⟨h, List.nodup_singleton k, ?_⟩
    intro a ha hb
    simp at hb
    exact hm (hb ▸ ha)

theorem findStats_eq_some_iff (k : EventKey) (st : EventStats)
    (m : List (EventKey × EventStats)) (h : (keysOf m).Nodup) :
    findStats k m = some st ↔ (k, st) ∈ m := by
  induction m with
  | nil => simp [findStats]
  | cons e rest ih =>
    simp only [keysOf, List.map_cons, List.nodup_cons] at h
    have ih2 := ih h.2
    by_cases h1 : e.1 = k
    · simp only [findStats, h1, if_true, List.mem_cons]
      constructor
      · intro h3
        left
        cases e
        simp at h1 h3
        simp [h1, h3]
      · intro h3
        rcases h3 with h3 | h3
        · rw [← h3]
        · exfalso
          apply h.1
          rw [h1]
          exact List.mem_map_of_mem Prod.fst h3
    · simp only [findStats, h1, if_false, List.mem_cons, ih2]
      constructor
      · intro h3; right; exact h3
      · intro h3
        rcases h3 with h3 | h3
        · exfalso; apply h1; rw [← h3]
        · exact h3

theorem statsOf_record_self (s : Aggregator) (k : EventKey) :
    statsOf k (recordEvent s k).map =
      { count := ((statsOf k s.map).count + 1) % U64,
        lastPrinted := (statsOf k s.map).lastPrinted } := by
  simp [statsOf, recordEvent, findStats_recordMap_self]

theorem statsOf_record_ne (s : Aggregator) (k k' : EventKey) (h : k' ≠ k) :
    statsOf k' (recordEvent s k).map = statsOf k' s.map := by
  simp [statsOf, recordEvent, findStats_recordMap_ne k k' h]

theorem statsOf_doPrint (s : Aggregator) (k : EventKey) :
    statsOf k (doPrint s).2.map =
      { count := (statsOf k s.map).count, lastPrinted := (statsOf k s.map).count } := by
  simp only [statsOf, doPrint, findStats_drainMap]
  cases findStats k s.map <;> simp

theorem isSome_record (s : Aggregator) (k k' : EventKey) :
    (findStats k' (recordEvent s k).map).isSome =
      ((findStats k' s.map).isSome || decide (k = k')) := by
  by_cases h : k = k'
  · subst h
    simp [recordEvent, findStats_recordMap_self]
  · have h2 : k' ≠ k := fun e => h e.symm
    simp [recordEvent, findStats_recordMap_ne k k' h2, h]

theorem isSome_doPrint (s : Aggregator) (k : EventKey) :
    (findStats k (doPrint s).2.map).isSome = (findStats k s.map).isSome := by
  simp [doPrint, findStats_drainMap]

theorem run_nil (s : Aggregator) : run [] s = s := rfl

theorem run_cons (c : Call) (calls : List Call) (s : Aggregator) :
    run (c :: calls) s = run calls (step s c) := rfl

theorem run_append (a b : List Call) (s : Aggregator) :
    run (a ++ b) s = run b (run a s) := by
  simp [run, List.foldl_append]

theorem recordCount_nil (k : EventKey) : recordCount k [] = 0 := rfl

theorem recordCount_cons_self (k : EventKey) (calls : List Call) :
    recordCount k (Call.record k :: calls) = recordCount k calls + 1 := by
  simp [recordCount]

theorem recordCount_cons_ne (k k' : EventKey) (h : k' ≠ k) (calls : List Call) :
    recordCount k' (Call.record k :: calls) = recordCount k' calls := by
  have h2 : ¬ k = k' := fun e => h e.symm
  simp [recordCount, List.count_cons, h2]

theorem recordCount_cons_drain (k : EventKey) (calls : List Call) :
    recordCount k (Call.drainChanged :: calls) = recordCount k calls := by
  simp [recordCount, List.count_cons]

theorem recordCount_append (k : EventKey) (a b : List Call) :
    recordCount k (a ++ b) = recordCount k a + recordCount k b := by
  simp [recordCount]

theorem recordCount_map_record (k : EventKey) (batch : List EventKey) :
    recordCount k (batch.map Call.record) = batch.count k := by
  induction batch with
  | nil => rfl
  | cons b rest ih =>
    by_cases h : b = k
    · subst h
      simp [recordCount_cons_self, ih]
    · have h2 : k ≠ b := fun e => h e.symm
      simp only [List.map_cons, recordCount_cons_ne b k h2, ih]
      simp [List.count_cons, h]

/-- The effect of a sequence of calls on the entry of one key, from any
aggregator: presence, the count modulo `2 ^ 64`, and a bound on
`lastPrinted`. -/
theorem run_entry (calls : List Call) (k : EventKey) :
    ∀ s : Aggregator, (statsOf k s.map).count < U64 →
      (findStats k (run calls s).map).isSome
          = ((findStats k s.map).isSome || decide (0 < recordCount k calls)) ∧
      (statsOf k (run calls s).map).count
          = ((statsOf k s.map).count + recordCount k calls) % U64 ∧
      (statsOf k (run calls s).map).lastPrinted
          ≤ max (statsOf k s.map).lastPrinted ((statsOf k s.map).count + recordCount k calls) := by
  induction calls with
  | nil =>
    intro s hs
    simp [run_nil, recordCount_nil, Nat.mod_eq_of_lt hs]
  | cons c rest ih =>
    intro s hs
    rw [run_cons]
    cases c with
    | record k2 =>
      by_cases h : k2 = k
      · subst h
        have hlt : (statsOf k2 (step s (Call.record k2)).map).count < U64 := by
          simp only [step, statsOf_record_self]
          exact Nat.mod_lt _ (by decide)
        obtain ⟨h1, h2, h3⟩ := ih (step s (Call.record k2)) hlt
        simp only [step, statsOf_record_self, isSome_record] at h1 h2 h3
        refine ⟨?_, ?_, ?_⟩
        · simp [step, h1, recordCount_cons_self]
        · simp only [step, h2, recordCount_cons_self]
          rw [Nat.mod_add_mod]
          congr 1
          omega
        · simp only [step, recordCount_cons_self]
          have hle : ((statsOf k2 s.map).count + 1) % U64 ≤ (statsOf k2 s.map).count + 1 :=
            Nat.mod_le _ _
          omega
      · have h2 : k ≠ k2 := fun e => h e.symm
        have hlt : (statsOf k (step s (Call.record k2)).map).count < U64 := by
          simp only [step, statsOf_record_ne s k2 k h2]
          exact hs
        obtain ⟨h1, h3, h4⟩ := ih (step s (Call.record k2)) hlt
        simp only [step, statsOf_record_ne s k2 k h2, isSome_record] at h1 h3 h4
        simp only [step, recordCount_cons_ne k2 k h2]
        refine ⟨?_, h3, h4⟩
        simp [h1, h]
    | drainChanged =>
      have hlt : (statsOf k (step s Call.drainChanged).map).count < U64 := by
        simp only [step, statsOf_doPrint]
        exact hs
      obtain ⟨h1, h2, h3⟩ := ih (step s Call.drainChanged) hlt
      simp only [step, statsOf_doPrint, isSome_doPrint] at h1 h2 h3
      simp only [step, recordCount_cons_drain]
      refine ⟨h1, h2, ?_⟩
      omega

/-- A sequence of `record` calls leaves every `lastPrinted` as it was. -/
theorem run_records_lastPrinted (batch : List EventKey) (k : EventKey) :
    ∀ s : Aggregator,
      (statsOf k (run (batch.map Call.record) s).map).lastPrinted
        = (statsOf k s.map).lastPrinted := by
  induction batch with
  | nil => intro s; rfl
  | cons b rest ih =>
    intro s
    rw [List.map_cons, run_cons, ih]
    by_cases h : b = k
    · subst h
      simp [step, statsOf_record_self]
    · have h2 : k ≠ b := fun e => h e.symm
      simp [step, statsOf_record_ne s b k h2]

theorem nodup_keysOf_run (calls : List Call) :
    ∀ s : Aggregator, (keysOf s.map).Nodup → (keysOf (run calls s).map).Nodup := by
  induction calls with
  | nil => intro s h; exact h
  | cons c rest ih =>
    intro s h
    rw [run_cons]
    apply ih
    cases c with
    | record k => exact nodup_keysOf_recordMap k s.map h
    | drainChanged =>
      simp only [step, doPrint, keysOf_drainMap]
      exact h

theorem mem_drainMap_fst (k : EventKey) (c : Nat) (m : List (EventKey × EventStats)) :
    (k, c) ∈ (drainMap m).1 ↔
      ∃ st, (k, st) ∈ m ∧ st.count ≠ st.lastPrinted ∧ c = st.count := by
  induction m with
  | nil => simp [drainMap]
  | cons e rest ih =>
    obtain ⟨ek, es⟩ := e
    by_cases hc : es.count = es.lastPrinted
    · simp only [drainMap, hc, ne_eq, not_true_eq_false, if_false, ih, List.mem_cons, Prod.mk.injEq]
      constructor
      · rintro ⟨st, h1, h2, h3⟩
        exact ⟨st, Or.inr h1, h2, h3⟩
      · rintro ⟨st, h1 | h1, h2, h3⟩
        · exfalso
          apply h2
          rw [h1.2]
          exact hc
        · exact ⟨st, h1, h2, h3⟩
    · simp only [drainMap, hc, ne_eq, not_false_eq_true, if_true, ih, List.mem_cons,
        Prod.mk.injEq]
      constructor
      · rintro (⟨h1, h2⟩ | ⟨st, h1, h2, h3⟩)
        · exact ⟨es, Or.inl ⟨h1, rfl⟩, hc, h2⟩
        · exact ⟨st, Or.inr h1, h2, h3⟩
      · rintro ⟨st, h1 | h1, h2, h3⟩
        · left
          exact ⟨h1.1, by rw [h3, h1.2]⟩
        · right
          exact ⟨st, h1, h2, h3⟩

theorem sublist_keys_drainMap (m : List (EventKey × EventStats)) :
    ((drainMap m).1.map Prod.fst).Sublist (keysOf m) := by
  induction m with
  | nil => simp [drainMap, keysOf]
  | cons e rest ih =>
    simp only [keysOf] at ih
    by_cases hc : e.2.count = e.2.lastPrinted
    · simp only [drainMap, hc, ne_eq, not_true_eq_false, if_false, keysOf, List.map_cons]
      exact List.Sublist.cons _ ih
    · simp only [drainMap, hc, ne_eq, not_false_eq_true, if_true, keysOf, List.map_cons]
      exact List.Sublist.cons₂ _ ih


theorem statsOf_empty_lt (k : EventKey) : (statsOf k (({} : Aggregator)).map).count < U64 := by
  show 0 < U64
  decide

theorem statsOf_of_findStats (k : EventKey) (m : List (EventKey × EventStats)) (st : EventStats)
    (h : findStats k m = some st) : statsOf k m = st := by
  simp [statsOf, h]

theorem findStats_of_isSome (k : EventKey) (m : List (EventKey × EventStats))
    (h : (findStats k m).isSome = true) : findStats k m = some (statsOf k m) := by
  cases hf : findStats k m with
  | none => simp [hf] at h
  | some st => simp [statsOf, hf]

theorem nodup_keysOf_run_empty (calls : List Call) : (keysOf (run calls {}).map).Nodup :=
  nodup_keysOf_run calls {} (by simp [keysOf])

/-- After a drain, or at creation, `lastPrinted` equals `count` in every
entry. -/
theorem quiescent_after_drain (P : List Call)
    (hP : P = [] ∨ ∃ P0, P = P0 ++ [Call.drainChanged]) (k : EventKey) :
    (statsOf k (run P {}).map).lastPrinted = (statsOf k (run P {}).map).count := by
  rcases hP with hP | ⟨P0, hP⟩
  · subst hP
    rfl
  · subst hP
    rw [run_append, run_cons, run_nil]
    simp [step, statsOf_doPrint]

theorem mod_shift_ne (c n : Nat) (hc : c < U64) : (c + n) % U64 ≠ c ↔ n % U64 ≠ 0 := by
  unfold U64 at *
  omega

/-- What a drain returns after a prefix that is empty or ends in a drain,
followed by a batch of records: the keys whose number of records in the batch
is not a multiple of `2 ^ 64`, with the total number of records modulo
`2 ^ 64`. -/
theorem mem_drain_after_batch (P : List Call) (batch : List EventKey)
    (hP : P = [] ∨ ∃ P0, P = P0 ++ [Call.drainChanged]) (k : EventKey) (c : Nat) :
    (k, c) ∈ (doPrint (run (P ++ batch.map Call.record) {})).1 ↔
      (batch.count k % U64 ≠ 0 ∧
        c = recordCount k (P ++ batch.map Call.record) % U64) := by
  have hq := quiescent_after_drain P hP k
  have h0 : (statsOf k (({} : Aggregator)).map).count < U64 := statsOf_empty_lt k
  obtain ⟨_, hc0, _⟩ := run_entry P k {} h0
  have hc0lt : (statsOf k (run P {}).map).count < U64 := by
    rw [hc0]
    exact Nat.mod_lt _ (by decide)
  obtain ⟨hs1, hc1, _⟩ := run_entry (batch.map Call.record) k (run P {}) hc0lt
  have hl1 := run_records_lastPrinted batch k (run P {})
  rw [← run_append] at hs1 hc1 hl1
  rw [recordCount_map_record] at hs1 hc1
  have hnd := nodup_keysOf_run_empty (P ++ batch.map Call.record)
  have htot : recordCount k (P ++ batch.map Call.record) % U64
      = ((statsOf k (run P {}).map).count + batch.count k) % U64 := by
    rw [recordCount_append, recordCount_map_record, hc0]
    have : (statsOf k (({} : Aggregator)).map).count = 0 := rfl
    rw [this, Nat.zero_add, Nat.mod_add_mod]
  simp only [doPrint, mem_drainMap_fst]
  constructor
  · rintro ⟨st, hmem, hne, hc⟩
    have hf := (findStats_eq_some_iff k st _ hnd).2 hmem
    have hst := statsOf_of_findStats k _ st hf
    rw [← hst, hc1, hl1, hq] at hne
    refine ⟨(mod_shift_ne _ _ hc0lt).1 hne, ?_⟩
    rw [hc, ← hst, hc1, htot]
  · rintro ⟨hnz, hc⟩
    have hpos : 0 < batch.count k := by
      rcases Nat.eq_zero_or_pos (batch.count k) with h | h
      · rw [h] at hnz
        exact absurd (Nat.zero_mod _) hnz
      · exact h
    have hsome : (findStats k (run (P ++ batch.map Call.record) {}).map).isSome = true := by
      rw [hs1]
      simp [hpos]
    have hf := findStats_of_isSome k _ hsome
    refine ⟨statsOf k (run (P ++ batch.map Call.record) {}).map,
      (findStats_eq_some_iff k _ _ hnd).1 hf, ?_, ?_⟩
    · rw [hc1, hl1, hq]
      exact (mod_shift_ne _ _ hc0lt).2 hnz
    · rw [hc, hc1, htot]

/-- The stored count after any sequence of calls on the empty aggregator. -/
theorem storedCount_run (calls : List Call) (k : EventKey) :
    storedCount (run calls {}) k
      = if recordCount k calls = 0 then none else some (recordCount k calls % U64) := by
  have h0 : (statsOf k (({} : Aggregator)).map).count < U64 := statsOf_empty_lt k
  obtain ⟨hs, hc, _⟩ := run_entry calls k {} h0
  have hz : (statsOf k (({} : Aggregator)).map).count = 0 := rfl
  rw [hz, Nat.zero_add] at hc
  have hn : findStats k (({} : Aggregator)).map = none := rfl
  rw [hn] at hs
  by_cases hr : recordCount k calls = 0
  · simp only [hr, if_true]
    rw [hr] at hs
    cases hf : findStats k (run calls {}).map with
    | none => simp [storedCount, hf]
    | some st => simp [hf] at hs
  · simp only [hr, if_false]
    have hsome : (findStats k (run calls {}).map).isSome = true := by
      rw [hs]
      simp [Nat.pos_of_ne_zero hr]
    have hf := findStats_of_isSome k _ hsome
    simp [storedCount, hf, hc]

theorem recordCount_replicate (k : EventKey) (n : Nat) :
    recordCount k (List.replicate n (Call.record k)) = n := by
  unfold recordCount
  exact List.count_replicate_self _ _


/-! ## Lemmas on the transaction -/

theorem ensureActive_of_active (t : FwpmTransaction) (what : String)
    (h : t.m_state = State.Active) : ensureActive t what = Except.ok () := by
  simp [ensureActive, h]

theorem ensureActive_of_not_active (t : FwpmTransaction) (what : String)
    (h : t.m_state ≠ State.Active) : ensureActive t what = Except.error (finalizedError what) := by
  simp [ensureActive, h, finalizedError]

theorem abort_not_active {σ : Type} (api : FwpmApi σ) (fuel : Nat) (t : FwpmTransaction)
    (w : World σ) (h : t.m_state ≠ State.Active) :
    FwpmTransaction.abort api fuel t w = some (Except.error (finalizedError "abort"), t, w) := by
  unfold FwpmTransaction.abort
  simp [ensureActive_of_not_active t "abort" h]

theorem abort_engine_ok {σ : Type} (api : FwpmApi σ) (fuel : Nat) (t : FwpmTransaction)
    (w : World σ) (h : t.m_state = State.Active)
    (hs : (api.FwpmTransactionAbort0 w.eng t.m_engine).1 = api.ERROR_SUCCESS) :
    FwpmTransaction.abort api fuel t w
      = some (Except.ok (), { t with m_state := State.Aborted },
          w.after (api.FwpmTransactionAbort0 w.eng t.m_engine).2
            (EngineCall.TransactionAbort0 t.m_engine)) := by
  unfold FwpmTransaction.abort
  simp [ensureActive_of_active t "abort" h, hs, World.after]

theorem abort_engine_fail_succ {σ : Type} (api : FwpmApi σ) (fuel : Nat) (t : FwpmTransaction)
    (w : World σ) (h : t.m_state = State.Active)
    (hs : (api.FwpmTransactionAbort0 w.eng t.m_engine).1 ≠ api.ERROR_SUCCESS) :
    FwpmTransaction.abort api (fuel + 1) t w
      = match FwpmTransaction.abort api fuel t
          (w.after (api.FwpmTransactionAbort0 w.eng t.m_engine).2
            (EngineCall.TransactionAbort0 t.m_engine)) with
        | none => none
        | some (Except.error e, t2, w2) => some (Except.error e, t2, w2)
        | some (Except.ok (), t2, w2) =>
          some (Except.error (runtimeError "FwpmTransactionAbort0"
            (api.FwpmTransactionAbort0 w.eng t.m_engine).1), t2, w2) := by
  conv => lhs; unfold FwpmTransaction.abort
  simp [ensureActive_of_active t "abort" h, hs, World.after, runtimeError]

theorem abort_engine_fail_zero {σ : Type} (api : FwpmApi σ) (t : FwpmTransaction)
    (w : World σ) (h : t.m_state = State.Active)
    (hs : (api.FwpmTransactionAbort0 w.eng t.m_engine).1 ≠ api.ERROR_SUCCESS) :
    FwpmTransaction.abort api 0 t w = none := by
  unfold FwpmTransaction.abort
  simp [ensureActive_of_active t "abort" h, hs]

theorem abort_returns {σ : Type} (api : FwpmApi σ) (fuel : Nat) :
    ∀ (t : FwpmTransaction) (w : World σ) (r : Except FwpmException Unit)
      (t2 : FwpmTransaction) (w2 : World σ), t.m_state = State.Active →
      FwpmTransaction.abort api fuel t w = some (r, t2, w2) → AbortedSince t w t2 w2 := by
  induction fuel with
  | zero =>
    intro t w r t2 w2 hA h
    by_cases hs : (api.FwpmTransactionAbort0 w.eng t.m_engine).1 = api.ERROR_SUCCESS
    · rw [abort_engine_ok api 0 t w hA hs] at h
      simp only [Option.some.injEq, Prod.mk.injEq] at h
      obtain ⟨_, ht, hw⟩ := h
      subst ht hw
      exact ⟨rfl, [EngineCall.TransactionAbort0 t.m_engine], rfl, by simp⟩
    · rw [abort_engine_fail_zero api t w hA hs] at h
      cases h
  | succ n ih =>
    intro t w r t2 w2 hA h
    by_cases hs : (api.FwpmTransactionAbort0 w.eng t.m_engine).1 = api.ERROR_SUCCESS
    · rw [abort_engine_ok api (n + 1) t w hA hs] at h
      simp only [Option.some.injEq, Prod.mk.injEq] at h
      obtain ⟨_, ht, hw⟩ := h
      subst ht hw
      exact ⟨rfl, [EngineCall.TransactionAbort0 t.m_engine], rfl, by simp⟩
    · rw [abort_engine_fail_succ api n t w hA hs] at h
      cases hin : FwpmTransaction.abort api n t
          (w.after (api.FwpmTransactionAbort0 w.eng t.m_engine).2
            (EngineCall.TransactionAbort0 t.m_engine)) with
      | none => simp [hin] at h
      | some res =>
        obtain ⟨r1, t3, w3⟩ := res
        obtain ⟨ht3, rest, hlog, hmem⟩ := ih t _ r1 t3 w3 hA hin
        have ht2 : t2 = t3 ∧ w2 = w3 := by
          cases r1 with
          | error e =>
            simp only [hin, Option.some.injEq, Prod.mk.injEq] at h
            exact ⟨h.2.1.symm, h.2.2.symm⟩
          | ok u =>
            simp only [hin, Option.some.injEq, Prod.mk.injEq] at h
            exact ⟨h.2.1.symm, h.2.2.symm⟩
        obtain ⟨e1, e2⟩ := ht2
        subst e1 e2
        refine ⟨ht3, EngineCall.TransactionAbort0 t.m_engine :: rest, ?_, by simp⟩
        rw [hlog]
        simp [World.after]

theorem abortThenThrow_engine_ok {σ : Type} {α : Type} (api : FwpmApi σ) (fuel : Nat)
    (name : String) (s : DWORD) (t : FwpmTransaction) (w : World σ)
    (h : t.m_state = State.Active)
    (hs : (api.FwpmTransactionAbort0 w.eng t.m_engine).1 = api.ERROR_SUCCESS) :
    (abortThenThrow api fuel name s t w : Outcome σ α)
      = some (Except.error (runtimeError name s), { t with m_state := State.Aborted },
          w.after (api.FwpmTransactionAbort0 w.eng t.m_engine).2
            (EngineCall.TransactionAbort0 t.m_engine)) := by
  simp [abortThenThrow, abort_engine_ok api fuel t w h hs, runtimeError]

theorem abortThenThrow_returns {σ : Type} {α : Type} (api : FwpmApi σ) (fuel : Nat)
    (name : String) (s : DWORD) (t : FwpmTransaction) (w : World σ)
    (r : Except FwpmException α) (t2 : FwpmTransaction) (w2 : World σ)
    (hA : t.m_state = State.Active)
    (h : (abortThenThrow api fuel name s t w : Outcome σ α) = some (r, t2, w2)) :
    AbortedSince t w t2 w2 ∧ ∃ e, r = Except.error e := by
  unfold abortThenThrow at h
  cases hin : FwpmTransaction.abort api fuel t w with
  | none => simp [hin] at h
  | some res =>
    obtain ⟨r1, t3, w3⟩ := res
    have hab := abort_returns api fuel t w r1 t3 w3 hA hin
    cases r1 with
    | error e =>
      simp only [hin, Option.some.injEq, Prod.mk.injEq] at h
      obtain ⟨h1, h2, h3⟩ := h
      subst h2 h3
      exact ⟨hab, e, h1.symm⟩
    | ok u =>
      simp only [hin, Option.some.injEq, Prod.mk.injEq] at h
      obtain ⟨h1, h2, h3⟩ := h
      subst h2 h3
      exact ⟨hab, _, h1.symm⟩

theorem commit_not_active {σ : Type} (api : FwpmApi σ) (fuel : Nat) (t : FwpmTransaction)
    (w : World σ) (h : t.m_state ≠ State.Active) :
    FwpmTransaction.commit api fuel t w = some (Except.error (finalizedError "commit"), t, w) := by
  simp [FwpmTransaction.commit, ensureActive_of_not_active t "commit" h]

theorem commit_engine_ok {σ : Type} (api : FwpmApi σ) (fuel : Nat) (t : FwpmTransaction)
    (w : World σ) (h : t.m_state = State.Active)
    (hs : (api.FwpmTransactionCommit0 w.eng t.m_engine).1 = api.ERROR_SUCCESS) :
    FwpmTransaction.commit api fuel t w
      = some (Except.ok (), { t with m_state := State.Committed },
          w.after (api.FwpmTransactionCommit0 w.eng t.m_engine).2
            (EngineCall.TransactionCommit0 t.m_engine)) := by
  simp [FwpmTransaction.commit, ensureActive_of_active t "commit" h, hs, World.after]

theorem commit_engine_fail {σ : Type} (api : FwpmApi σ) (fuel : Nat) (t : FwpmTransaction)
    (w : World σ) (h : t.m_state = State.Active)
    (hs : (api.FwpmTransactionCommit0 w.eng t.m_engine).1 ≠ api.ERROR_SUCCESS) :
    FwpmTransaction.commit api fuel t w
      = abortThenThrow api fuel "FwpmTransactionCommit0"
          (api.FwpmTransactionCommit0 w.eng t.m_engine).1 t
          (w.after (api.FwpmTransactionCommit0 w.eng t.m_engine).2
            (EngineCall.TransactionCommit0 t.m_engine)) := by
  simp [FwpmTransaction.commit, ensureActive_of_active t "commit" h, hs, World.after]

theorem addSubLayer_not_active {σ : Type} (api : FwpmApi σ) (fuel : Nat) (t : FwpmTransaction)
    (w : World σ) (sl : FWPM_SUBLAYER0) (h : t.m_state ≠ State.Active) :
    FwpmTransaction.addSubLayer api fuel t w sl
      = some (Except.error (finalizedError "addSubLayer"), t, w) := by
  simp [FwpmTransaction.addSubLayer, ensureActive_of_not_active t "addSubLayer" h]

theorem addSubLayer_engine_ok {σ : Type} (api : FwpmApi σ) (fuel : Nat) (t : FwpmTransaction)
    (w : World σ) (sl : FWPM_SUBLAYER0) (h : t.m_state = State.Active)
    (hs : (api.FwpmSubLayerAdd0 w.eng t.m_engine sl).1 = api.ERROR_SUCCESS ∨
      (api.FwpmSubLayerAdd0 w.eng t.m_engine sl).1 = api.FWP_E_ALREADY_EXISTS) :
    FwpmTransaction.addSubLayer api fuel t w sl
      = some (Except.ok (), t,
          w.after (api.FwpmSubLayerAdd0 w.eng t.m_engine sl).2
            (EngineCall.SubLayerAdd0 t.m_engine sl)) := by
  have hn : ¬ ((api.FwpmSubLayerAdd0 w.eng t.m_engine sl).1 ≠ api.ERROR_SUCCESS ∧
      (api.FwpmSubLayerAdd0 w.eng t.m_engine sl).1 ≠ api.FWP_E_ALREADY_EXISTS) := by
    rintro ⟨h1, h2⟩
    rcases hs with hs | hs
    · exact h1 hs
    · exact h2 hs
  simp only [FwpmTransaction.addSubLayer, ensureActive_of_active t "addSubLayer" h, if_neg hn,
    World.after]

theorem addSubLayer_engine_fail {σ : Type} (api : FwpmApi σ) (fuel : Nat) (t : FwpmTransaction)
    (w : World σ) (sl : FWPM_SUBLAYER0) (h : t.m_state = State.Active)
    (hs : (api.FwpmSubLayerAdd0 w.eng t.m_engine sl).1 ≠ api.ERROR_SUCCESS ∧
      (api.FwpmSubLayerAdd0 w.eng t.m_engine sl).1 ≠ api.FWP_E_ALREADY_EXISTS) :
    FwpmTransaction.addSubLayer api fuel t w sl
      = abortThenThrow api fuel "FwpmSubLayerAdd0"
          (api.FwpmSubLayerAdd0 w.eng t.m_engine sl).1 t
          (w.after (api.FwpmSubLayerAdd0 w.eng t.m_engine sl).2
            (EngineCall.SubLayerAdd0 t.m_engine sl)) := by
  simp only [FwpmTransaction.addSubLayer, ensureActive_of_active t "addSubLayer" h, if_pos hs,
    World.after]

theorem addFilter_not_active {σ : Type} (api : FwpmApi σ) (fuel : Nat) (t : FwpmTransaction)
    (w : World σ) (f : FWPM_FILTER0) (h : t.m_state ≠ State.Active) :
    FwpmTransaction.addFilter api fuel t w f
      = some (Except.error (finalizedError "addFilter"), t, w) := by
  simp [FwpmTransaction.addFilter, ensureActive_of_not_active t "addFilter" h]

theorem addFilter_engine_ok {σ : Type} (api : FwpmApi σ) (fuel : Nat) (t : FwpmTransaction)
    (w : World σ) (f : FWPM_FILTER0) (h : t.m_state = State.Active)
    (hs : (api.FwpmFilterAdd0 w.eng t.m_engine f).1.1 = api.ERROR_SUCCESS) :
    FwpmTransaction.addFilter api fuel t w f
      = some (Except.ok (api.FwpmFilterAdd0 w.eng t.m_engine f).1.2, t,
          w.after (api.FwpmFilterAdd0 w.eng t.m_engine f).2
            (EngineCall.FilterAdd0 t.m_engine f)) := by
  simp [FwpmTransaction.addFilter, ensureActive_of_active t "addFilter" h, hs, World.after]

theorem addFilter_engine_fail {σ : Type} (api : FwpmApi σ) (fuel : Nat) (t : FwpmTransaction)
    (w : World σ) (f : FWPM_FILTER0) (h : t.m_state = State.Active)
    (hs : (api.FwpmFilterAdd0 w.eng t.m_engine f).1.1 ≠ api.ERROR_SUCCESS) :
    FwpmTransaction.addFilter api fuel t w f
      = abortThenThrow api fuel "FwpmFilterAdd0"
          (api.FwpmFilterAdd0 w.eng t.m_engine f).1.1 t
          (w.after (api.FwpmFilterAdd0 w.eng t.m_engine f).2
            (EngineCall.FilterAdd0 t.m_engine f)) := by
  simp [FwpmTransaction.addFilter, ensureActive_of_active t "addFilter" h, hs, World.after]

theorem rejectsAll_of_not_active {σ : Type} (api : FwpmApi σ) (t : FwpmTransaction)
    (h : t.m_state ≠ State.Active) : RejectsAll api t :=
  fun fuel w sl f =>
    ⟨commit_not_active api fuel t w h, abort_not_active api fuel t w h,
      addSubLayer_not_active api fuel t w sl h, addFilter_not_active api fuel t w f h⟩


theorem applyOp_not_active {σ : Type} (api : FwpmApi σ) (fuel : Nat) (op : TxnOp)
    (t : FwpmTransaction) (w : World σ) (h : t.m_state ≠ State.Active) :
    applyOp api fuel op t w = some (t, w) := by
  cases op with
  | commit => simp [applyOp, commit_not_active api fuel t w h]
  | abort => simp [applyOp, abort_not_active api fuel t w h]
  | addSubLayer sl => simp [applyOp, addSubLayer_not_active api fuel t w sl h]
  | addFilter f => simp [applyOp, addFilter_not_active api fuel t w f h]

/-- One member function on an active transaction, when it returns: either the
state is not `Aborted`, the handle is kept and one engine call was made, or
the transaction is `t` marked `Aborted` and the engine's abort was called. -/
theorem applyOp_active {σ : Type} (api : FwpmApi σ) (fuel : Nat) (op : TxnOp)
    (t : FwpmTransaction) (w : World σ) (t2 : FwpmTransaction) (w2 : World σ)
    (hA : t.m_state = State.Active) (h : applyOp api fuel op t w = some (t2, w2)) :
    (t2.m_state ≠ State.Aborted ∧ t2.m_engine = t.m_engine ∧ ∃ c, w2.log = w.log ++ [c]) ∨
    AbortedSince t w t2 w2 := by
  have hact : ∀ (u : FwpmTransaction), u.m_state = State.Active → u.m_state ≠ State.Aborted := by
    intro u hu
    rw [hu]
    exact fun e => State.noConfusion e
  have hext : ∀ {α : Type} (name : String) (s : DWORD) (c : EngineCall) (e : σ)
      (r : Except FwpmException α),
      (abortThenThrow api fuel name s t (w.after e c) : Outcome σ α) = some (r, t2, w2) →
      AbortedSince t w t2 w2 := by
    intro α name s c e r hr
    obtain ⟨⟨ht, rest, hlog, hmem⟩, _⟩ := abortThenThrow_returns api fuel name s t _ r t2 w2 hA hr
    refine ⟨ht, c :: rest, ?_, List.mem_cons_of_mem _ hmem⟩
    rw [hlog]
    simp [World.after]
  cases op with
  | commit =>
    simp only [applyOp, Option.map_eq_some'] at h
    obtain ⟨⟨r, t3, w3⟩, hc, heq⟩ := h
    simp only [Prod.mk.injEq] at heq
    obtain ⟨e1, e2⟩ := heq
    subst e1 e2
    by_cases hs : (api.FwpmTransactionCommit0 w.eng t.m_engine).1 = api.ERROR_SUCCESS
    · rw [commit_engine_ok api fuel t w hA hs] at hc
      simp only [Option.some.injEq, Prod.mk.injEq] at hc
      obtain ⟨_, ht, hw⟩ := hc
      subst ht hw
      exact Or.inl ⟨fun e => State.noConfusion e, rfl, _, rfl⟩
    · rw [commit_engine_fail api fuel t w hA hs] at hc
      exact Or.inr (hext _ _ _ _ r hc)
  | abort =>
    simp only [applyOp, Option.map_eq_some'] at h
    obtain ⟨⟨r, t3, w3⟩, hc, heq⟩ := h
    simp only [Prod.mk.injEq] at heq
    obtain ⟨e1, e2⟩ := heq
    subst e1 e2
    exact Or.inr (abort_returns api fuel t w r t3 w3 hA hc)
  | addSubLayer sl =>
    simp only [applyOp, Option.map_eq_some'] at h
    obtain ⟨⟨r, t3, w3⟩, hc, heq⟩ := h
    simp only [Prod.mk.injEq] at heq
    obtain ⟨e1, e2⟩ := heq
    subst e1 e2
    by_cases hs : (api.FwpmSubLayerAdd0 w.eng t.m_engine sl).1 ≠ api.ERROR_SUCCESS ∧
        (api.FwpmSubLayerAdd0 w.eng t.m_engine sl).1 ≠ api.FWP_E_ALREADY_EXISTS
    · rw [addSubLayer_engine_fail api fuel t w sl hA hs] at hc
      exact Or.inr (hext _ _ _ _ r hc)
    · have hs2 : (api.FwpmSubLayerAdd0 w.eng t.m_engine sl).1 = api.ERROR_SUCCESS ∨
          (api.FwpmSubLayerAdd0 w.eng t.m_engine sl).1 = api.FWP_E_ALREADY_EXISTS := by
        by_cases h1 : (api.FwpmSubLayerAdd0 w.eng t.m_engine sl).1 = api.ERROR_SUCCESS
        · exact Or.inl h1
        · by_cases h2 : (api.FwpmSubLayerAdd0 w.eng t.m_engine sl).1 = api.FWP_E_ALREADY_EXISTS
          · exact Or.inr h2
          · exact absurd ⟨h1, h2⟩ hs
      rw [addSubLayer_engine_ok api fuel t w sl hA hs2] at hc
      simp only [Option.some.injEq, Prod.mk.injEq] at hc
      obtain ⟨_, ht, hw⟩ := hc
      subst ht hw
      exact Or.inl ⟨hact t hA, rfl, _, rfl⟩
  | addFilter f =>
    simp only [applyOp, Option.map_eq_some'] at h
    obtain ⟨⟨r, t3, w3⟩, hc, heq⟩ := h
    simp only [Prod.mk.injEq] at heq
    obtain ⟨e1, e2⟩ := heq
    subst e1 e2
    by_cases hs : (api.FwpmFilterAdd0 w.eng t.m_engine f).1.1 = api.ERROR_SUCCESS
    · rw [addFilter_engine_ok api fuel t w f hA hs] at hc
      simp only [Option.some.injEq, Prod.mk.injEq] at hc
      obtain ⟨_, ht, hw⟩ := hc
      subst ht hw
      exact Or.inl ⟨hact t hA, rfl, _, rfl⟩
    · rw [addFilter_engine_fail api fuel t w f hA hs] at hc
      exact Or.inr (hext _ _ _ _ r hc)

theorem applyOp_abortLogged {σ : Type} (api : FwpmApi σ) (fuel : Nat) (op : TxnOp)
    (engine : HANDLE) (base : List EngineCall) (t : FwpmTransaction) (w : World σ)
    (t2 : FwpmTransaction) (w2 : World σ) (hinv : AbortLogged engine base t w)
    (h : applyOp api fuel op t w = some (t2, w2)) : AbortLogged engine base t2 w2 := by
  by_cases hA : t.m_state = State.Active
  · obtain ⟨heng, rest, hlog, _⟩ := hinv
    rcases applyOp_active api fuel op t w t2 w2 hA h with ⟨hna, he, c, hc⟩ | ⟨ht, rest2, hl2, hm⟩
    · exact ⟨he.trans heng, rest ++ [c], by rw [hc, hlog, List.append_assoc],
        fun hab => absurd hab hna⟩
    · refine ⟨by rw [ht]; exact heng, rest ++ rest2, by rw [hl2, hlog, List.append_assoc], ?_⟩
      intro _
      rw [← heng]
      exact List.mem_append_right _ hm
  · rw [applyOp_not_active api fuel op t w hA] at h
    simp only [Option.some.injEq, Prod.mk.injEq] at h
    obtain ⟨e1, e2⟩ := h
    subst e1 e2
    exact hinv

theorem runOps_abortLogged {σ : Type} (api : FwpmApi σ) (fuel : Nat) (engine : HANDLE)
    (base : List EngineCall) (ops : List TxnOp) :
    ∀ (t : FwpmTransaction) (w : World σ) (t2 : FwpmTransaction) (w2 : World σ),
      AbortLogged engine base t w → runOps api fuel ops t w = some (t2, w2) →
      AbortLogged engine base t2 w2 := by
  induction ops with
  | nil =>
    intro t w t2 w2 hinv h
    simp only [runOps, Option.some.injEq, Prod.mk.injEq] at h
    obtain ⟨e1, e2⟩ := h
    subst e1 e2
    exact hinv
  | cons op rest ih =>
    intro t w t2 w2 hinv h
    simp only [runOps] at h
    cases hop : applyOp api fuel op t w with
    | none => simp [hop] at h
    | some res =>
      obtain ⟨t1, w1⟩ := res
      simp only [hop] at h
      exact ih t1 w1 t2 w2 (applyOp_abortLogged api fuel op engine base t w t1 w1 hinv hop) h

theorem begin_ok {σ : Type} (api : FwpmApi σ) (engine : HANDLE) (w0 : World σ)
    (t1 : FwpmTransaction) (w1 : World σ)
    (h : FwpmTransaction.begin api engine w0 = (Except.ok t1, w1)) :
    t1 = { m_engine := engine, m_state := State.Active } := by
  unfold FwpmTransaction.begin at h
  by_cases h0 : engine = 0
  · simp [h0] at h
  · by_cases hs : (api.FwpmTransactionBegin0 w0.eng engine).1 = api.ERROR_SUCCESS
    · simp [h0, hs] at h
      exact h.1.symm
    · simp [h0, hs] at h


/-! ## The aggregator: `record` and `drainChanged` -/

/-- C1, refuted as stated: after `2 ^ 64` calls of `record` with key `A` on the
empty aggregator the stored count of `A` is not the number of those calls (the
64-bit counter has wrapped to 0). -/
theorem C1_count_wraps_at_two_pow_64 :
    storedCount (run (List.replicate (2 ^ 64) (Call.record keyA)) {}) keyA
      ≠ some (recordCount keyA (List.replicate (2 ^ 64) (Call.record keyA))) := by
  rw [storedCount_run, recordCount_replicate]
  decide

/-- C1, amended: for every finite interleaving of `record` and `drainChanged`
calls on the empty aggregator and every key `k`, the stored count of `k` is the
number of `record` calls with a key equal to `k` taken modulo `2 ^ 64`, so it
is that number itself whenever fewer than `2 ^ 64` such calls were made; a key
never recorded has no entry; a record of another key and a drain never change
the stored count of `k`. -/
theorem C1_stored_count_is_record_count (calls : List Call) (k : EventKey) :
    storedCount (run calls {}) k
        = (if recordCount k calls = 0 then none else some (recordCount k calls % U64)) ∧
    (recordCount k calls < U64 →
      storedCount (run calls {}) k
        = if recordCount k calls = 0 then none else some (recordCount k calls)) ∧
    (∀ (s : Aggregator) (k2 : EventKey), k2 ≠ k →
      storedCount (recordEvent s k2) k = storedCount s k) ∧
    (∀ s : Aggregator, storedCount (doPrint s).2 k = storedCount s k) := by
  refine ⟨storedCount_run calls k, ?_, ?_, ?_⟩
  · intro h
    rw [storedCount_run, Nat.mod_eq_of_lt h]
  · intro s k2 h
    have h2 : k ≠ k2 := fun e => h e.symm
    simp [storedCount, recordEvent, findStats_recordMap_ne k2 k h2]
  · intro s
    simp only [storedCount, doPrint, findStats_drainMap, Option.map_map]
    rfl

/-- C1, the amended statement at the sample interleaving: `A` is recorded
twice there and its stored count is 2. -/
theorem C1_stored_count_is_record_count_witness :
    recordCount keyA calls0 < U64 ∧
    storedCount (run calls0 {}) keyA
      = if recordCount keyA calls0 = 0 then none else some (recordCount keyA calls0) :=
  ⟨by decide, (C1_stored_count_is_record_count calls0 keyA).2.1 (by decide)⟩

/-- C2, refuted as stated: key `A` is recorded `2 ^ 64` times on the empty
aggregator, yet the first drain returns nothing. -/
theorem C2_drain_misses_key_recorded_two_pow_64_times :
    0 < recordCount keyA (List.replicate (2 ^ 64) (Call.record keyA)) ∧
    (doPrint (run (List.replicate (2 ^ 64) (Call.record keyA)) {})).1 = [] := by
  constructor
  · rw [recordCount_replicate]
    decide
  · rw [List.eq_nil_iff_forall_not_mem]
    rintro ⟨k, c⟩ hmem
    have hrep : List.replicate (2 ^ 64) (Call.record keyA)
        = [] ++ (List.replicate (2 ^ 64) keyA).map Call.record := by
      rw [List.map_replicate, List.nil_append]
    rw [hrep] at hmem
    have h := (mem_drain_after_batch [] (List.replicate (2 ^ 64) keyA) (Or.inl rfl) k c).1 hmem
    apply h.1
    rw [List.count_replicate]
    by_cases hk : (keyA == k) = true
    · rw [if_pos hk]
      decide
    · rw [if_neg hk]
      exact Nat.zero_mod _

/-- C2, amended: in every interleaving, for a drain preceded by a prefix `P`
that is empty or ends in the previous drain and then by a batch of records, a
key recorded fewer than `2 ^ 64` times in all is returned exactly when it is in
the batch, paired with its total count; no key is returned twice; and in the
scenario of the specification the first drain returns `A:3` and `B:1`, each
once and in whatever order the map is iterated, and the second `A:4` only. -/
theorem C2_drain_returns_recorded_since_last_drain (P : List Call) (batch : List EventKey)
    (hP : P = [] ∨ ∃ P0, P = P0 ++ [Call.drainChanged]) :
    (∀ (k : EventKey) (c : Nat), recordCount k (P ++ batch.map Call.record) < U64 →
      ((k, c) ∈ (doPrint (run (P ++ batch.map Call.record) {})).1 ↔
        (k ∈ batch ∧ c = recordCount k (P ++ batch.map Call.record)))) ∧
    ((doPrint (run (P ++ batch.map Call.record) {})).1.map Prod.fst).Nodup ∧
    List.Perm
      (doPrint (run [Call.record keyA, Call.record keyA, Call.record keyA, Call.record keyB]
        {})).1 [(keyA, 3), (keyB, 1)] ∧
    (doPrint (run [Call.record keyA, Call.record keyA, Call.record keyA, Call.record keyB,
      Call.drainChanged, Call.record keyA] {})).1 = [(keyA, 4)] := by
  have hfirst : (doPrint (run [Call.record keyA, Call.record keyA, Call.record keyA,
      Call.record keyB] {})).1 = [(keyA, 3), (keyB, 1)] := by decide
  refine ⟨?_, ?_, hfirst ▸ List.Perm.refl _, by decide⟩
  · intro k c hlt
    rw [mem_drain_after_batch P batch hP k c, Nat.mod_eq_of_lt hlt]
    have hle : batch.count k ≤ recordCount k (P ++ batch.map Call.record) := by
      rw [recordCount_append, recordCount_map_record]
      exact Nat.le_add_left _ _
    rw [Nat.mod_eq_of_lt (Nat.lt_of_le_of_lt hle hlt)]
    constructor
    · rintro ⟨h1, h2⟩
      exact ⟨List.count_pos_iff.1 (Nat.pos_of_ne_zero h1), h2⟩
    · rintro ⟨h1, h2⟩
      exact ⟨Nat.pos_iff_ne_zero.1 (List.count_pos_iff.2 h1), h2⟩
  · exact List.Nodup.sublist (sublist_keys_drainMap _) (nodup_keysOf_run_empty _)

/-- C2, the amended statement at a sample: after `A`, a drain, then `A` and
`B`, the drain returns `A` with 2. -/
theorem C2_drain_returns_recorded_since_last_drain_witness :
    ([Call.record keyA, Call.drainChanged] = [] ∨
      ∃ P0, [Call.record keyA, Call.drainChanged] = P0 ++ [Call.drainChanged]) ∧
    recordCount keyA ([Call.record keyA, Call.drainChanged] ++ [keyA, keyB].map Call.record)
      < U64 ∧
    ((keyA, 2) ∈ (doPrint (run ([Call.record keyA, Call.drainChanged]
        ++ [keyA, keyB].map Call.record) {})).1 ↔
      (keyA ∈ [keyA, keyB] ∧ 2 = recordCount keyA ([Call.record keyA, Call.drainChanged]
        ++ [keyA, keyB].map Call.record))) :=
  ⟨Or.inr ⟨[Call.record keyA], rfl⟩, by decide,
    (C2_drain_returns_recorded_since_last_drain [Call.record keyA, Call.drainChanged]
      [keyA, keyB] (Or.inr ⟨[Call.record keyA], rfl⟩)).1 keyA 2 (by decide)⟩

/-- C3: for every aggregator state, a second `drainChanged` right after a
first one returns the empty list and leaves the aggregator unchanged. -/
theorem C3_second_drain_is_empty (agg : Aggregator) :
    (doPrint (doPrint agg).2).1 = [] ∧ (doPrint (doPrint agg).2).2 = (doPrint agg).2 := by
  simp [doPrint, drainMap_drainMap]

/-- C4, refuted as stated: after `A`, a drain and `2 ^ 64 - 1` further records
of `A`, the entry of `A` has `lastPrinted = 1` and `count = 0`. -/
theorem C4_lastPrinted_exceeds_count_after_wrap :
    ∃ e ∈ (run ([Call.record keyA, Call.drainChanged]
        ++ List.replicate (2 ^ 64 - 1) (Call.record keyA)) {}).map,
      ¬ e.2.lastPrinted ≤ e.2.count := by
  have hrep : List.replicate (2 ^ 64 - 1) (Call.record keyA)
      = (List.replicate (2 ^ 64 - 1) keyA).map Call.record := by
    rw [List.map_replicate]
  have hs1 : statsOf keyA (run [Call.record keyA, Call.drainChanged] {}).map
      = { count := 1, lastPrinted := 1 } := by decide
  have hlt : (statsOf keyA (run [Call.record keyA, Call.drainChanged] {}).map).count < U64 := by
    rw [hs1]
    decide
  obtain ⟨hsome, hc, _⟩ := run_entry (List.replicate (2 ^ 64 - 1) (Call.record keyA)) keyA
    (run [Call.record keyA, Call.drainChanged] {}) hlt
  have hl := run_records_lastPrinted (List.replicate (2 ^ 64 - 1) keyA) keyA
    (run [Call.record keyA, Call.drainChanged] {})
  rw [← hrep] at hl
  rw [← run_append] at hsome hc hl
  rw [recordCount_replicate, hs1] at hc
  rw [recordCount_replicate] at hsome
  rw [hs1] at hl
  have hsome2 : (findStats keyA (run ([Call.record keyA, Call.drainChanged]
      ++ List.replicate (2 ^ 64 - 1) (Call.record keyA)) {}).map).isSome = true := by
    rw [hsome]
    decide
  have hf := findStats_of_isSome keyA _ hsome2
  refine ⟨(keyA, statsOf keyA _), (findStats_eq_some_iff keyA _ _
    (nodup_keysOf_run_empty _)).1 hf, ?_⟩
  dsimp only
  rw [hc, hl]
  decide

/-- C4, amended: in every aggregator state reachable from the empty aggregator
by a sequence of `record` and `drainChanged` calls, every entry whose key was
recorded fewer than `2 ^ 64` times satisfies `lastPrinted <= count`; and
`record` never writes `lastPrinted`: an existing entry keeps its value and a
new entry is created with 0. -/
theorem C4_lastPrinted_le_count (calls : List Call) (k : EventKey) (st : EventStats)
    (hmem : (k, st) ∈ (run calls {}).map) (hlt : recordCount k calls < U64) :
    st.lastPrinted ≤ st.count ∧
    (∀ (s : Aggregator) (k1 k2 : EventKey) (st1 : EventStats),
      findStats k2 s.map = some st1 →
        ∃ st2, findStats k2 (recordEvent s k1).map = some st2 ∧
          st2.lastPrinted = st1.lastPrinted) ∧
    (∀ (s : Aggregator) (k1 : EventKey), findStats k1 s.map = none →
      findStats k1 (recordEvent s k1).map = some { count := 1, lastPrinted := 0 }) := by
  refine ⟨?_, ?_, ?_⟩
  · have hf := (findStats_eq_some_iff k st _ (nodup_keysOf_run_empty calls)).2 hmem
    have hst := statsOf_of_findStats k _ st hf
    obtain ⟨_, hc, hl⟩ := run_entry calls k {} (statsOf_empty_lt k)
    have hz : (statsOf k (({} : Aggregator)).map).count = 0 := rfl
    have hz2 : (statsOf k (({} : Aggregator)).map).lastPrinted = 0 := rfl
    rw [hz, Nat.zero_add, hst] at hc
    rw [hz, hz2, Nat.zero_add, hst, Nat.max_eq_right (Nat.zero_le _)] at hl
    rw [hc, Nat.mod_eq_of_lt hlt]
    exact hl
  · intro s k1 k2 st1 h
    by_cases hk : k2 = k1
    · subst hk
      refine ⟨_, findStats_recordMap_self k2 s.map, ?_⟩
      simp [statsOf, h]
    · exact ⟨st1, by simp [recordEvent, findStats_recordMap_ne k1 k2 hk, h], rfl⟩
  · intro s k1 h
    simp [recordEvent, findStats_recordMap_self, statsOf, h]

/-- C4, the amended statement at the sample interleaving: the entry of `A` has
`count = 2` and `lastPrinted = 1`. -/
theorem C4_lastPrinted_le_count_witness :
    (keyA, ({ count := 2, lastPrinted := 1 } : EventStats)) ∈ (run calls0 {}).map ∧
    recordCount keyA calls0 < U64 ∧
    ({ count := 2, lastPrinted := 1 } : EventStats).lastPrinted
      ≤ ({ count := 2, lastPrinted := 1 } : EventStats).count :=
  ⟨by decide, by decide,
    (C4_lastPrinted_le_count calls0 keyA { count := 2, lastPrinted := 1 }
      (by decide) (by decide)).1⟩

/-! ## The transaction: finalize-once semantics -/

/-- C5: for every transaction whose state is `Committed` or `Aborted`, each of
`commit`, `abort`, `addSubLayer` and `addFilter` throws the finalized
exception, makes no engine call (the world is returned as it was) and leaves
the transaction unchanged; in particular, whenever a `commit()` on an active
transaction has returned, a following `commit()` or `abort()` fails this way,
and when that first commit succeeded the engine has been contacted exactly
once, by its commit. -/
theorem C5_finalized_transaction_rejects_every_operation {σ : Type} (api : FwpmApi σ)
    (fuel : Nat) (t : FwpmTransaction) (w : World σ) (sl : FWPM_SUBLAYER0) (f : FWPM_FILTER0)
    (h : t.m_state = State.Committed ∨ t.m_state = State.Aborted) :
    (FwpmTransaction.commit api fuel t w
        = some (Except.error (finalizedError "commit"), t, w) ∧
      FwpmTransaction.abort api fuel t w
        = some (Except.error (finalizedError "abort"), t, w) ∧
      FwpmTransaction.addSubLayer api fuel t w sl
        = some (Except.error (finalizedError "addSubLayer"), t, w) ∧
      FwpmTransaction.addFilter api fuel t w f
        = some (Except.error (finalizedError "addFilter"), t, w)) ∧
    (∀ (t0 : FwpmTransaction) (w0 : World σ) (r : Except FwpmException Unit)
        (t1 : FwpmTransaction) (w1 : World σ), t0.m_state = State.Active →
      FwpmTransaction.commit api fuel t0 w0 = some (r, t1, w1) →
        FwpmTransaction.commit api fuel t1 w1
          = some (Except.error (finalizedError "commit"), t1, w1) ∧
        FwpmTransaction.abort api fuel t1 w1
          = some (Except.error (finalizedError "abort"), t1, w1) ∧
        (r = Except.ok () →
          w1.log = w0.log ++ [EngineCall.TransactionCommit0 t0.m_engine])) := by
  have hna : t.m_state ≠ State.Active := by
    rcases h with h | h <;> rw [h] <;> decide
  refine ⟨rejectsAll_of_not_active api t hna fuel w sl f, ?_⟩
  intro t0 w0 r t1 w1 hA hc
  by_cases hs : (api.FwpmTransactionCommit0 w0.eng t0.m_engine).1 = api.ERROR_SUCCESS
  · rw [commit_engine_ok api fuel t0 w0 hA hs] at hc
    simp only [Option.some.injEq, Prod.mk.injEq] at hc
    obtain ⟨_, ht, hw⟩ := hc
    subst ht hw
    have hn : ({ t0 with m_state := State.Committed } : FwpmTransaction).m_state
        ≠ State.Active := fun e => State.noConfusion e
    exact ⟨commit_not_active api fuel _ _ hn, abort_not_active api fuel _ _ hn, fun _ => rfl⟩
  · rw [commit_engine_fail api fuel t0 w0 hA hs] at hc
    obtain ⟨⟨ht1, _⟩, e, he⟩ := abortThenThrow_returns api fuel _ _ t0 _ r t1 w1 hA hc
    have hn : t1.m_state ≠ State.Active := by
      rw [ht1]
      exact fun e => State.noConfusion e
    refine ⟨commit_not_active api fuel _ _ hn, abort_not_active api fuel _ _ hn, ?_⟩
    intro hr
    rw [hr] at he
    cases he

/-- C5 at a sample: a committed transaction rejects all four calls, and on the
engine that accepts everything `commit(); commit()` and `commit(); abort()`
reach the engine once. -/
theorem C5_finalized_transaction_rejects_every_operation_witness :
    (txnCommitted.m_state = State.Committed ∨ txnCommitted.m_state = State.Aborted) ∧
    (FwpmTransaction.commit okApi 0 txnCommitted world0
        = some (Except.error (finalizedError "commit"), txnCommitted, world0) ∧
      FwpmTransaction.abort okApi 0 txnCommitted world0
        = some (Except.error (finalizedError "abort"), txnCommitted, world0) ∧
      FwpmTransaction.addSubLayer okApi 0 txnCommitted world0 sublayer0
        = some (Except.error (finalizedError "addSubLayer"), txnCommitted, world0) ∧
      FwpmTransaction.addFilter okApi 0 txnCommitted world0 filter0
        = some (Except.error (finalizedError "addFilter"), txnCommitted, world0)) ∧
    (FwpmTransaction.commit okApi 0 txnCommitted
        { eng := 1, log := [EngineCall.TransactionCommit0 1] }
      = some (Except.error (finalizedError "commit"), txnCommitted,
          { eng := 1, log := [EngineCall.TransactionCommit0 1] })) ∧
    (({ eng := 1, log := [EngineCall.TransactionCommit0 1] } : World Nat).log
      = world0.log ++ [EngineCall.TransactionCommit0 txn0.m_engine]) :=
  ⟨Or.inl rfl,
    (C5_finalized_transaction_rejects_every_operation okApi 0 txnCommitted world0 sublayer0
      filter0 (Or.inl rfl)).1,
    ((C5_finalized_transaction_rejects_every_operation okApi 0 txnCommitted world0 sublayer0
      filter0 (Or.inl rfl)).2 txn0 world0 (Except.ok ()) txnCommitted
        { eng := 1, log := [EngineCall.TransactionCommit0 1] } rfl rfl).1,
    ((C5_finalized_transaction_rejects_every_operation okApi 0 txnCommitted world0 sublayer0
      filter0 (Or.inl rfl)).2 txn0 world0 (Except.ok ()) txnCommitted
        { eng := 1, log := [EngineCall.TransactionCommit0 1] } rfl rfl).2.2 rfl⟩

/-- C6, refuted as stated: on an engine that rejects the filter with status 5
and whose abort fails once with status 7, `addFilter` on an active transaction
does not fail with the filter's error (`FwpmFilterAdd0`, status 5) but with
the abort's (`FwpmTransactionAbort0`, status 7), after two engine aborts. -/
theorem C6_addFilter_fails_with_abort_error_when_abort_fails :
    (flakyApi.FwpmFilterAdd0 world0.eng txn0.m_engine filter0).1.1 = 5 ∧
    FwpmTransaction.addFilter flakyApi 1 txn0 world0 filter0
      = some (Except.error (FwpmException.FwpmTransactionRuntimeException
            "FwpmTransactionAbort0 failed: 7" 7),
          { m_engine := 1, m_state := State.Aborted },
          { eng := 3, log := [EngineCall.FilterAdd0 1 filter0, EngineCall.TransactionAbort0 1,
              EngineCall.TransactionAbort0 1] }) ∧
    runtimeError "FwpmFilterAdd0" 5
      ≠ FwpmException.FwpmTransactionRuntimeException "FwpmTransactionAbort0 failed: 7" 7 := by
  refine ⟨rfl, rfl, ?_⟩
  decide

/-- C6, amended: for every active transaction and every engine behaviour in
which the engine's abort issued by the failure handling succeeds, if the
engine rejects an `addFilter`, an `addSubLayer` (with an error other than
already-exists) or a `commit` with status `s`, then the call throws the
runtime exception of the rejected entry point with status `s`, the state
afterwards is `Aborted`, and every later `commit`, `abort`, `addSubLayer` or
`addFilter` throws the finalized exception. -/
theorem C6_failed_call_finalizes_transaction {σ : Type} (api : FwpmApi σ) (fuel : Nat)
    (t : FwpmTransaction) (w : World σ) (sl : FWPM_SUBLAYER0) (f : FWPM_FILTER0)
    (hA : t.m_state = State.Active) :
    ((api.FwpmFilterAdd0 w.eng t.m_engine f).1.1 ≠ api.ERROR_SUCCESS →
      (api.FwpmTransactionAbort0 (api.FwpmFilterAdd0 w.eng t.m_engine f).2 t.m_engine).1
        = api.ERROR_SUCCESS →
      ∃ w2, FwpmTransaction.addFilter api fuel t w f
          = some (Except.error (runtimeError "FwpmFilterAdd0"
              (api.FwpmFilterAdd0 w.eng t.m_engine f).1.1),
            { t with m_state := State.Aborted }, w2) ∧
        RejectsAll api { t with m_state := State.Aborted }) ∧
    ((api.FwpmSubLayerAdd0 w.eng t.m_engine sl).1 ≠ api.ERROR_SUCCESS →
      (api.FwpmSubLayerAdd0 w.eng t.m_engine sl).1 ≠ api.FWP_E_ALREADY_EXISTS →
      (api.FwpmTransactionAbort0 (api.FwpmSubLayerAdd0 w.eng t.m_engine sl).2 t.m_engine).1
        = api.ERROR_SUCCESS →
      ∃ w2, FwpmTransaction.addSubLayer api fuel t w sl
          = some (Except.error (runtimeError "FwpmSubLayerAdd0"
              (api.FwpmSubLayerAdd0 w.eng t.m_engine sl).1),
            { t with m_state := State.Aborted }, w2) ∧
        RejectsAll api { t with m_state := State.Aborted }) ∧
    ((api.FwpmTransactionCommit0 w.eng t.m_engine).1 ≠ api.ERROR_SUCCESS →
      (api.FwpmTransactionAbort0 (api.FwpmTransactionCommit0 w.eng t.m_engine).2 t.m_engine).1
        = api.ERROR_SUCCESS →
      ∃ w2, FwpmTransaction.commit api fuel t w
          = some (Except.error (runtimeError "FwpmTransactionCommit0"
              (api.FwpmTransactionCommit0 w.eng t.m_engine).1),
            { t with m_state := State.Aborted }, w2) ∧
        RejectsAll api { t with m_state := State.Aborted }) := by
  have hrej : RejectsAll api { t with m_state := State.Aborted } :=
    rejectsAll_of_not_active api _ (fun e => State.noConfusion e)
  refine ⟨?_, ?_, ?_⟩
  · intro hs hab
    rw [addFilter_engine_fail api fuel t w f hA hs]
    exact ⟨_, abortThenThrow_engine_ok api fuel _ _ t _ hA hab, hrej⟩
  · intro hs1 hs2 hab
    rw [addSubLayer_engine_fail api fuel t w sl hA ⟨hs1, hs2⟩]
    exact ⟨_, abortThenThrow_engine_ok api fuel _ _ t _ hA hab, hrej⟩
  · intro hs hab
    rw [commit_engine_fail api fuel t w hA hs]
    exact ⟨_, abortThenThrow_engine_ok api fuel _ _ t _ hA hab, hrej⟩

/-- C6, the amended statement on the engine that rejects filters, sublayers and
commits and accepts aborts. -/
theorem C6_failed_call_finalizes_transaction_witness :
    txn0.m_state = State.Active ∧
    (∃ w2, FwpmTransaction.addFilter rejectApi 0 txn0 world0 filter0
        = some (Except.error (runtimeError "FwpmFilterAdd0"
            (rejectApi.FwpmFilterAdd0 world0.eng txn0.m_engine filter0).1.1),
          { txn0 with m_state := State.Aborted }, w2) ∧
      RejectsAll rejectApi { txn0 with m_state := State.Aborted }) ∧
    (∃ w2, FwpmTransaction.addSubLayer rejectApi 0 txn0 world0 sublayer0
        = some (Except.error (runtimeError "FwpmSubLayerAdd0"
            (rejectApi.FwpmSubLayerAdd0 world0.eng txn0.m_engine sublayer0).1),
          { txn0 with m_state := State.Aborted }, w2) ∧
      RejectsAll rejectApi { txn0 with m_state := State.Aborted }) ∧
    (∃ w2, FwpmTransaction.commit rejectApi 0 txn0 world0
        = some (Except.error (runtimeError "FwpmTransactionCommit0"
            (rejectApi.FwpmTransactionCommit0 world0.eng txn0.m_engine).1),
          { txn0 with m_state := State.Aborted }, w2) ∧
      RejectsAll rejectApi { txn0 with m_state := State.Aborted }) :=
  ⟨rfl,
    (C6_failed_call_finalizes_transaction rejectApi 0 txn0 world0 sublayer0 filter0 rfl).1
      (by decide) rfl,
    (C6_failed_call_finalizes_transaction rejectApi 0 txn0 world0 sublayer0 filter0 rfl).2.1
      (by decide) (by decide) rfl,
    (C6_failed_call_finalizes_transaction rejectApi 0 txn0 world0 sublayer0 filter0 rfl).2.2
      (by decide) rfl⟩

/-- C7, refuted as stated: on an engine that rejects the commit with status 5
and whose abort fails once with status 7, `commit` on an active transaction
fails with the abort's error (`FwpmTransactionAbort0`, status 7), not with the
commit's. -/
theorem C7_commit_fails_with_abort_error_when_abort_fails :
    (flakyApi.FwpmTransactionCommit0 world0.eng txn0.m_engine).1 = 5 ∧
    FwpmTransaction.commit flakyApi 1 txn0 world0
      = some (Except.error (FwpmException.FwpmTransactionRuntimeException
            "FwpmTransactionAbort0 failed: 7" 7),
          { m_engine := 1, m_state := State.Aborted },
          { eng := 3, log := [EngineCall.TransactionCommit0 1, EngineCall.TransactionAbort0 1,
              EngineCall.TransactionAbort0 1] }) ∧
    runtimeError "FwpmTransactionCommit0" 5
      ≠ FwpmException.FwpmTransactionRuntimeException "FwpmTransactionAbort0 failed: 7" 7 := by
  refine ⟨rfl, rfl, ?_⟩
  decide

/-- C7, amended: for every active transaction, if the engine's commit succeeds
then `commit()` returns with state `Committed` and the engine's abort is not
called (the commit is the only engine call); if the engine's commit fails with
status `s` and the engine's abort that follows succeeds, then the engine's
abort is invoked once, the state becomes `Aborted`, and `commit()` throws the
runtime exception of `FwpmTransactionCommit0` carrying status `s`. -/
theorem C7_commit_outcomes {σ : Type} (api : FwpmApi σ) (fuel : Nat) (t : FwpmTransaction)
    (w : World σ) (hA : t.m_state = State.Active) :
    ((api.FwpmTransactionCommit0 w.eng t.m_engine).1 = api.ERROR_SUCCESS →
      FwpmTransaction.commit api fuel t w
        = some (Except.ok (), { t with m_state := State.Committed },
            { eng := (api.FwpmTransactionCommit0 w.eng t.m_engine).2,
              log := w.log ++ [EngineCall.TransactionCommit0 t.m_engine] })) ∧
    ((api.FwpmTransactionCommit0 w.eng t.m_engine).1 ≠ api.ERROR_SUCCESS →
      (api.FwpmTransactionAbort0 (api.FwpmTransactionCommit0 w.eng t.m_engine).2 t.m_engine).1
        = api.ERROR_SUCCESS →
      FwpmTransaction.commit api fuel t w
        = some (Except.error (runtimeError "FwpmTransactionCommit0"
              (api.FwpmTransactionCommit0 w.eng t.m_engine).1),
            { t with m_state := State.Aborted },
            { eng := (api.FwpmTransactionAbort0
                (api.FwpmTransactionCommit0 w.eng t.m_engine).2 t.m_engine).2,
              log := w.log ++ [EngineCall.TransactionCommit0 t.m_engine,
                EngineCall.TransactionAbort0 t.m_engine] })) := by
  constructor
  · intro hs
    rw [commit_engine_ok api fuel t w hA hs]
    rfl
  · intro hs hab
    rw [commit_engine_fail api fuel t w hA hs,
      abortThenThrow_engine_ok api fuel _ _ t _ hA hab]
    simp [World.after]

/-- C7, the amended statement on the engine that accepts everything and on
the engine that rejects commits and accepts aborts. -/
theorem C7_commit_outcomes_witness :
    txn0.m_state = State.Active ∧
    FwpmTransaction.commit okApi 0 txn0 world0
      = some (Except.ok (), { txn0 with m_state := State.Committed },
          { eng := (okApi.FwpmTransactionCommit0 world0.eng txn0.m_engine).2,
            log := world0.log ++ [EngineCall.TransactionCommit0 txn0.m_engine] }) ∧
    FwpmTransaction.commit rejectApi 0 txn0 world0
      = some (Except.error (runtimeError "FwpmTransactionCommit0"
            (rejectApi.FwpmTransactionCommit0 world0.eng txn0.m_engine).1),
          { txn0 with m_state := State.Aborted },
          { eng := (rejectApi.FwpmTransactionAbort0
              (rejectApi.FwpmTransactionCommit0 world0.eng txn0.m_engine).2 txn0.m_engine).2,
            log := world0.log ++ [EngineCall.TransactionCommit0 txn0.m_engine,
              EngineCall.TransactionAbort0 txn0.m_engine] }) :=
  ⟨rfl, (C7_commit_outcomes okApi 0 txn0 world0 rfl).1 rfl,
    (C7_commit_outcomes rejectApi 0 txn0 world0 rfl).2 (by decide) rfl⟩

/-- C8, the code at the failing input: on an engine whose abort fails on every
call, `abort()` on an active transaction does not return, however deep the
re-entry of `abort()` from its own failure branch is allowed to go; the state
is never marked `Aborted` and no exception is thrown. -/
theorem C8_abort_never_returns_when_engine_abort_keeps_failing (fuel : Nat) (w : World Nat) :
    FwpmTransaction.abort stuckApi fuel txn0 w = none := by
  have hfail : ∀ v : World Nat,
      (stuckApi.FwpmTransactionAbort0 v.eng txn0.m_engine).1 ≠ stuckApi.ERROR_SUCCESS := by
    intro v
    show (7 : Nat) ≠ 0
    decide
  induction fuel generalizing w with
  | zero => exact abort_engine_fail_zero stuckApi txn0 w rfl (hfail w)
  | succ n ih =>
    rw [abort_engine_fail_succ stuckApi n txn0 w rfl (hfail w), ih]

/-- C9: for every active transaction, `addSubLayer` returns normally and leaves
the transaction as it was, hence `Active`, both when the engine reports success
and when it reports that the sublayer already exists; so adding the same
sublayer twice, with the engine answering already-exists the second time,
followed by a commit that the engine accepts, ends in state `Committed`. -/
theorem C9_addSubLayer_accepts_already_exists {σ : Type} (api : FwpmApi σ) (fuel : Nat)
    (t : FwpmTransaction) (w : World σ) (sl : FWPM_SUBLAYER0)
    (hA : t.m_state = State.Active)
    (hs : (api.FwpmSubLayerAdd0 w.eng t.m_engine sl).1 = api.ERROR_SUCCESS ∨
      (api.FwpmSubLayerAdd0 w.eng t.m_engine sl).1 = api.FWP_E_ALREADY_EXISTS) :
    FwpmTransaction.addSubLayer api fuel t w sl
      = some (Except.ok (), t,
          { eng := (api.FwpmSubLayerAdd0 w.eng t.m_engine sl).2,
            log := w.log ++ [EngineCall.SubLayerAdd0 t.m_engine sl] }) ∧
    ((api.FwpmSubLayerAdd0 (api.FwpmSubLayerAdd0 w.eng t.m_engine sl).2 t.m_engine sl).1
        = api.FWP_E_ALREADY_EXISTS →
      (api.FwpmTransactionCommit0
        (api.FwpmSubLayerAdd0 (api.FwpmSubLayerAdd0 w.eng t.m_engine sl).2 t.m_engine sl).2
        t.m_engine).1 = api.ERROR_SUCCESS →
      ∃ w1 w2 w3,
        FwpmTransaction.addSubLayer api fuel t w sl = some (Except.ok (), t, w1) ∧
        FwpmTransaction.addSubLayer api fuel t w1 sl = some (Except.ok (), t, w2) ∧
        FwpmTransaction.commit api fuel t w2
          = some (Except.ok (), { t with m_state := State.Committed }, w3) ∧
        runOps api fuel [TxnOp.addSubLayer sl, TxnOp.addSubLayer sl, TxnOp.commit] t w
          = some ({ t with m_state := State.Committed }, w3)) := by
  have h1 := addSubLayer_engine_ok api fuel t w sl hA hs
  refine ⟨h1, ?_⟩
  intro hs2 hs3
  have h2 := addSubLayer_engine_ok api fuel t
    (w.after (api.FwpmSubLayerAdd0 w.eng t.m_engine sl).2 (EngineCall.SubLayerAdd0 t.m_engine sl))
    sl hA (Or.inr hs2)
  have h3 := commit_engine_ok api fuel t
    ((w.after (api.FwpmSubLayerAdd0 w.eng t.m_engine sl).2
        (EngineCall.SubLayerAdd0 t.m_engine sl)).after
      (api.FwpmSubLayerAdd0 (api.FwpmSubLayerAdd0 w.eng t.m_engine sl).2 t.m_engine sl).2
      (EngineCall.SubLayerAdd0 t.m_engine sl)) hA hs3
  simp only [World.after] at h1 h2 h3
  refine ⟨_, _, _, h1, h2, h3, ?_⟩
  simp only [runOps, applyOp, h1, h2, h3, Option.map_some']

/-- C9 on the engine that answers the first sublayer with success and the
second with already-exists. -/
theorem C9_addSubLayer_accepts_already_exists_witness :
    txn0.m_state = State.Active ∧
    ((dupApi.FwpmSubLayerAdd0 world0.eng txn0.m_engine sublayer0).1 = dupApi.ERROR_SUCCESS ∨
      (dupApi.FwpmSubLayerAdd0 world0.eng txn0.m_engine sublayer0).1
        = dupApi.FWP_E_ALREADY_EXISTS) ∧
    (dupApi.FwpmSubLayerAdd0 (dupApi.FwpmSubLayerAdd0 world0.eng txn0.m_engine sublayer0).2
      txn0.m_engine sublayer0).1 = dupApi.FWP_E_ALREADY_EXISTS ∧
    ∃ w1 w2 w3,
      FwpmTransaction.addSubLayer dupApi 0 txn0 world0 sublayer0
        = some (Except.ok (), txn0, w1) ∧
      FwpmTransaction.addSubLayer dupApi 0 txn0 w1 sublayer0 = some (Except.ok (), txn0, w2) ∧
      FwpmTransaction.commit dupApi 0 txn0 w2
        = some (Except.ok (), { txn0 with m_state := State.Committed }, w3) ∧
      runOps dupApi 0 [TxnOp.addSubLayer sublayer0, TxnOp.addSubLayer sublayer0, TxnOp.commit]
        txn0 world0 = some ({ txn0 with m_state := State.Committed }, w3) :=
  ⟨rfl, Or.inl rfl, rfl,
    (C9_addSubLayer_accepts_already_exists dupApi 0 txn0 world0 sublayer0 rfl (Or.inl rfl)).2
      rfl rfl⟩

/-- C10: destroying a transaction whose state is `Active` makes exactly one
engine call, the engine's abort on its handle, and marks it `Aborted`;
destroying one whose state is `Committed` or `Aborted` makes no engine call;
hence for a transaction that was begun, used through any sequence of member
calls that returned, and destroyed in a state other than `Committed`, the
engine's abort on its handle has been called after the begin. -/
theorem C10_destructor_aborts_unless_finalized {σ : Type} (api : FwpmApi σ)
    (t : FwpmTransaction) (w : World σ) :
    (t.m_state = State.Active →
      FwpmTransaction.destroy api t w
        = ({ t with m_state := State.Aborted },
            { eng := (api.FwpmTransactionAbort0 w.eng t.m_engine).2,
              log := w.log ++ [EngineCall.TransactionAbort0 t.m_engine] })) ∧
    ((t.m_state = State.Committed ∨ t.m_state = State.Aborted) →
      FwpmTransaction.destroy api t w = (t, w)) ∧
    (∀ (engine : HANDLE) (w0 : World σ) (t1 : FwpmTransaction) (w1 : World σ) (fuel : Nat)
        (ops : List TxnOp) (t2 : FwpmTransaction) (w2 : World σ),
      FwpmTransaction.begin api engine w0 = (Except.ok t1, w1) →
      runOps api fuel ops t1 w1 = some (t2, w2) →
      t2.m_state ≠ State.Committed →
      ∃ rest, (FwpmTransaction.destroy api t2 w2).2.log = w1.log ++ rest ∧
        EngineCall.TransactionAbort0 engine ∈ rest) := by
  refine ⟨?_, ?_, ?_⟩
  · intro hA
    simp [FwpmTransaction.destroy, hA]
  · intro h
    have hna : t.m_state ≠ State.Active := by
      rcases h with h | h <;> rw [h] <;> exact fun e => State.noConfusion e
    simp [FwpmTransaction.destroy, hna]
  · intro engine w0 t1 w1 fuel ops t2 w2 hb hr hnc
    have ht1 := begin_ok api engine w0 t1 w1 hb
    have hinv0 : AbortLogged engine w1.log t1 w1 := by
      refine ⟨by rw [ht1], [], by simp, ?_⟩
      intro hab
      rw [ht1] at hab
      exact State.noConfusion hab
    obtain ⟨heng, rest, hlog, hab⟩ := runOps_abortLogged api fuel engine w1.log ops t1 w1 t2 w2
      hinv0 hr
    by_cases hA : t2.m_state = State.Active
    · refine ⟨rest ++ [EngineCall.TransactionAbort0 engine], ?_, by simp⟩
      simp [FwpmTransaction.destroy, hA, hlog, heng]
    · have hAb : t2.m_state = State.Aborted := by
        cases hst : t2.m_state with
        | Aborted => rfl
        | Active => exact absurd hst hA
        | Committed => exact absurd hst hnc
      refine ⟨rest, ?_, hab hAb⟩
      simp [FwpmTransaction.destroy, hA, hlog]

/-- C10 at samples: an active and a committed transaction destroyed on the
engine that accepts everything, and a transaction begun there, given a
sublayer and destroyed without a commit. -/
theorem C10_destructor_aborts_unless_finalized_witness :
    txn0.m_state = State.Active ∧
    FwpmTransaction.destroy okApi txn0 world0
      = ({ txn0 with m_state := State.Aborted },
          { eng := (okApi.FwpmTransactionAbort0 world0.eng txn0.m_engine).2,
            log := world0.log ++ [EngineCall.TransactionAbort0 txn0.m_engine] }) ∧
    FwpmTransaction.destroy okApi txnCommitted world0 = (txnCommitted, world0) ∧
    ∃ rest, (FwpmTransaction.destroy okApi txn0
        { eng := 2, log := [EngineCall.TransactionBegin0 1,
          EngineCall.SubLayerAdd0 1 sublayer0] }).2.log
          = [EngineCall.TransactionBegin0 1] ++ rest ∧
      EngineCall.TransactionAbort0 1 ∈ rest :=
  ⟨rfl, (C10_destructor_aborts_unless_finalized okApi txn0 world0).1 rfl,
    (C10_destructor_aborts_unless_finalized okApi txnCommitted world0).2.1 (Or.inl rfl),
    (C10_destructor_aborts_unless_finalized okApi txn0 world0).2.2 1 world0 txn0
      { eng := 1, log := [EngineCall.TransactionBegin0 1] } 0 [TxnOp.addSubLayer sublayer0] txn0
      { eng := 2, log := [EngineCall.TransactionBegin0 1, EngineCall.SubLayerAdd0 1 sublayer0] }
      rfl rfl (by decide)⟩

/-! ## The transaction: state machine and engine aborts -/

theorem applyOp_committed {σ : Type} (api : FwpmApi σ) (fuel : Nat) (op : TxnOp)
    (t : FwpmTransaction) (w : World σ) (t2 : FwpmTransaction) (w2 : World σ)
    (hA : t.m_state = State.Active) (h : applyOp api fuel op t w = some (t2, w2))
    (hC : t2.m_state = State.Committed) :
    op = TxnOp.commit ∧ (api.FwpmTransactionCommit0 w.eng t.m_engine).1 = api.ERROR_SUCCESS := by
  have hne : State.Active ≠ State.Committed := fun e => State.noConfusion e
  have hab : ∀ (v v2 : World σ), AbortedSince t v t2 v2 → False := by
    intro v v2 hs
    rw [hs.1] at hC
    exact State.noConfusion hC
  cases op with
  | commit =>
    refine ⟨rfl, ?_⟩
    by_contra hs
    simp only [applyOp, Option.map_eq_some'] at h
    obtain ⟨⟨r, t3, w3⟩, hc, heq⟩ := h
    simp only [Prod.mk.injEq] at heq
    obtain ⟨e1, e2⟩ := heq
    subst e1 e2
    rw [commit_engine_fail api fuel t w hA hs] at hc
    exact hab _ _ (abortThenThrow_returns api fuel _ _ t _ r t3 w3 hA hc).1
  | abort =>
    exfalso
    simp only [applyOp, Option.map_eq_some'] at h
    obtain ⟨⟨r, t3, w3⟩, hc, heq⟩ := h
    simp only [Prod.mk.injEq] at heq
    obtain ⟨e1, e2⟩ := heq
    subst e1 e2
    exact hab _ _ (abort_returns api fuel t w r t3 w3 hA hc)
  | addSubLayer sl =>
    exfalso
    rcases applyOp_active api fuel (TxnOp.addSubLayer sl) t w t2 w2 hA h with h1 | h1
    · simp only [applyOp, Option.map_eq_some'] at h
      obtain ⟨⟨r, t3, w3⟩, hc, heq⟩ := h
      simp only [Prod.mk.injEq] at heq
      obtain ⟨e1, e2⟩ := heq
      subst e1 e2
      by_cases hs : (api.FwpmSubLayerAdd0 w.eng t.m_engine sl).1 ≠ api.ERROR_SUCCESS ∧
          (api.FwpmSubLayerAdd0 w.eng t.m_engine sl).1 ≠ api.FWP_E_ALREADY_EXISTS
      · rw [addSubLayer_engine_fail api fuel t w sl hA hs] at hc
        exact hab _ _ (abortThenThrow_returns api fuel _ _ t _ r t3 w3 hA hc).1
      · have hs2 : (api.FwpmSubLayerAdd0 w.eng t.m_engine sl).1 = api.ERROR_SUCCESS ∨
            (api.FwpmSubLayerAdd0 w.eng t.m_engine sl).1 = api.FWP_E_ALREADY_EXISTS := by
          by_cases h2 : (api.FwpmSubLayerAdd0 w.eng t.m_engine sl).1 = api.ERROR_SUCCESS
          · exact Or.inl h2
          · by_cases h3 : (api.FwpmSubLayerAdd0 w.eng t.m_engine sl).1
                = api.FWP_E_ALREADY_EXISTS
            · exact Or.inr h3
            · exact absurd ⟨h2, h3⟩ hs
        rw [addSubLayer_engine_ok api fuel t w sl hA hs2] at hc
        simp only [Option.some.injEq, Prod.mk.injEq] at hc
        rw [← hc.2.1, hA] at hC
        exact hne hC
    · exact hab _ _ h1
  | addFilter f =>
    exfalso
    simp only [applyOp, Option.map_eq_some'] at h
    obtain ⟨⟨r, t3, w3⟩, hc, heq⟩ := h
    simp only [Prod.mk.injEq] at heq
    obtain ⟨e1, e2⟩ := heq
    subst e1 e2
    by_cases hs : (api.FwpmFilterAdd0 w.eng t.m_engine f).1.1 = api.ERROR_SUCCESS
    · rw [addFilter_engine_ok api fuel t w f hA hs] at hc
      simp only [Option.some.injEq, Prod.mk.injEq] at hc
      rw [← hc.2.1, hA] at hC
      exact hne hC
    · rw [addFilter_engine_fail api fuel t w f hA hs] at hc
      exact hab _ _ (abortThenThrow_returns api fuel _ _ t _ r t3 w3 hA hc).1

/-- One member function, when it returns, keeps the state or moves it from
`Active` to `Committed` or `Aborted`. -/
theorem applyOp_moves {σ : Type} (api : FwpmApi σ) (fuel : Nat) (op : TxnOp)
    (t : FwpmTransaction) (w : World σ) (t2 : FwpmTransaction) (w2 : World σ)
    (h : applyOp api fuel op t w = some (t2, w2)) :
    t2.m_state = t.m_state ∨
      (t.m_state = State.Active ∧
        (t2.m_state = State.Committed ∨ t2.m_state = State.Aborted)) := by
  by_cases hA : t.m_state = State.Active
  · cases hst : t2.m_state with
    | Aborted => exact Or.inr ⟨hA, Or.inr rfl⟩
    | Committed => exact Or.inr ⟨hA, Or.inl rfl⟩
    | Active => exact Or.inl hA.symm
  · left
    rw [applyOp_not_active api fuel op t w hA] at h
    simp only [Option.some.injEq, Prod.mk.injEq] at h
    rw [← h.1]

/-- A sequence of member functions, when it returns: the state is kept or has
moved from `Active` to `Committed` or `Aborted`, and a state that became
`Committed` did so at a `commit` called in state `Active` whose engine commit
succeeded. -/
theorem runOps_moves {σ : Type} (api : FwpmApi σ) (fuel : Nat) (ops : List TxnOp) :
    ∀ (t : FwpmTransaction) (w : World σ) (t2 : FwpmTransaction) (w2 : World σ),
      runOps api fuel ops t w = some (t2, w2) →
      (t2.m_state = t.m_state ∨
        (t.m_state = State.Active ∧
          (t2.m_state = State.Committed ∨ t2.m_state = State.Aborted))) ∧
      (t2.m_state = State.Committed → t.m_state ≠ State.Committed →
        ∃ pre post t1 w1, ops = pre ++ TxnOp.commit :: post ∧
          runOps api fuel pre t w = some (t1, w1) ∧ t1.m_state = State.Active ∧
          (api.FwpmTransactionCommit0 w1.eng t1.m_engine).1 = api.ERROR_SUCCESS) := by
  induction ops with
  | nil =>
    intro t w t2 w2 h
    simp only [runOps, Option.some.injEq, Prod.mk.injEq] at h
    obtain ⟨e1, e2⟩ := h
    subst e1 e2
    exact ⟨Or.inl rfl, fun h1 h2 => absurd h1 h2⟩
  | cons op rest ih =>
    intro t w t2 w2 h
    simp only [runOps] at h
    cases hop : applyOp api fuel op t w with
    | none => simp [hop] at h
    | some res =>
      obtain ⟨t1, w1⟩ := res
      simp only [hop] at h
      obtain ⟨hm2, hc2⟩ := ih t1 w1 t2 w2 h
      have hm1 := applyOp_moves api fuel op t w t1 w1 hop
      constructor
      · rcases hm1 with h1 | ⟨hA, h1⟩
        · rcases hm2 with h2 | ⟨hA2, h2⟩
          · exact Or.inl (h2.trans h1)
          · exact Or.inr ⟨h1 ▸ hA2, h2⟩
        · rcases hm2 with h2 | ⟨hA2, _⟩
          · exact Or.inr ⟨hA, by rw [h2]; exact h1⟩
          · exfalso
            rcases h1 with h1 | h1 <;> rw [h1] at hA2 <;> exact State.noConfusion hA2
      · intro hC hnC
        by_cases hC1 : t1.m_state = State.Committed
        · have hA : t.m_state = State.Active := by
            rcases hm1 with h1 | ⟨hA, _⟩
            · exact absurd (h1 ▸ hC1) hnC
            · exact hA
          obtain ⟨hop2, hs⟩ := applyOp_committed api fuel op t w t1 w1 hA hop hC1
          exact ⟨[], rest, t, w, by rw [hop2]; rfl, rfl, hA, hs⟩
        · obtain ⟨pre, post, t3, w3, he, hr, hA3, hs⟩ := hc2 hC hC1
          refine ⟨op :: pre, post, t3, w3, by rw [he]; rfl, ?_, hA3, hs⟩
          simp only [runOps, hop]
          exact hr

/-- C11: for every sequence of `commit`, `abort`, `addSubLayer` and `addFilter`
calls that returns, from any state of the transaction and on any engine, the
state is kept or has moved from `Active` to `Committed` or from `Active` to
`Aborted`, so `Committed` and `Aborted` are never left; and a state that
became `Committed` did so at a `commit()` called in state `Active` whose
engine commit succeeded. -/
theorem C11_state_only_leaves_active {σ : Type} (api : FwpmApi σ) (fuel : Nat)
    (ops : List TxnOp) (t : FwpmTransaction) (w : World σ) (t2 : FwpmTransaction)
    (w2 : World σ) (h : runOps api fuel ops t w = some (t2, w2)) :
    (t2.m_state = t.m_state ∨
      (t.m_state = State.Active ∧
        (t2.m_state = State.Committed ∨ t2.m_state = State.Aborted))) ∧
    (t.m_state = State.Committed → t2.m_state = State.Committed) ∧
    (t.m_state = State.Aborted → t2.m_state = State.Aborted) ∧
    (t2.m_state = State.Committed → t.m_state ≠ State.Committed →
      ∃ pre post t1 w1, ops = pre ++ TxnOp.commit :: post ∧
        runOps api fuel pre t w = some (t1, w1) ∧ t1.m_state = State.Active ∧
        (api.FwpmTransactionCommit0 w1.eng t1.m_engine).1 = api.ERROR_SUCCESS) := by
  obtain ⟨hm, hc⟩ := runOps_moves api fuel ops t w t2 w2 h
  refine ⟨hm, ?_, ?_, hc⟩
  · intro hC
    rcases hm with h1 | ⟨hA, _⟩
    · rw [h1, hC]
    · rw [hC] at hA
      exact State.noConfusion hA
  · intro hAb
    rcases hm with h1 | ⟨hA, _⟩
    · rw [h1, hAb]
    · rw [hAb] at hA
      exact State.noConfusion hA

/-- C11 at a sample: a sublayer, a filter and a commit on the engine that
accepts everything, then an abort on the committed transaction. -/
theorem C11_state_only_leaves_active_witness :
    runOps okApi 0 [TxnOp.addSubLayer sublayer0, TxnOp.addFilter filter0, TxnOp.commit,
        TxnOp.abort] txn0 world0
      = some (txnCommitted, { eng := 3, log := [EngineCall.SubLayerAdd0 1 sublayer0,
          EngineCall.FilterAdd0 1 filter0, EngineCall.TransactionCommit0 1] }) ∧
    (txnCommitted.m_state = txn0.m_state ∨
      (txn0.m_state = State.Active ∧
        (txnCommitted.m_state = State.Committed ∨ txnCommitted.m_state = State.Aborted))) :=
  ⟨rfl, (C11_state_only_leaves_active okApi 0
    [TxnOp.addSubLayer sublayer0, TxnOp.addFilter filter0, TxnOp.commit, TxnOp.abort]
    txn0 world0 txnCommitted { eng := 3, log := [EngineCall.SubLayerAdd0 1 sublayer0,
      EngineCall.FilterAdd0 1 filter0, EngineCall.TransactionCommit0 1] } rfl).1⟩

/-- C12, the code at the failing input: on an engine whose abort fails on its
first two calls and succeeds on the third, one call of `abort()` on an active
transaction invokes the engine's abort three times, the failed ones being
retried from the failure branch. -/
theorem C12_abort_retries_failed_engine_abort :
    FwpmTransaction.abort flakyApi 2 txn0 world0
      = some (Except.error (FwpmException.FwpmTransactionRuntimeException
            "FwpmTransactionAbort0 failed: 7" 7),
          { m_engine := 1, m_state := State.Aborted },
          { eng := 3, log := [EngineCall.TransactionAbort0 1, EngineCall.TransactionAbort0 1,
              EngineCall.TransactionAbort0 1] }) :=
  rfl

/-! ## The session: handle ownership and `beginTransaction` -/

/-- C17, the code at two failing inputs, and the part of the claim that holds.
A session opened with handle 5, copied, both objects destroyed: the handle is
closed twice.  Two sessions opened with handles 5 and 6, the second
move-assigned onto the first, both destroyed: handle 5 is never closed.  And
destroying a moved-from session makes no call. -/
theorem C17_copy_closes_twice_and_move_assign_leaks :
    (sessionRun handleApi [SessionOp.acquireGlobal, SessionOp.copyConstruct 0,
        SessionOp.destroy 0, SessionOp.destroy 1] [] sys0).1 = [none, none] ∧
    closeCount 5 (sessionRun handleApi [SessionOp.acquireGlobal, SessionOp.copyConstruct 0,
        SessionOp.destroy 0, SessionOp.destroy 1] [] sys0).2.log = 2 ∧
    (sessionRun handleApi [SessionOp.acquireGlobal, SessionOp.acquireGlobal,
        SessionOp.moveAssign 0 1, SessionOp.destroy 0, SessionOp.destroy 1] [] sys0).1
      = [none, none] ∧
    closeCount 5 (sessionRun handleApi [SessionOp.acquireGlobal, SessionOp.acquireGlobal,
        SessionOp.moveAssign 0 1, SessionOp.destroy 0, SessionOp.destroy 1] [] sys0).2.log = 0 ∧
    (∀ (other : FwpmEngine) (s : Sys Nat),
      (FwpmEngine.destroy handleApi other.move.2 s).2.log = s.log) := by
  refine ⟨by decide, by decide, by decide, by decide, ?_⟩
  intro other s
  rfl

/-- C18, refuted as stated: a session holding the invalid-handle sentinel (here
`2 ^ 64 - 1`) tests false, yet `beginTransaction` on it calls the engine's begin
and, the engine accepting, yields an active transaction. -/
theorem C18_begin_on_sentinel_handle_calls_engine :
    FwpmEngine.toBool (2 ^ 64 - 1) { m_engine := 2 ^ 64 - 1 } = false ∧
    FwpmEngine.beginTransaction okApi { m_engine := 2 ^ 64 - 1 } world0
      = (Except.ok { m_engine := 2 ^ 64 - 1, m_state := State.Active },
          { eng := 1, log := [EngineCall.TransactionBegin0 (2 ^ 64 - 1)] }) := by
  constructor
  · decide
  · rfl

/-- C18, amended: `beginTransaction` on a session whose handle is null throws
the logic exception without calling the engine's begin; on every other handle
(the invalid-handle sentinel included) it calls the engine's begin exactly
once, and it yields a transaction, which is then in state `Active` on that
handle, if and only if that call succeeds, throwing the runtime exception
with the status otherwise. -/
theorem C18_beginTransaction_checks_null_only {σ : Type} (api : FwpmApi σ) (e : FwpmEngine)
    (w : World σ) :
    (e.m_engine = 0 →
      FwpmEngine.beginTransaction api e w
        = (Except.error (FwpmException.FwpmTransactionLogicException
            "FwpmTransaction: null engine handle"), w)) ∧
    (e.m_engine ≠ 0 →
      (FwpmEngine.beginTransaction api e w).2.log
          = w.log ++ [EngineCall.TransactionBegin0 e.m_engine] ∧
      ((∃ t, (FwpmEngine.beginTransaction api e w).1 = Except.ok t) ↔
        (api.FwpmTransactionBegin0 w.eng e.m_engine).1 = api.ERROR_SUCCESS) ∧
      ((api.FwpmTransactionBegin0 w.eng e.m_engine).1 = api.ERROR_SUCCESS →
        (FwpmEngine.beginTransaction api e w).1
          = Except.ok { m_engine := e.m_engine, m_state := State.Active }) ∧
      ((api.FwpmTransactionBegin0 w.eng e.m_engine).1 ≠ api.ERROR_SUCCESS →
        (FwpmEngine.beginTransaction api e w).1
          = Except.error (runtimeError "FwpmTransactionBegin0"
              (api.FwpmTransactionBegin0 w.eng e.m_engine).1))) := by
  constructor
  · intro h0
    simp [FwpmEngine.beginTransaction, FwpmTransaction.begin, h0]
  · intro h0
    by_cases hs : (api.FwpmTransactionBegin0 w.eng e.m_engine).1 = api.ERROR_SUCCESS
    · simp [FwpmEngine.beginTransaction, FwpmTransaction.begin, h0, hs]
    · simp [FwpmEngine.beginTransaction, FwpmTransaction.begin, h0, hs, runtimeError]

/-- C18, the amended statement at a moved-from session and at a session on
handle 1, on the engine that accepts everything. -/
theorem C18_beginTransaction_checks_null_only_witness :
    FwpmEngine.beginTransaction okApi { m_engine := 0 } world0
      = (Except.error (FwpmException.FwpmTransactionLogicException
          "FwpmTransaction: null engine handle"), world0) ∧
    (FwpmEngine.beginTransaction okApi { m_engine := 1 } world0).2.log
      = world0.log ++ [EngineCall.TransactionBegin0 1] ∧
    (FwpmEngine.beginTransaction okApi { m_engine := 1 } world0).1
      = Except.ok { m_engine := 1, m_state := State.Active } :=
  ⟨(C18_beginTransaction_checks_null_only okApi { m_engine := 0 } world0).1 rfl,
    ((C18_beginTransaction_checks_null_only okApi { m_engine := 1 } world0).2 (by decide)).1,
    ((C18_beginTransaction_checks_null_only okApi { m_engine := 1 } world0).2
      (by decide)).2.2.1 rfl⟩

/-! ## Lemmas on the negotiation of the net-event option -/

theorem setOptionCalls_append (a b : List SysCall) :
    setOptionCalls (a ++ b) = setOptionCalls a ++ setOptionCalls b := by
  induction a with
  | nil => rfl
  | cons c rest ih => cases c <;> simp [setOptionCalls, ih]

theorem getlineCalls_append (a b : List SysCall) :
    getlineCalls (a ++ b) = getlineCalls a ++ getlineCalls b := by
  induction a with
  | nil => rfl
  | cons c rest ih => cases c <;> simp [getlineCalls, ih]

theorem optionRead_append {σ : Type} (api : SessionApi σ) (a b : List SysCall) :
    optionRead api (a ++ b) = (optionRead api a).orElse (fun _ => optionRead api b) := by
  induction a with
  | nil => rfl
  | cons c rest ih =>
    cases c with
    | EngineGetOption0 h st v =>
      cases v with
      | none => simp [optionRead, ih]
      | some v =>
        by_cases hc : st = api.ERROR_SUCCESS ∧ v.type = api.FWP_UINT32
        · simp [optionRead, hc]
        · simp only [List.cons_append, optionRead, if_neg hc]
          exact ih
    | _ => simp [optionRead, ih]

theorem promptYesNoLoop_quiet {σ : Type} (api : SessionApi σ) (d : Char) (cin : List String) :
    setOptionCalls (promptYesNoLoop d cin).2.2 = [] ∧
    optionRead api (promptYesNoLoop d cin).2.2 = none ∧
    (∀ x, SysCall.cerr x ∉ (promptYesNoLoop d cin).2.2) := by
  induction cin with
  | nil => simp [promptYesNoLoop, setOptionCalls, optionRead]
  | cons l rest ih =>
    simp only [promptYesNoLoop]
    split
    · simp [setOptionCalls, optionRead]
    · split
      · simp [setOptionCalls, optionRead]
      · simp [setOptionCalls, optionRead, ih]

theorem promptChoiceLoop_quiet {σ : Type} (api : SessionApi σ) (valid : String) (d : Char)
    (cin : List String) :
    setOptionCalls (promptChoiceLoop valid d cin).2.2 = [] ∧
    optionRead api (promptChoiceLoop valid d cin).2.2 = none ∧
    (∀ x, SysCall.cerr x ∉ (promptChoiceLoop valid d cin).2.2) := by
  induction cin with
  | nil => simp [promptChoiceLoop, setOptionCalls, optionRead]
  | cons l rest ih =>
    simp only [promptChoiceLoop]
    split
    · simp [setOptionCalls, optionRead]
    · split
      · simp [setOptionCalls, optionRead]
      · simp [setOptionCalls, optionRead, ih]

theorem newLog_of_append {σ : Type} (s s1 : Sys σ) (ext : List SysCall)
    (h : s1.log = s.log ++ ext) : newLog s s1 = ext := by
  simp [newLog, h]

theorem acquire_sys {σ : Type} (api : SessionApi σ) (d : Bool) (s : Sys σ) :
    (FwpmEngine.acquire api d s).2.log
        = s.log ++ [SysCall.EngineOpen0 d (api.FwpmEngineOpen0 s.eng d).1.1
            (api.FwpmEngineOpen0 s.eng d).1.2] ∧
    (FwpmEngine.acquire api d s).2.cin = s.cin := by
  unfold FwpmEngine.acquire
  by_cases h : (api.FwpmEngineOpen0 s.eng d).1.1 = api.ERROR_SUCCESS
  · simp [h, engineOpen]
  · simp [h, engineOpen]

theorem destroy_sys {σ : Type} (api : SessionApi σ) (e : FwpmEngine) (s : Sys σ) :
    (FwpmEngine.destroy api e s).2.cin = s.cin ∧
    ∃ ext, (FwpmEngine.destroy api e s).2.log = s.log ++ ext ∧
      setOptionCalls ext = [] ∧ getlineCalls ext = [] ∧ optionRead api ext = none ∧
      (∀ x, SysCall.cerr x ∉ ext) := by
  unfold FwpmEngine.destroy
  by_cases h : e.toBool api.INVALID_HANDLE_VALUE = true
  · simp only [h, if_true]
    exact ⟨rfl, [SysCall.EngineClose0 e.m_engine], rfl, rfl, rfl, rfl, by simp⟩
  · simp only [h]
    exact ⟨rfl, [], by simp, rfl, rfl, rfl, by simp⟩

theorem continueWithoutOption_paths {σ : Type} (api : SessionApi σ) (config : RunConfig)
    (st0 : NetEventState) (s : Sys σ) :
    ∃ ext, (continueWithoutOption config st0 s).2.2.log = s.log ++ ext ∧
      setOptionCalls ext = [] ∧ optionRead api ext = none ∧ (∀ x, SysCall.cerr x ∉ ext) ∧
      ((config.interactive = false ∧ (continueWithoutOption config st0 s).1 = false ∧
          (continueWithoutOption config st0 s).2.1 = st0 ∧ ext = [] ∧
          (continueWithoutOption config st0 s).2.2.cin = s.cin) ∨
        (config.interactive = true ∧
          (((continueWithoutOption config st0 s).1 = false ∧
              (continueWithoutOption config st0 s).2.1 = st0) ∨
            ((continueWithoutOption config st0 s).1 = true ∧
              (continueWithoutOption config st0 s).2.1.weChangedOption = false)))) := by
  obtain ⟨q1, q2, q3⟩ := promptYesNoLoop_quiet api 'y' s.cin
  unfold continueWithoutOption
  by_cases hi : config.interactive = true
  · by_cases hy : (promptYesNoLoop 'y' s.cin).1 = true
    · refine ⟨(promptYesNoLoop 'y' s.cin).2.2, ?_, q1, q2, q3, Or.inr ⟨hi, Or.inr ?_⟩⟩
      · simp [hi, hy, promptYesNo]
      · simp [hi, hy, promptYesNo]
    · refine ⟨(promptYesNoLoop 'y' s.cin).2.2, ?_, q1, q2, q3, Or.inr ⟨hi, Or.inl ?_⟩⟩
      · simp [hi, hy, promptYesNo]
      · simp [hi, hy, promptYesNo]
  · have hi2 : config.interactive = false := by simpa using hi
    refine ⟨[], ?_, rfl, rfl, by simp, Or.inl ⟨hi2, ?_⟩⟩
    · simp [hi2]
    · simp [hi2]

theorem enableOption_paths {σ : Type} (api : SessionApi σ) (config : RunConfig) (h : HANDLE)
    (st1 : NetEventState) (s : Sys σ) :
    ∃ ext, (enableOption api config h st1 s).2.2.log = s.log ++ ext ∧
      optionRead api ext = none ∧
      (enableOption api config h st1 s).2.1.originalValue = st1.originalValue ∧
      ((config.interactive = false ∧ (enableOption api config h st1 s).1 = false ∧
          (enableOption api config h st1 s).2.1 = st1 ∧
          ext = [SysCall.cerr Diag.disabledNoPrompt] ∧
          (enableOption api config h st1 s).2.2.cin = s.cin) ∨
        (config.interactive = true ∧
          ((((promptChoiceLoop "ecq" 'e' s.cin).1 = 'q' ∨
                (promptChoiceLoop "ecq" 'e' s.cin).1 = 'Q') ∧
              (enableOption api config h st1 s).1 = false ∧
              (enableOption api config h st1 s).2.1 = st1 ∧ setOptionCalls ext = []) ∨
            (¬ ((promptChoiceLoop "ecq" 'e' s.cin).1 = 'q' ∨
                (promptChoiceLoop "ecq" 'e' s.cin).1 = 'Q') ∧
              ((promptChoiceLoop "ecq" 'e' s.cin).1 = 'c' ∨
                (promptChoiceLoop "ecq" 'e' s.cin).1 = 'C') ∧
              (enableOption api config h st1 s).1 = true ∧
              (enableOption api config h st1 s).2.1.weChangedOption = false ∧
              setOptionCalls ext = []) ∨
            (¬ ((promptChoiceLoop "ecq" 'e' s.cin).1 = 'q' ∨
                (promptChoiceLoop "ecq" 'e' s.cin).1 = 'Q') ∧
              ¬ ((promptChoiceLoop "ecq" 'e' s.cin).1 = 'c' ∨
                (promptChoiceLoop "ecq" 'e' s.cin).1 = 'C') ∧
              ∃ status, setOptionCalls ext
                  = [({ type := api.FWP_UINT32, uint32 := 1 }, status)] ∧
                ((status ≠ api.ERROR_SUCCESS ∧ (enableOption api config h st1 s).1 = false ∧
                    (enableOption api config h st1 s).2.1 = st1) ∨
                  (status = api.ERROR_SUCCESS ∧ (enableOption api config h st1 s).1 = true ∧
                    (enableOption api config h st1 s).2.1.weChangedOption
                      = (st1.originalValue == 0))))))) := by
  obtain ⟨q1, q2, q3⟩ := promptChoiceLoop_quiet api "ecq" 'e' s.cin
  unfold enableOption
  by_cases hi : config.interactive = true
  · by_cases hq : (promptChoiceLoop "ecq" 'e' s.cin).1 = 'q' ∨
        (promptChoiceLoop "ecq" 'e' s.cin).1 = 'Q'
    · refine ⟨(promptChoiceLoop "ecq" 'e' s.cin).2.2, ?_, q2, ?_, Or.inr ⟨hi, Or.inl ⟨hq, ?_⟩⟩⟩
      · simp [hi, promptChoice, hq]
      · simp [hi, promptChoice, hq]
      · simp [hi, promptChoice, hq, q1]
    · by_cases hc : (promptChoiceLoop "ecq" 'e' s.cin).1 = 'c' ∨
          (promptChoiceLoop "ecq" 'e' s.cin).1 = 'C'
      · refine ⟨(promptChoiceLoop "ecq" 'e' s.cin).2.2, ?_, q2, ?_,
          Or.inr ⟨hi, Or.inr (Or.inl ⟨hq, hc, ?_⟩)⟩⟩
        · simp [hi, promptChoice, hq, hc]
        · simp [hi, promptChoice, hq, hc]
        · simp [hi, promptChoice, hq, hc, q1]
      · by_cases hs : (api.FwpmEngineSetOption0 s.eng h
            { type := api.FWP_UINT32, uint32 := 1 }).1 = api.ERROR_SUCCESS
        · refine ⟨(promptChoiceLoop "ecq" 'e' s.cin).2.2 ++
              [SysCall.EngineSetOption0 h { type := api.FWP_UINT32, uint32 := 1 }
                api.ERROR_SUCCESS], ?_, ?_, ?_,
            Or.inr ⟨hi, Or.inr (Or.inr ⟨hq, hc, api.ERROR_SUCCESS, ?_, Or.inr ⟨rfl, ?_⟩⟩)⟩⟩
          · simp [hi, promptChoice, hq, hc, engineSetOption, hs]
          · simp [optionRead_append, q2, optionRead]
          · simp [hi, promptChoice, hq, hc, engineSetOption, hs]
          · simp [setOptionCalls_append, q1, setOptionCalls]
          · simp [hi, promptChoice, hq, hc, engineSetOption, hs]
        · refine ⟨(promptChoiceLoop "ecq" 'e' s.cin).2.2 ++
              [SysCall.EngineSetOption0 h { type := api.FWP_UINT32, uint32 := 1 }
                (api.FwpmEngineSetOption0 s.eng h { type := api.FWP_UINT32, uint32 := 1 }).1,
               SysCall.cerr (Diag.setFailed
                (api.FwpmEngineSetOption0 s.eng h { type := api.FWP_UINT32, uint32 := 1 }).1)],
            ?_, ?_, ?_,
            Or.inr ⟨hi, Or.inr (Or.inr ⟨hq, hc, _, ?_, Or.inl ⟨hs, ?_⟩⟩)⟩⟩
          · simp [hi, promptChoice, hq, hc, engineSetOption, hs, Sys.note]
          · simp [optionRead_append, q2, optionRead]
          · simp [hi, promptChoice, hq, hc, engineSetOption, hs]
          · simp [setOptionCalls_append, q1, setOptionCalls]
          · simp [hi, promptChoice, hq, hc, engineSetOption, hs]
  · have hi2 : config.interactive = false := by simpa using hi
    refine ⟨[SysCall.cerr Diag.disabledNoPrompt], ?_, rfl, ?_, Or.inl ⟨hi2, ?_⟩⟩
    · simp [hi2, Sys.note]
    · simp [hi2]
    · simp [hi2, Sys.note]

/-- Every run of `probeAndNegotiateNetEvents`, by what the log shows of the
read of the option: not read, read as enabled, or read as disabled. -/
theorem negotiate_paths {σ : Type} (api : SessionApi σ) (config : RunConfig)
    (st0 : NetEventState) (s : Sys σ) (r : Bool × NetEventState × Sys σ)
    (hr : r = probeAndNegotiateNetEvents api config st0 s) :
    ∃ ext, r.2.2.log = s.log ++ ext ∧
      ((optionRead api ext = none ∧ setOptionCalls ext = [] ∧
          (SysCall.cerr Diag.openFailed ∈ ext ∨ ∃ c, SysCall.cerr (Diag.readFailed c) ∈ ext) ∧
          ((config.interactive = false ∧ r.1 = false ∧ r.2.1 = st0 ∧ getlineCalls ext = [] ∧
              r.2.2.cin = s.cin) ∨
            (config.interactive = true ∧
              ((r.1 = false ∧ r.2.1 = st0) ∨ (r.1 = true ∧ r.2.1.weChangedOption = false))))) ∨
        (∃ v, v ≠ 0 ∧ optionRead api ext = some v ∧ setOptionCalls ext = [] ∧
          getlineCalls ext = [] ∧ r.2.2.cin = s.cin ∧ r.1 = true ∧
          r.2.1.weChangedOption = false ∧ r.2.1.originalValue = v) ∨
        (optionRead api ext = some 0 ∧ r.2.1.originalValue = 0 ∧
          ((config.interactive = false ∧ r.1 = false ∧
              r.2.1.weChangedOption = st0.weChangedOption ∧ setOptionCalls ext = [] ∧
              getlineCalls ext = [] ∧ r.2.2.cin = s.cin ∧
              SysCall.cerr Diag.disabledNoPrompt ∈ ext) ∨
            (config.interactive = true ∧
              ((((promptChoiceLoop "ecq" 'e' s.cin).1 = 'q' ∨
                    (promptChoiceLoop "ecq" 'e' s.cin).1 = 'Q') ∧
                  r.1 = false ∧ r.2.1.weChangedOption = st0.weChangedOption ∧
                  setOptionCalls ext = []) ∨
                (¬ ((promptChoiceLoop "ecq" 'e' s.cin).1 = 'q' ∨
                    (promptChoiceLoop "ecq" 'e' s.cin).1 = 'Q') ∧
                  ((promptChoiceLoop "ecq" 'e' s.cin).1 = 'c' ∨
                    (promptChoiceLoop "ecq" 'e' s.cin).1 = 'C') ∧
                  r.1 = true ∧ r.2.1.weChangedOption = false ∧ setOptionCalls ext = []) ∨
                (¬ ((promptChoiceLoop "ecq" 'e' s.cin).1 = 'q' ∨
                    (promptChoiceLoop "ecq" 'e' s.cin).1 = 'Q') ∧
                  ¬ ((promptChoiceLoop "ecq" 'e' s.cin).1 = 'c' ∨
                    (promptChoiceLoop "ecq" 'e' s.cin).1 = 'C') ∧
                  ∃ status, setOptionCalls ext
                      = [({ type := api.FWP_UINT32, uint32 := 1 }, status)] ∧
                    ((status ≠ api.ERROR_SUCCESS ∧ r.1 = false ∧
                        r.2.1.weChangedOption = st0.weChangedOption) ∨
                      (status = api.ERROR_SUCCESS ∧ r.1 = true ∧
                        r.2.1.weChangedOption = true)))))))) := by
  subst hr
  obtain ⟨hlog1, hcin1⟩ := acquire_sys api false s
  unfold probeAndNegotiateNetEvents
  cases hacq : FwpmEngine.acquire api false s with
  | mk res s1 =>
    rw [hacq] at hlog1 hcin1
    simp only at hlog1 hcin1
    cases res with
    | error e =>
      simp only []
      obtain ⟨ext, hl, hS, hR, hC, hcases⟩ := continueWithoutOption_paths api config st0
        (s1.note (SysCall.cerr Diag.openFailed))
      refine ⟨[SysCall.EngineOpen0 false (api.FwpmEngineOpen0 s.eng false).1.1
          (api.FwpmEngineOpen0 s.eng false).1.2, SysCall.cerr Diag.openFailed] ++ ext, ?_,
        Or.inl ⟨?_, ?_, Or.inl (by simp), ?_⟩⟩
      · rw [hl]
        simp [Sys.note, hlog1]
      · simp [optionRead_append, optionRead, hR]
      · simp [setOptionCalls_append, setOptionCalls, hS]
      · rcases hcases with ⟨h1, h2, h3, h4, h5⟩ | ⟨h1, h2⟩
        · exact Or.inl ⟨h1, h2, h3, by simp [h4, getlineCalls], by rw [h5]; exact hcin1⟩
        · exact Or.inr ⟨h1, h2⟩
    | ok e =>
      simp only []
      obtain ⟨hcin2, ext2, hl2, hS2, hG2, hR2, hC2⟩ := destroy_sys api e s1
      generalize (FwpmEngine.destroy api e s1).2 = s2 at hcin2 hl2 ⊢
      have hgl : (engineGetOption api e.m_engine s2).2.log
          = s.log ++ ([SysCall.EngineOpen0 false (api.FwpmEngineOpen0 s.eng false).1.1
              (api.FwpmEngineOpen0 s.eng false).1.2] ++ ext2 ++
            [SysCall.EngineGetOption0 e.m_engine (engineGetOption api e.m_engine s2).1.1
              (engineGetOption api e.m_engine s2).1.2]) := by
        simp [engineGetOption, hl2, hlog1]
      have hgc : (engineGetOption api e.m_engine s2).2.cin = s.cin := by
        simp [engineGetOption, hcin2, hcin1]
      generalize engineGetOption api e.m_engine s2 = g at hgl hgc ⊢
      obtain ⟨⟨gst, gopt⟩, s3⟩ := g
      simp only at hgl hgc ⊢
      cases gopt with
      | none =>
        simp only []
        obtain ⟨ext, hl, hS, hR, hC, hcases⟩ := continueWithoutOption_paths api config st0
          (s3.note (SysCall.cerr (Diag.readFailed gst)))
        refine ⟨[SysCall.EngineOpen0 false (api.FwpmEngineOpen0 s.eng false).1.1
            (api.FwpmEngineOpen0 s.eng false).1.2] ++ ext2 ++
            [SysCall.EngineGetOption0 e.m_engine gst none,
              SysCall.cerr (Diag.readFailed gst)] ++ ext, ?_,
          Or.inl ⟨?_, ?_, Or.inr ⟨gst, by simp⟩, ?_⟩⟩
        · rw [hl]
          simp [Sys.note, hgl]
        · simp [optionRead_append, optionRead, hR, hR2]
        · simp [setOptionCalls_append, setOptionCalls, hS, hS2]
        · rcases hcases with ⟨h1, h2, h3, h4, h5⟩ | ⟨h1, h2⟩
          · exact Or.inl ⟨h1, h2, h3, by simp [h4, getlineCalls, getlineCalls_append, hG2],
              by rw [h5]; exact hgc⟩
          · exact Or.inr ⟨h1, h2⟩
      | some opt =>
        simp only []
        by_cases hbad : gst ≠ api.ERROR_SUCCESS ∨ opt.type ≠ api.FWP_UINT32
        · rw [if_pos hbad]
          have hbad2 : ¬ (gst = api.ERROR_SUCCESS ∧ opt.type = api.FWP_UINT32) := by
            rintro ⟨h1, h2⟩
            rcases hbad with h | h
            · exact h h1
            · exact h h2
          obtain ⟨ext, hl, hS, hR, hC, hcases⟩ := continueWithoutOption_paths api config st0
            ((s3.note (SysCall.cerr (Diag.readFailed gst))).note SysCall.FreeMemory0)
          refine ⟨[SysCall.EngineOpen0 false (api.FwpmEngineOpen0 s.eng false).1.1
              (api.FwpmEngineOpen0 s.eng false).1.2] ++ ext2 ++
              [SysCall.EngineGetOption0 e.m_engine gst (some opt),
                SysCall.cerr (Diag.readFailed gst), SysCall.FreeMemory0] ++ ext, ?_,
            Or.inl ⟨?_, ?_, Or.inr ⟨gst, by simp⟩, ?_⟩⟩
          · rw [hl]
            simp [Sys.note, hgl]
          · simp [optionRead_append, optionRead, hR, hR2, hbad2]
          · simp [setOptionCalls_append, setOptionCalls, hS, hS2]
          · rcases hcases with ⟨h1, h2, h3, h4, h5⟩ | ⟨h1, h2⟩
            · exact Or.inl ⟨h1, h2, h3, by simp [h4, getlineCalls, getlineCalls_append, hG2],
                by rw [h5]; exact hgc⟩
            · exact Or.inr ⟨h1, h2⟩
        · rw [if_neg hbad]
          have hgood : gst = api.ERROR_SUCCESS ∧ opt.type = api.FWP_UINT32 := by
            constructor
            · by_contra h
              exact hbad (Or.inl h)
            · by_contra h
              exact hbad (Or.inr h)
          by_cases hv : opt.uint32 = 0
          · have hne : (opt.uint32 != 0) = false := by simp [hv]
            simp only [hne]
            obtain ⟨ext, hl, hR, ho, hcases⟩ := enableOption_paths api config e.m_engine
              { st0 with engineCollectsNetEvents := false, originalValue := opt.uint32 }
              (s3.note SysCall.FreeMemory0)
            have hcin3 : (s3.note SysCall.FreeMemory0).cin = s.cin := hgc
            rw [hcin3] at hcases
            refine ⟨[SysCall.EngineOpen0 false (api.FwpmEngineOpen0 s.eng false).1.1
                (api.FwpmEngineOpen0 s.eng false).1.2] ++ ext2 ++
                [SysCall.EngineGetOption0 e.m_engine gst (some opt),
                  SysCall.FreeMemory0] ++ ext, ?_, Or.inr (Or.inr ⟨?_, ?_, ?_⟩)⟩
            · simp only [Bool.false_eq_true, if_false]
              rw [hl]
              simp [Sys.note, hgl]
            · simp [optionRead_append, optionRead, hR2, hgood, hv]
            · simp only [Bool.false_eq_true, if_false]
              rw [ho, hv]
            · simp only [Bool.false_eq_true, if_false]
              rcases hcases with ⟨h1, h2, h3, h4, h5⟩ | ⟨h1, h2⟩
              · refine Or.inl ⟨h1, h2, by rw [h3], ?_, ?_, h5, ?_⟩
                · simp [setOptionCalls_append, setOptionCalls, hS2, h4]
                · simp [getlineCalls_append, getlineCalls, hG2, h4]
                · simp [h4]
              · refine Or.inr ⟨h1, ?_⟩
                rcases h2 with ⟨hq, h3, h4, h5⟩ | ⟨hq, hc, h3, h4, h5⟩ |
                  ⟨hq, hc, status, h3, h4⟩
                · refine Or.inl ⟨hq, h3, by rw [h4], ?_⟩
                  simp [setOptionCalls_append, setOptionCalls, hS2, h5]
                · refine Or.inr (Or.inl ⟨hq, hc, h3, h4, ?_⟩)
                  simp [setOptionCalls_append, setOptionCalls, hS2, h5]
                · refine Or.inr (Or.inr ⟨hq, hc, status, ?_, ?_⟩)
                  · simp [setOptionCalls_append, setOptionCalls, hS2, h3]
                  · rcases h4 with ⟨h6, h7, h8⟩ | ⟨h6, h7, h8⟩
                    · exact Or.inl ⟨h6, h7, by rw [h8]⟩
                    · exact Or.inr ⟨h6, h7, by rw [h8]; simp [hv]⟩
          · have hne : (opt.uint32 != 0) = true := by simp [hv]
            simp only [hne, if_true]
            refine ⟨[SysCall.EngineOpen0 false (api.FwpmEngineOpen0 s.eng false).1.1
                (api.FwpmEngineOpen0 s.eng false).1.2] ++ ext2 ++
                [SysCall.EngineGetOption0 e.m_engine gst (some opt),
                  SysCall.FreeMemory0], ?_,
              Or.inr (Or.inl ⟨opt.uint32, hv, ?_, ?_, ?_, hgc, trivial, trivial, rfl⟩)⟩
            · simp [Sys.note, hgl]
            · simp [optionRead_append, optionRead, hR2, hgood]
            · simp [setOptionCalls_append, setOptionCalls, hS2]
            · simp [getlineCalls_append, getlineCalls, hG2]

theorem guard_destroy_unchanged {σ : Type} (api : SessionApi σ) (st : NetEventState)
    (s2 : Sys σ) (h : st.weChangedOption = false) :
    NetEventCollectionGuard.destroy api (some st) s2 = s2 := by
  simp [NetEventCollectionGuard.destroy, h]

theorem guard_destroy_restores {σ : Type} (api : SessionApi σ) (st : NetEventState)
    (s2 : Sys σ) (h : st.weChangedOption = true)
    (ho : (api.FwpmEngineOpen0 s2.eng false).1.1 = api.ERROR_SUCCESS) :
    ∃ status, setOptionCalls (newLog s2 (NetEventCollectionGuard.destroy api (some st) s2))
      = [({ type := api.FWP_UINT32, uint32 := st.originalValue }, status)] := by
  refine ⟨(api.FwpmEngineSetOption0 (api.FwpmEngineOpen0 s2.eng false).2
    (api.FwpmEngineOpen0 s2.eng false).1.2
    { type := api.FWP_UINT32, uint32 := st.originalValue }).1, ?_⟩
  by_cases hs : (api.FwpmEngineSetOption0 (api.FwpmEngineOpen0 s2.eng false).2
      (api.FwpmEngineOpen0 s2.eng false).1.2
      { type := api.FWP_UINT32, uint32 := st.originalValue }).1 = api.ERROR_SUCCESS
  · simp [NetEventCollectionGuard.destroy, restoreNetEventsIfNeeded, h, engineOpen, ho,
      engineSetOption, hs, engineClose, newLog, setOptionCalls]
  · simp [NetEventCollectionGuard.destroy, restoreNetEventsIfNeeded, h, engineOpen, ho,
      engineSetOption, hs, engineClose, newLog, setOptionCalls, Sys.note]

/-! ## The net-event option: negotiation and teardown -/

/-- C13: if negotiation succeeded with `weChangedOption` true, whatever the
operator typed and the engine answered, then the value kept in `originalValue`
is the value with which the option was read during the negotiation, and the
teardown of the guard, run in any later system in which the engine can be
re-opened, issues exactly one set-option call, whose value is `originalValue`
with the `FWP_UINT32` tag. -/
theorem C13_teardown_restores_value_read {σ : Type} (api : SessionApi σ) (config : RunConfig)
    (st0 : NetEventState) (s : Sys σ)
    (hok : (probeAndNegotiateNetEvents api config st0 s).1 = true)
    (hw : (probeAndNegotiateNetEvents api config st0 s).2.1.weChangedOption = true) :
    optionRead api (newLog s (probeAndNegotiateNetEvents api config st0 s).2.2)
      = some (probeAndNegotiateNetEvents api config st0 s).2.1.originalValue ∧
    ∀ s2 : Sys σ, (api.FwpmEngineOpen0 s2.eng false).1.1 = api.ERROR_SUCCESS →
      ∃ status,
        setOptionCalls (newLog s2 (NetEventCollectionGuard.destroy api
          (some (probeAndNegotiateNetEvents api config st0 s).2.1) s2))
        = [({ type := api.FWP_UINT32,
              uint32 := (probeAndNegotiateNetEvents api config st0 s).2.1.originalValue },
            status)] := by
  refine ⟨?_, fun s2 ho => guard_destroy_restores api _ s2 hw ho⟩
  obtain ⟨ext, hlog, hp⟩ := negotiate_paths api config st0 s _ rfl
  rw [newLog_of_append s _ ext hlog]
  rcases hp with ⟨_, _, _, h⟩ | ⟨v, _, _, _, _, _, _, h, _⟩ | ⟨hR, hov, h⟩
  · exfalso
    rcases h with ⟨_, h2, _⟩ | ⟨_, ⟨h2, _⟩ | ⟨_, h3⟩⟩
    · rw [h2] at hok
      cases hok
    · rw [h2] at hok
      cases hok
    · rw [h3] at hw
      cases hw
  · rw [h] at hw
    cases hw
  · rw [hR, hov]

/-- C13 at a sample: the operator answers `e` on an engine that reads the option
as 0 and accepts the set-option call. -/
theorem C13_teardown_restores_value_read_witness :
    (probeAndNegotiateNetEvents handleApi {} {} sysE).1 = true ∧
    (probeAndNegotiateNetEvents handleApi {} {} sysE).2.1.weChangedOption = true ∧
    optionRead handleApi (newLog sysE (probeAndNegotiateNetEvents handleApi {} {} sysE).2.2)
      = some (probeAndNegotiateNetEvents handleApi {} {} sysE).2.1.originalValue ∧
    ∃ status,
      setOptionCalls (newLog sys0 (NetEventCollectionGuard.destroy handleApi
        (some (probeAndNegotiateNetEvents handleApi {} {} sysE).2.1) sys0))
      = [({ type := handleApi.FWP_UINT32,
            uint32 := (probeAndNegotiateNetEvents handleApi {} {} sysE).2.1.originalValue },
          status)] :=
  ⟨by decide, by decide,
    (C13_teardown_restores_value_read handleApi {} {} sysE (by decide) (by decide)).1,
    (C13_teardown_restores_value_read handleApi {} {} sysE (by decide) (by decide)).2 sys0
      (by decide)⟩

/-- C14: if during negotiation the option is read successfully with a non-zero
value, then negotiation succeeds with `weChangedOption` false, issues no
set-option call and reads nothing from the operator, and the teardown of the
guard then leaves every system as it is, so it makes no engine call. -/
theorem C14_enabled_option_is_left_alone {σ : Type} (api : SessionApi σ) (config : RunConfig)
    (st0 : NetEventState) (s : Sys σ) (v : Nat)
    (hread : optionRead api (newLog s (probeAndNegotiateNetEvents api config st0 s).2.2)
      = some v)
    (hv : v ≠ 0) :
    (probeAndNegotiateNetEvents api config st0 s).1 = true ∧
    (probeAndNegotiateNetEvents api config st0 s).2.1.weChangedOption = false ∧
    setOptionCalls (newLog s (probeAndNegotiateNetEvents api config st0 s).2.2) = [] ∧
    getlineCalls (newLog s (probeAndNegotiateNetEvents api config st0 s).2.2) = [] ∧
    (probeAndNegotiateNetEvents api config st0 s).2.2.cin = s.cin ∧
    ∀ s2 : Sys σ, NetEventCollectionGuard.destroy api
      (some (probeAndNegotiateNetEvents api config st0 s).2.1) s2 = s2 := by
  obtain ⟨ext, hlog, hp⟩ := negotiate_paths api config st0 s _ rfl
  rw [newLog_of_append s _ ext hlog] at hread ⊢
  rcases hp with ⟨hR, _⟩ | ⟨v2, _, _, hS, hG, hc, hok, hw, _⟩ | ⟨hR, _⟩
  · rw [hR] at hread
    cases hread
  · exact ⟨hok, hw, hS, hG, hc, fun s2 => guard_destroy_unchanged api _ s2 hw⟩
  · rw [hR] at hread
    simp only [Option.some.injEq] at hread
    exact absurd hread.symm hv

/-- C14 at a sample: an engine on which the option is read as 1. -/
theorem C14_enabled_option_is_left_alone_witness :
    optionRead enabledApi (newLog sysE (probeAndNegotiateNetEvents enabledApi {} {} sysE).2.2)
      = some 1 ∧
    (probeAndNegotiateNetEvents enabledApi {} {} sysE).1 = true ∧
    (probeAndNegotiateNetEvents enabledApi {} {} sysE).2.1.weChangedOption = false ∧
    setOptionCalls (newLog sysE (probeAndNegotiateNetEvents enabledApi {} {} sysE).2.2) = [] ∧
    (probeAndNegotiateNetEvents enabledApi {} {} sysE).2.2.cin = sysE.cin :=
  ⟨by decide,
    (C14_enabled_option_is_left_alone enabledApi {} {} sysE 1 (by decide) (by decide)).1,
    (C14_enabled_option_is_left_alone enabledApi {} {} sysE 1 (by decide) (by decide)).2.1,
    (C14_enabled_option_is_left_alone enabledApi {} {} sysE 1 (by decide) (by decide)).2.2.1,
    (C14_enabled_option_is_left_alone enabledApi {} {} sysE 1 (by decide)
      (by decide)).2.2.2.2.1⟩

/-- C15: in unattended mode, for every engine behaviour, negotiation succeeds
if and only if the option was read successfully with a non-zero value; when
the option was not read it fails with the diagnostic of the failed open or
read, when it was read as 0 it fails with the diagnostic of the disabled
option, and in no case does it issue a set-option call or read a line from the
operator. -/
theorem C15_unattended_negotiation {σ : Type} (api : SessionApi σ) (config : RunConfig)
    (st0 : NetEventState) (s : Sys σ) (hni : config.interactive = false) :
    ((probeAndNegotiateNetEvents api config st0 s).1 = true ↔
      ∃ v, v ≠ 0 ∧
        optionRead api (newLog s (probeAndNegotiateNetEvents api config st0 s).2.2) = some v) ∧
    (optionRead api (newLog s (probeAndNegotiateNetEvents api config st0 s).2.2) = none →
      (probeAndNegotiateNetEvents api config st0 s).1 = false ∧
      (SysCall.cerr Diag.openFailed
          ∈ newLog s (probeAndNegotiateNetEvents api config st0 s).2.2 ∨
        ∃ c, SysCall.cerr (Diag.readFailed c)
          ∈ newLog s (probeAndNegotiateNetEvents api config st0 s).2.2)) ∧
    (optionRead api (newLog s (probeAndNegotiateNetEvents api config st0 s).2.2) = some 0 →
      (probeAndNegotiateNetEvents api config st0 s).1 = false ∧
      SysCall.cerr Diag.disabledNoPrompt
        ∈ newLog s (probeAndNegotiateNetEvents api config st0 s).2.2) ∧
    setOptionCalls (newLog s (probeAndNegotiateNetEvents api config st0 s).2.2) = [] ∧
    getlineCalls (newLog s (probeAndNegotiateNetEvents api config st0 s).2.2) = [] ∧
    (probeAndNegotiateNetEvents api config st0 s).2.2.cin = s.cin := by
  have hnt : ¬ config.interactive = true := by
    rw [hni]
    decide
  obtain ⟨ext, hlog, hp⟩ := negotiate_paths api config st0 s _ rfl
  rw [newLog_of_append s _ ext hlog]
  rcases hp with ⟨hR, hS, hd, h⟩ | ⟨v, hv, hR, hS, hG, hc, hok, _, _⟩ | ⟨hR, _, h⟩
  · rcases h with ⟨_, hf, _, hG, hc⟩ | ⟨hi, _⟩
    · refine ⟨?_, fun _ => ⟨hf, hd⟩, ?_, hS, hG, hc⟩
      · rw [hf, hR]
        simp
      · intro h0
        rw [hR] at h0
        cases h0
    · exact absurd hi hnt
  · refine ⟨?_, ?_, ?_, hS, hG, hc⟩
    · rw [hok, hR]
      simp [hv]
    · intro h0
      rw [hR] at h0
      cases h0
    · intro h0
      rw [hR] at h0
      simp only [Option.some.injEq] at h0
      exact absurd h0 hv
  · rcases h with ⟨_, hf, _, hS, hG, hc, hd⟩ | ⟨hi, _⟩
    · refine ⟨?_, ?_, fun _ => ⟨hf, hd⟩, hS, hG, hc⟩
      · rw [hf, hR]
        simp
      · intro h0
        rw [hR] at h0
        cases h0
    · exact absurd hi hnt

/-- C15 at a sample: unattended, on an engine that reads the option as 0, with
an answer waiting on `std::cin` that is never read. -/
theorem C15_unattended_negotiation_witness :
    ({ interactive := false } : RunConfig).interactive = false ∧
    optionRead handleApi (newLog sysE
      (probeAndNegotiateNetEvents handleApi { interactive := false } {} sysE).2.2) = some 0 ∧
    (probeAndNegotiateNetEvents handleApi { interactive := false } {} sysE).1 = false ∧
    SysCall.cerr Diag.disabledNoPrompt ∈ newLog sysE
      (probeAndNegotiateNetEvents handleApi { interactive := false } {} sysE).2.2 ∧
    setOptionCalls (newLog sysE
      (probeAndNegotiateNetEvents handleApi { interactive := false } {} sysE).2.2) = [] ∧
    (probeAndNegotiateNetEvents handleApi { interactive := false } {} sysE).2.2.cin
      = sysE.cin :=
  ⟨rfl, by decide,
    ((C15_unattended_negotiation handleApi { interactive := false } {} sysE rfl).2.2.1
      (by decide)).1,
    ((C15_unattended_negotiation handleApi { interactive := false } {} sysE rfl).2.2.1
      (by decide)).2,
    (C15_unattended_negotiation handleApi { interactive := false } {} sysE rfl).2.2.2.1,
    (C15_unattended_negotiation handleApi { interactive := false } {} sysE rfl).2.2.2.2.2⟩

/-- C16: for every engine behaviour and every operator input, starting from
`weChangedOption` false, after negotiation `weChangedOption` is true if and
only if negotiation issued a set-option call that succeeded.  Without a
set-option call it is false; a set-option call that fails makes negotiation
fail and leaves it false; a negotiation that succeeds without the option having
been read (the operator acknowledged the failure) leaves it false without a
set-option call; and after the option was read as 0, the answers `c` and `q`
lead to no set-option call and leave it false, negotiation succeeding on `c`
and failing on `q`. -/
theorem C16_weChanged_iff_set_option_succeeded {σ : Type} (api : SessionApi σ)
    (config : RunConfig) (st0 : NetEventState) (s : Sys σ)
    (h0 : st0.weChangedOption = false) :
    ((probeAndNegotiateNetEvents api config st0 s).2.1.weChangedOption = true ↔
      ∃ v, (v, api.ERROR_SUCCESS) ∈
        setOptionCalls (newLog s (probeAndNegotiateNetEvents api config st0 s).2.2)) ∧
    (setOptionCalls (newLog s (probeAndNegotiateNetEvents api config st0 s).2.2) = [] →
      (probeAndNegotiateNetEvents api config st0 s).2.1.weChangedOption = false) ∧
    (∀ v status, (v, status) ∈
        setOptionCalls (newLog s (probeAndNegotiateNetEvents api config st0 s).2.2) →
      status ≠ api.ERROR_SUCCESS →
      (probeAndNegotiateNetEvents api config st0 s).1 = false ∧
      (probeAndNegotiateNetEvents api config st0 s).2.1.weChangedOption = false) ∧
    ((probeAndNegotiateNetEvents api config st0 s).1 = true →
      optionRead api (newLog s (probeAndNegotiateNetEvents api config st0 s).2.2) = none →
      (probeAndNegotiateNetEvents api config st0 s).2.1.weChangedOption = false ∧
      setOptionCalls (newLog s (probeAndNegotiateNetEvents api config st0 s).2.2) = []) ∧
    (config.interactive = true →
      optionRead api (newLog s (probeAndNegotiateNetEvents api config st0 s).2.2) = some 0 →
      ((promptChoiceLoop "ecq" 'e' s.cin).1 = 'c' →
        (probeAndNegotiateNetEvents api config st0 s).1 = true ∧
        (probeAndNegotiateNetEvents api config st0 s).2.1.weChangedOption = false ∧
        setOptionCalls (newLog s (probeAndNegotiateNetEvents api config st0 s).2.2) = []) ∧
      ((promptChoiceLoop "ecq" 'e' s.cin).1 = 'q' →
        (probeAndNegotiateNetEvents api config st0 s).1 = false ∧
        (probeAndNegotiateNetEvents api config st0 s).2.1.weChangedOption = false ∧
        setOptionCalls (newLog s (probeAndNegotiateNetEvents api config st0 s).2.2) = [])) := by
  have hcq : ('c' : Char) ≠ 'q' ∧ ('c' : Char) ≠ 'Q' := by decide
  obtain ⟨ext, hlog, hp⟩ := negotiate_paths api config st0 s _ rfl
  rw [newLog_of_append s _ ext hlog]
  rcases hp with ⟨hR, hS, _, h⟩ | ⟨v, hv, hR, hS, _, _, hok, hw, _⟩ | ⟨hR, _, h⟩
  · have hw : (probeAndNegotiateNetEvents api config st0 s).2.1.weChangedOption = false := by
      rcases h with ⟨_, _, h2, _⟩ | ⟨_, ⟨_, h2⟩ | ⟨_, h3⟩⟩
      · rw [h2, h0]
      · rw [h2, h0]
      · exact h3
    refine ⟨?_, fun _ => hw, ?_, fun _ _ => ⟨hw, hS⟩, ?_⟩
    · rw [hw, hS]
      simp
    · intro v status hm
      rw [hS] at hm
      cases hm
    · intro _ h1
      rw [hR] at h1
      cases h1
  · refine ⟨?_, fun _ => hw, ?_, fun _ _ => ⟨hw, hS⟩, ?_⟩
    · rw [hw, hS]
      simp
    · intro v2 status hm
      rw [hS] at hm
      cases hm
    · intro _ h1
      rw [hR] at h1
      simp only [Option.some.injEq] at h1
      exact absurd h1 hv
  · rcases h with ⟨hni, hf, hw, hS, _⟩ | ⟨hi, h⟩
    · rw [h0] at hw
      have hnt : ¬ config.interactive = true := by
        rw [hni]
        decide
      refine ⟨?_, fun _ => hw, ?_, ?_, fun h1 => absurd h1 hnt⟩
      · rw [hw, hS]
        simp
      · intro v status hm
        rw [hS] at hm
        cases hm
      · intro h1
        rw [hf] at h1
        cases h1
    · rcases h with ⟨hq, hf, hw, hS⟩ | ⟨hq, hc, hok, hw, hS⟩ | ⟨hq, hc, status, hS, h⟩
      · rw [h0] at hw
        refine ⟨?_, fun _ => hw, ?_, ?_, fun _ _ => ⟨?_, fun _ => ⟨hf, hw, hS⟩⟩⟩
        · rw [hw, hS]
          simp
        · intro v status hm
          rw [hS] at hm
          cases hm
        · intro h1
          rw [hf] at h1
          cases h1
        · intro h1
          rw [h1] at hq
          rcases hq with hq | hq
          · exact absurd hq hcq.1
          · exact absurd hq hcq.2
      · refine ⟨?_, fun _ => hw, ?_, ?_, fun _ _ => ⟨fun _ => ⟨hok, hw, hS⟩, ?_⟩⟩
        · rw [hw, hS]
          simp
        · intro v status hm
          rw [hS] at hm
          cases hm
        · intro _ h1
          rw [hR] at h1
          cases h1
        · intro h1
          exact absurd (Or.inl h1) hq
      · rcases h with ⟨hst, hf, hw⟩ | ⟨hst, hok, hw⟩
        · rw [h0] at hw
          refine ⟨?_, fun _ => hw, ?_, ?_, fun _ _ => ⟨?_, ?_⟩⟩
          · rw [hw, hS]
            simp only [List.mem_singleton, Prod.mk.injEq, Bool.false_eq_true, false_iff,
              not_exists, not_and]
            intro v _ h2
            exact hst h2.symm
          · intro _ _ _ _
            exact ⟨hf, hw⟩
          · intro h1
            rw [hf] at h1
            cases h1
          · intro h1
            exact absurd (Or.inl h1) hc
          · intro h1
            exact absurd (Or.inl h1) hq
        · refine ⟨?_, ?_, ?_, ?_, fun _ _ => ⟨?_, ?_⟩⟩
          · rw [hw, hS, hst]
            simp
          · intro h1
            rw [hS] at h1
            cases h1
          · intro v st2 hm hne
            rw [hS] at hm
            simp only [List.mem_singleton, Prod.mk.injEq] at hm
            exact absurd (hm.2.trans hst) hne
          · intro _ h1
            rw [hR] at h1
            cases h1
          · intro h1
            exact absurd (Or.inl h1) hc
          · intro h1
            exact absurd (Or.inl h1) hq

/-- C16 at samples: the operator answers `e` on an engine that accepts the
set-option call, `e` on one that rejects it, and `c`. -/
theorem C16_weChanged_iff_set_option_succeeded_witness :
    ({} : NetEventState).weChangedOption = false ∧
    ((probeAndNegotiateNetEvents handleApi {} {} sysE).2.1.weChangedOption = true ↔
      ∃ v, (v, handleApi.ERROR_SUCCESS) ∈
        setOptionCalls (newLog sysE (probeAndNegotiateNetEvents handleApi {} {} sysE).2.2)) ∧
    ((probeAndNegotiateNetEvents readOnlyApi {} {} sysE).1 = false ∧
      (probeAndNegotiateNetEvents readOnlyApi {} {} sysE).2.1.weChangedOption = false) ∧
    ((probeAndNegotiateNetEvents handleApi {} {} sysC).1 = true ∧
      (probeAndNegotiateNetEvents handleApi {} {} sysC).2.1.weChangedOption = false ∧
      setOptionCalls (newLog sysC (probeAndNegotiateNetEvents handleApi {} {} sysC).2.2)
        = []) :=
  ⟨rfl, (C16_weChanged_iff_set_option_succeeded handleApi {} {} sysE rfl).1,
    (C16_weChanged_iff_set_option_succeeded readOnlyApi {} {} sysE rfl).2.2.1
      { type := 3, uint32 := 1 } 5 (by decide) (by decide),
    ((C16_weChanged_iff_set_option_succeeded handleApi {} {} sysC rfl).2.2.2.2 rfl
      (by decide)).1 (by decide)⟩

/-! ## Lemmas on the net-event callback -/

/-- A call of `nextCodepoint` on an iterator that is not at the end leaves it
strictly shorter. -/
theorem nextCodepoint_consumes (b : Nat) (rest : List Nat) :
    (UTF16.nextCodepoint (b :: rest)).2.length < (b :: rest).length := by
  cases rest with
  | nil => simp [UTF16.nextCodepoint]
  | cons b1 rest1 =>
    by_cases h1 : UTF16.isHighSurrogate (UTF16.unit b b1) = true
    · cases rest1 with
      | nil => simp [UTF16.nextCodepoint, h1]
      | cons c0 rest2 =>
        cases rest2 with
        | nil => simp [UTF16.nextCodepoint, h1]
        | cons c1 rest3 =>
          by_cases h2 : UTF16.isLowSurrogate (UTF16.unit c0 c1) = true
          · simp only [UTF16.nextCodepoint, h1, h2, Bool.not_true, Bool.false_eq_true, if_false,
              List.length_cons]
            omega
          · simp only [UTF16.nextCodepoint, h1, h2, Bool.not_true, Bool.false_eq_true, if_false,
              Bool.not_false, if_true, List.length_cons]
            omega
    · by_cases h2 : UTF16.isLowSurrogate (UTF16.unit b b1) = true
      · simp only [UTF16.nextCodepoint, h1, h2, Bool.not_false, if_true, List.length_cons]
        omega
      · simp only [UTF16.nextCodepoint, h1, h2, Bool.not_false, if_true, Bool.false_eq_true,
          if_false, List.length_cons]
        omega

/-- The loop of `getAppPath` ends within one turn for each element of the
iterator. -/
theorem getAppPathLoop_isSome (fuel : Nat) :
    ∀ (it out : List Nat), it.length ≤ fuel → (getAppPathLoop fuel it out).isSome = true := by
  induction fuel with
  | zero =>
    intro it out h
    cases it with
    | nil => simp [getAppPathLoop]
    | cons b rest => simp at h
  | succ n ih =>
    intro it out h
    cases it with
    | nil => simp [getAppPathLoop]
    | cons b rest =>
      have hlt := nextCodepoint_consumes b rest
      have hle : (UTF16.nextCodepoint (b :: rest)).2.length ≤ n := by
        simp only [List.length_cons] at h hlt
        omega
      unfold getAppPathLoop
      simp only []
      split
      · split
        · exact ih _ _ hle
        · exact ih _ _ hle
      · exact ih _ _ (Nat.zero_le n)
      · exact ih _ _ hle
      · exact ih _ _ hle

theorem getAppPath_isSome (hdr : FwpmNetEventHeader) : hdr.getAppPath.isSome = true := by
  unfold FwpmNetEventHeader.getAppPath
  cases hdr.appId.data with
  | none => rfl
  | some data =>
    simp only []
    by_cases hz : hdr.appId.size = 0
    · simp [hz]
    · simp only [hz, if_false]
      have h := getAppPathLoop_isSome (istreamChars (data.take hdr.appId.size)).length
        (istreamChars (data.take hdr.appId.size)) [] (Nat.le_refl _)
      cases hl : getAppPathLoop (istreamChars (data.take hdr.appId.size)).length
          (istreamChars (data.take hdr.appId.size)) [] with
      | none => simp [hl] at h
      | some out =>
        simp only []
        by_cases ho : out = []
        · simp [ho]
        · simp [ho]

theorem eventKey_isSome (codes : EventCodes) (event : FWPM_NET_EVENT5) :
    (eventKey codes event).isSome = true := by
  have h := getAppPath_isSome event.header
  unfold eventKey
  cases hg : event.header.getAppPath with
  | none => simp [hg] at h
  | some p => rfl

/-- The key of an event carries the normalized decision and direction. -/
theorem eventKey_fields (codes : EventCodes) (event : FWPM_NET_EVENT5) (key : EventKey)
    (h : eventKey codes event = some key) :
    key.type = (classifyEvent codes event).2.2.2 ∧
    key.direction = (classifyEvent codes event).2.2.1 := by
  unfold eventKey at h
  cases hg : event.header.getAppPath with
  | none => simp [hg] at h
  | some p =>
    simp only [hg, Option.some.injEq] at h
    rw [← h]
    exact ⟨rfl, rfl⟩

theorem netEventCallback_records (codes : EventCodes) (agg : Aggregator)
    (event : FWPM_NET_EVENT5) :
    ∃ key, eventKey codes event = some key ∧
      netEventCallback codes (some agg) (some event) = some (some (recordEvent agg key)) := by
  have h := eventKey_isSome codes event
  cases hk : eventKey codes event with
  | none => simp [hk] at h
  | some key => exact ⟨key, rfl, by simp [netEventCallback, hk]⟩

/-- The sum of the counts after one `record`, when the counter of the key does
not wrap. -/
theorem sum_counts_recordMap (k : EventKey) (m : List (EventKey × EventStats))
    (h : (statsOf k m).count + 1 < U64) :
    ((recordMap k m).map (fun e => e.2.count)).sum = (m.map (fun e => e.2.count)).sum + 1 := by
  induction m with
  | nil => simp [recordMap]
  | cons e rest ih =>
    obtain ⟨ek, es⟩ := e
    by_cases hk : ek = k
    · subst hk
      have hc : es.count + 1 < U64 := by simpa [statsOf, findStats] using h
      simp only [recordMap, if_true, List.map_cons, List.sum_cons, Nat.mod_eq_of_lt hc]
      omega
    · have h2 : (statsOf k rest).count + 1 < U64 := by simpa [statsOf, findStats, hk] using h
      simp only [recordMap, hk, if_false, List.map_cons, List.sum_cons, ih h2]
      omega

/-- The aggregator after `n` records of one key, `n` positive. -/
theorem run_replicate_record (k : EventKey) (n : Nat) :
    run (List.replicate (n + 1) (Call.record k)) {}
      = { map := [(k, { count := (n + 1) % U64, lastPrinted := 0 })] } := by
  induction n with
  | zero => simp [run, step, recordEvent, recordMap]
  | succ m ih =>
    rw [List.replicate_succ', run_append, ih]
    simp only [run, List.foldl_cons, List.foldl_nil, step, recordEvent, recordMap, if_true]
    congr 4
    exact Nat.mod_add_mod _ _ _

/-! ## The net-event callback: normalization and recording -/

/-- C19: for every raw event, the normalized decision is `Drop` exactly for
the classify-drop type code, `Allow` exactly for the classify-allow type code
and `Other` for every other code; the normalized direction is `Inbound`
(`Outbound`) exactly when the event is a drop or allow event with a payload
whose direction code is the inbound (outbound) one, and `Unknown` in every
other case; and the callback records the event whatever its codes, under a key
that carries this decision and direction, as it does for a drop event with the
unknown direction code 77. -/
theorem C19_event_normalization (codes : EventCodes) (event : FWPM_NET_EVENT5) :
    ((classifyEvent codes event).2.2.2 = EventType.Drop ↔
      event.type = codes.FWPM_NET_EVENT_TYPE_CLASSIFY_DROP) ∧
    ((classifyEvent codes event).2.2.2 = EventType.Allow ↔
      event.type = codes.FWPM_NET_EVENT_TYPE_CLASSIFY_ALLOW) ∧
    ((classifyEvent codes event).2.2.2 = EventType.Other ↔
      (event.type ≠ codes.FWPM_NET_EVENT_TYPE_CLASSIFY_DROP ∧
        event.type ≠ codes.FWPM_NET_EVENT_TYPE_CLASSIFY_ALLOW)) ∧
    ((classifyEvent codes event).2.2.1 = EventDirection.Inbound ↔
      ((event.type = codes.FWPM_NET_EVENT_TYPE_CLASSIFY_DROP ∧
          ∃ p, event.classifyDrop = some p ∧
            p.msFwpDirection = codes.FWP_DIRECTION_INBOUND) ∨
        (event.type = codes.FWPM_NET_EVENT_TYPE_CLASSIFY_ALLOW ∧
          ∃ p, event.classifyAllow = some p ∧
            p.msFwpDirection = codes.FWP_DIRECTION_INBOUND))) ∧
    ((classifyEvent codes event).2.2.1 = EventDirection.Outbound ↔
      ((event.type = codes.FWPM_NET_EVENT_TYPE_CLASSIFY_DROP ∧
          ∃ p, event.classifyDrop = some p ∧
            p.msFwpDirection = codes.FWP_DIRECTION_OUTBOUND) ∨
        (event.type = codes.FWPM_NET_EVENT_TYPE_CLASSIFY_ALLOW ∧
          ∃ p, event.classifyAllow = some p ∧
            p.msFwpDirection = codes.FWP_DIRECTION_OUTBOUND))) ∧
    ((classifyEvent codes event).2.2.1 = EventDirection.Inbound ∨
      (classifyEvent codes event).2.2.1 = EventDirection.Outbound ∨
      (classifyEvent codes event).2.2.1 = EventDirection.Unknown) ∧
    (∀ agg : Aggregator, ∃ key,
      netEventCallback codes (some agg) (some event) = some (some (recordEvent agg key)) ∧
      key.type = (classifyEvent codes event).2.2.2 ∧
      key.direction = (classifyEvent codes event).2.2.1) ∧
    netEventCallback sdkCodes (some {}) (some eventOddDirection)
      = some (some { map := [(keyOddDirection, { count := 1, lastPrinted := 0 })] }) := by
  have hda := codes.drop_ne_allow
  have hio := codes.inbound_ne_outbound
  have hrec : ∀ agg : Aggregator, ∃ key,
      netEventCallback codes (some agg) (some event) = some (some (recordEvent agg key)) ∧
      key.type = (classifyEvent codes event).2.2.2 ∧
      key.direction = (classifyEvent codes event).2.2.1 := by
    intro agg
    obtain ⟨key, hk, hc⟩ := netEventCallback_records codes agg event
    exact ⟨key, hc, eventKey_fields codes event key hk⟩
  have hdir : (classifyEvent codes event).2.2.1 = EventDirection.Inbound ∨
      (classifyEvent codes event).2.2.1 = EventDirection.Outbound ∨
      (classifyEvent codes event).2.2.1 = EventDirection.Unknown := by
    cases (classifyEvent codes event).2.2.1 <;> simp
  refine ⟨?_, ?_, ?_, ?_, ?_, hdir, hrec, by decide⟩
  all_goals
    by_cases h1 : event.type = codes.FWPM_NET_EVENT_TYPE_CLASSIFY_DROP
    · cases hp : event.classifyDrop with
      | none => simp [classifyEvent, h1, hp, hda]
      | some p =>
        by_cases h3 : p.msFwpDirection = codes.FWP_DIRECTION_INBOUND
        · simp [classifyEvent, directionOf, h1, hp, h3, hda, hio]
        · by_cases h4 : p.msFwpDirection = codes.FWP_DIRECTION_OUTBOUND
          · simp [classifyEvent, directionOf, h1, hp, h4, hda, hio, Ne.symm hio]
          · simp [classifyEvent, directionOf, h1, hp, h3, h4, hda]
    · by_cases h2 : event.type = codes.FWPM_NET_EVENT_TYPE_CLASSIFY_ALLOW
      · cases hp : event.classifyAllow with
        | none => simp [classifyEvent, h2, hp, Ne.symm hda]
        | some p =>
          by_cases h3 : p.msFwpDirection = codes.FWP_DIRECTION_INBOUND
          · simp [classifyEvent, directionOf, h2, hp, h3, Ne.symm hda, hio]
          · by_cases h4 : p.msFwpDirection = codes.FWP_DIRECTION_OUTBOUND
            · simp [classifyEvent, directionOf, h2, hp, h4, Ne.symm hda, Ne.symm hio]
            · simp [classifyEvent, directionOf, h2, hp, h3, h4, Ne.symm hda]
      · simp [classifyEvent, h1, h2]

/-- C20, refuted as stated: on the aggregator reached by `2 ^ 64 - 1` records of
one key, the callback delivers one more event of that key, and the sum of all
counts falls from `2 ^ 64 - 1` to 0 instead of increasing by 1. -/
theorem C20_sum_of_counts_falls_when_counter_wraps :
    netEventCallback sdkCodes
        (some (run (List.replicate (2 ^ 64 - 1) (Call.record keyOddDirection)) {}))
        (some eventOddDirection)
      = some (some { map := [(keyOddDirection, { count := 0, lastPrinted := 0 })] }) ∧
    sumCounts (run (List.replicate (2 ^ 64 - 1) (Call.record keyOddDirection)) {})
      = 2 ^ 64 - 1 ∧
    sumCounts { map := [(keyOddDirection, { count := 0, lastPrinted := 0 })] } = 0 := by
  have hn : (2 ^ 64 - 1 : Nat) = (2 ^ 64 - 2) + 1 := by norm_num
  have hrun : run (List.replicate (2 ^ 64 - 1) (Call.record keyOddDirection)) {}
      = { map := [(keyOddDirection, { count := 2 ^ 64 - 1, lastPrinted := 0 })] } := by
    rw [hn, run_replicate_record]
    rfl
  rw [hrun]
  refine ⟨by decide, by decide, by decide⟩

/-- C20, amended: for every non-null raw event delivered with a non-null
aggregator context, whatever its type code, direction code, IP version,
payload pointers or identity bytes, the callback returns after exactly one
record, of the key built from the event, so that the sum of all counts in the
aggregator increases by exactly 1 unless the 64-bit counter of that key wraps;
with a null event or a null context the aggregator is left unchanged. -/
theorem C20_callback_records_once (codes : EventCodes) (agg : Aggregator)
    (event : FWPM_NET_EVENT5) :
    (∃ key, eventKey codes event = some key ∧
      netEventCallback codes (some agg) (some event) = some (some (recordEvent agg key)) ∧
      ((statsOf key agg.map).count + 1 < U64 →
        sumCounts (recordEvent agg key) = sumCounts agg + 1)) ∧
    netEventCallback codes (some agg) none = some (some agg) ∧
    netEventCallback codes none (some event) = some none ∧
    netEventCallback codes none none = some none := by
  refine ⟨?_, rfl, rfl, rfl⟩
  obtain ⟨key, hk, hc⟩ := netEventCallback_records codes agg event
  exact ⟨key, hk, hc, fun h => sum_counts_recordMap key agg.map h⟩

/-- C20, the amended statement at a sample: the event with the unknown
direction code on the empty aggregator. -/
theorem C20_callback_records_once_witness :
    (statsOf keyOddDirection (({} : Aggregator)).map).count + 1 < U64 ∧
    ∃ key, eventKey sdkCodes eventOddDirection = some key ∧
      netEventCallback sdkCodes (some {}) (some eventOddDirection)
        = some (some (recordEvent {} key)) ∧
      ((statsOf key (({} : Aggregator)).map).count + 1 < U64 →
        sumCounts (recordEvent {} key) = sumCounts {} + 1) :=
  ⟨by decide, (C20_callback_records_once sdkCodes {} eventOddDirection).1⟩

/-! ## The application path: `getAppPath` and `UTF16::nextCodepoint` -/

/-- C21: `getAppPath` returns for every header; the name returned is the
sentinel `<unknown>` whenever the identity data is a null pointer or has size
zero, and for every identity blob the name returned is not empty. -/
theorem C21_app_path_sentinel_and_nonempty (hdr : FwpmNetEventHeader) :
    ∃ name, hdr.getAppPath = some name ∧ name ≠ [] ∧
      ((hdr.appId.data = none ∨ hdr.appId.size = 0) → name = unknownAppPath) := by
  have hu : unknownAppPath ≠ [] := by decide
  unfold FwpmNetEventHeader.getAppPath
  cases hd : hdr.appId.data with
  | none => exact ⟨unknownAppPath, rfl, hu, fun _ => rfl⟩
  | some data =>
    simp only []
    by_cases hz : hdr.appId.size = 0
    · simp only [hz, if_true]
      exact ⟨unknownAppPath, rfl, hu, fun _ => rfl⟩
    · simp only [hz, if_false]
      have h := getAppPathLoop_isSome (istreamChars (data.take hdr.appId.size)).length
        (istreamChars (data.take hdr.appId.size)) [] (Nat.le_refl _)
      cases hl : getAppPathLoop (istreamChars (data.take hdr.appId.size)).length
          (istreamChars (data.take hdr.appId.size)) [] with
      | none => simp [hl] at h
      | some out =>
        simp only []
        by_cases ho : out = []
        · simp only [ho, if_true]
          refine ⟨unknownAppPath, rfl, hu, ?_⟩
          rintro (h1 | h1)
          · cases h1
          · exact h1.elim
        · simp only [ho, if_false]
          refine ⟨out, rfl, ho, ?_⟩
          rintro (h1 | h1)
          · cases h1
          · exact h1.elim

/-- C21 at samples: a null identity pointer, and an identity of two blanks. -/
theorem C21_app_path_sentinel_and_nonempty_witness :
    header0.getAppPath = some unknownAppPath ∧
    (headerWithAppId [0x20, 0x20]).getAppPath = some unknownAppPath ∧
    ∃ name, (headerWithAppId [0x41, 0x00]).getAppPath = some name ∧ name ≠ [] ∧
      (((headerWithAppId [0x41, 0x00]).appId.data = none ∨
        (headerWithAppId [0x41, 0x00]).appId.size = 0) → name = unknownAppPath) :=
  ⟨by decide, by decide, C21_app_path_sentinel_and_nonempty (headerWithAppId [0x41, 0x00])⟩

theorem unit_of_le_bytes (u : Nat) (hu : u < 65536) :
    UTF16.unit (u % 256) (u / 256 % 256) = u := by
  have hb : u % 256 % 256 < 2 ^ 8 := by omega
  unfold UTF16.unit
  rw [Nat.shiftLeft_eq, Nat.lor_comm, Nat.mul_comm _ (2 ^ 8), ← Nat.mul_add_lt_is_or hb]
  omega

/-- The loop of `getAppPath` on the UTF-16LE bytes of non-surrogate units,
when the iterator yields all of them: the units are appended unchanged. -/
theorem getAppPathLoop_units (units : List Nat)
    (hu : ∀ u ∈ units, u < 65536 ∧ ¬(0xD800 ≤ u ∧ u ≤ 0xDFFF)) (fuel : Nat)
    (hf : (utf16leBytes units).length ≤ fuel) (out : List Nat) :
    getAppPathLoop fuel (utf16leBytes units) out = some (out ++ units) := by
  induction units generalizing fuel out with
  | nil =>
    cases fuel <;> simp [utf16leBytes, getAppPathLoop]
  | cons u rest ih =>
    obtain ⟨hlt, hns⟩ := hu u (List.mem_cons_self _ _)
    have hrest : ∀ v ∈ rest, v < 65536 ∧ ¬(0xD800 ≤ v ∧ v ≤ 0xDFFF) :=
      fun v hv => hu v (List.mem_cons_of_mem _ hv)
    have hcons : utf16leBytes (u :: rest) = u % 256 :: (u / 256 % 256) :: utf16leBytes rest := by
      simp [utf16leBytes]
    rw [hcons] at hf ⊢
    cases fuel with
    | zero => simp at hf
    | succ fuel =>
      have hhigh : UTF16.isHighSurrogate u = false := by
        simp only [UTF16.isHighSurrogate, Bool.and_eq_false_iff, decide_eq_false_iff_not]
        omega
      have hlow : UTF16.isLowSurrogate u = false := by
        simp only [UTF16.isLowSurrogate, Bool.and_eq_false_iff, decide_eq_false_iff_not]
        omega
      have hle : u ≤ 0xFFFF := by omega
      have hmod : u % 65536 = u := Nat.mod_eq_of_lt hlt
      have hnext : UTF16.nextCodepoint (u % 256 :: (u / 256 % 256) :: utf16leBytes rest)
          = ((u, { codepoint := u, error_code := UTF16.ResultCodes.SUCCESS }),
              utf16leBytes rest) := by
        simp [UTF16.nextCodepoint, unit_of_le_bytes u hlt, hhigh, hlow]
      have hf2 : (utf16leBytes rest).length ≤ fuel := by
        simp only [List.length_cons] at hf
        omega
      rw [getAppPathLoop]
      simp only [hnext, hle, if_true, hmod]
      rw [ih hrest fuel hf2, List.append_assoc]
      rfl

/-- For code units that are no surrogates and whose two bytes are no white
space, `getAppPath` returns the units of the UTF-16LE encoding unchanged. -/
theorem getAppPath_round_trip_without_space (units : List Nat) (hne : units ≠ [])
    (hu : ∀ u ∈ units, u < 65536 ∧ ¬(0xD800 ≤ u ∧ u ≤ 0xDFFF))
    (hs : ∀ b ∈ utf16leBytes units, isSpaceByte b = false) :
    (headerWithAppId (utf16leBytes units)).getAppPath = some units := by
  have hfilter : istreamChars (utf16leBytes units) = utf16leBytes units := by
    unfold istreamChars
    rw [List.filter_eq_self]
    intro b hb
    simp [hs b hb]
  have hlen : (utf16leBytes units).length ≠ 0 := by
    cases units with
    | nil => exact absurd rfl hne
    | cons u rest => simp [utf16leBytes]
  simp only [FwpmNetEventHeader.getAppPath, headerWithAppId, hlen, if_false, List.take_length,
    hfilter, getAppPathLoop_units units hu _ (Nat.le_refl _) [], List.nil_append, hne]

/-- C22, the code at two failing inputs.  The blob `20 00 00 DC` is the unit
`0x0020` followed by the lone low surrogate `0xDC00`: the byte `20` is skipped
by the stream iterator, so the unit `0x0000` is emitted and the rest is
rendered as `0x00DC`.  The blob `00 D8 41` is the high surrogate `0xD800`
followed by one trailing byte: `0xD800` is rendered and the byte `41` appears
nowhere. -/
theorem C22_bytes_are_dropped_from_app_path :
    (headerWithAppId [0x20, 0x00, 0x00, 0xDC]).getAppPath
      = some ([0x0000] ++ emitBreak ++ hex04X 0x00DC ++ emitBreakEnd) ∧
    (headerWithAppId [0x00, 0xD8, 0x41]).getAppPath
      = some (emitBreak ++ hex04X 0xD800 ++ emitBreakEnd) := by
  constructor <;> decide

/-- C23, the code at a failing input: for the code units `A`, blank, `B`, whose
UTF-16LE encoding is `41 00 20 00 42 00`, `getAppPath` does not return the
three units but `A`, the unit `0x4200` and an error marker around `0x0000`,
because the stream iterator skips the byte `20`.  The round trip does hold
for every non-empty sequence of non-surrogate units none of whose bytes is
white space. -/
theorem C23_blank_breaks_utf16_round_trip :
    utf16leBytes [0x41, 0x20, 0x42] = [0x41, 0x00, 0x20, 0x00, 0x42, 0x00] ∧
    (headerWithAppId (utf16leBytes [0x41, 0x20, 0x42])).getAppPath
      = some ([0x41, 0x4200] ++ emitBreak ++ hex04X 0x0000 ++ emitBreakEnd) ∧
    (∀ units : List Nat, units ≠ [] →
      (∀ u ∈ units, u < 65536 ∧ ¬(0xD800 ≤ u ∧ u ≤ 0xDFFF)) →
      (∀ b ∈ utf16leBytes units, isSpaceByte b = false) →
      (headerWithAppId (utf16leBytes units)).getAppPath = some units) :=
  ⟨by decide, by decide, getAppPath_round_trip_without_space⟩

/-- C27, the code at a failing input: for `H = 0xD840` and `L = 0xDC00`, whose
bytes are `40 D8 00 DC`, `nextCodepoint` returns `SUCCESS` with the code point
`0x10000` where the claim has `0x20000`, and `getAppPath` emits the pair
`0xD800, 0xDC00`, not `H, L`. -/
theorem C27_surrogate_pair_combined_wrongly :
    UTF16.nextCodepoint [0x40, 0xD8, 0x00, 0xDC]
      = ((0x10000, { codepoint := 0x10000, error_code := UTF16.ResultCodes.SUCCESS }), []) ∧
    0x10000 + ((0xD840 - 0xD800) <<< 10) + (0xDC00 - 0xDC00) = 0x20000 ∧
    (headerWithAppId [0x40, 0xD8, 0x00, 0xDC]).getAppPath = some [0xD800, 0xDC00] := by
  refine ⟨by decide, by decide, by decide⟩

/-- C30: a call of `nextCodepoint` on an iterator that is not at the end leaves
it strictly shorter; hence the loop of `getAppPath` ends within one turn for
each element the iterator yields, of which there are no more than bytes in the
blob; so `getAppPath` returns for every identity blob and the event callback
returns for every event and context. -/
theorem C30_app_path_decoding_terminates :
    (∀ (b : Nat) (rest : List Nat),
      (UTF16.nextCodepoint (b :: rest)).2.length < (b :: rest).length) ∧
    (∀ (fuel : Nat) (it out : List Nat), it.length ≤ fuel →
      (getAppPathLoop fuel it out).isSome = true) ∧
    (∀ bytes : List Nat, (istreamChars bytes).length ≤ bytes.length) ∧
    (∀ hdr : FwpmNetEventHeader, hdr.getAppPath.isSome = true) ∧
    (∀ (codes : EventCodes) (context : Option Aggregator) (event : Option FWPM_NET_EVENT5),
      (netEventCallback codes context event).isSome = true) := by
  refine ⟨nextCodepoint_consumes, getAppPathLoop_isSome, ?_, getAppPath_isSome, ?_⟩
  · intro bytes
    exact List.length_filter_le _ _
  · intro codes context event
    cases event with
    | none => rfl
    | some ev =>
      cases context with
      | none => rfl
      | some agg =>
        obtain ⟨key, _, hc⟩ := netEventCallback_records codes agg ev
        rw [hc]
        rfl

/-! ## UTF-8: error recovery and the round trip with `append_utf8` -/

/-- C28, the code at two failing inputs: after the invalid first byte `FF`,
the call that reports `INVALID_FIRST_BYTE` has moved the iterator over the
well-formed `A` as well, and over all of `A`, `B`, `é` (`41 42 C3 A9`), so the
following call finds the iterator at its end and decodes nothing. -/
theorem C28_recovery_swallows_following_bytes :
    (UTF8.nextCodepoint [0xFF, 0x41]).1.2.error_code = UTF8.ResultCodes.INVALID_FIRST_BYTE ∧
    (UTF8.nextCodepoint [0xFF, 0x41]).2 = [] ∧
    (UTF8.nextCodepoint [0xFF, 0x41, 0x42, 0xC3, 0xA9]).1.2.error_code
      = UTF8.ResultCodes.INVALID_FIRST_BYTE ∧
    (UTF8.nextCodepoint [0xFF, 0x41, 0x42, 0xC3, 0xA9]).2 = [] ∧
    UTF8.nextCodepoint [0x41, 0x42, 0xC3, 0xA9]
      = ((0x41, { codepoint := 0x41, error_code := UTF8.ResultCodes.SUCCESS }),
          [0x42, 0xC3, 0xA9]) := by
  refine ⟨by decide, by decide, by decide, by decide, by decide⟩

theorem and_3F_eq_mod (n : Nat) : n &&& 0x3F = n % 64 :=
  Nat.and_pow_two_sub_one_eq_mod n 6

theorem and_1F_eq_mod (n : Nat) : n &&& 0x1F = n % 32 :=
  Nat.and_pow_two_sub_one_eq_mod n 5

theorem and_0F_eq_mod (n : Nat) : n &&& 0x0F = n % 16 :=
  Nat.and_pow_two_sub_one_eq_mod n 4

theorem and_07_eq_mod (n : Nat) : n &&& 0x07 = n % 8 :=
  Nat.and_pow_two_sub_one_eq_mod n 3

theorem push6_eq (codepoint byte : Nat) (h : codepoint < 2 ^ 26) :
    UTF8.push6 codepoint byte = codepoint * 64 + byte % 64 := by
  have hlt : codepoint * 2 ^ 6 < 2 ^ 32 := by omega
  have hb : byte % 64 < 2 ^ 6 := by omega
  unfold UTF8.push6
  rw [and_3F_eq_mod, Nat.shiftLeft_eq, Nat.mod_eq_of_lt hlt, Nat.mul_comm codepoint (2 ^ 6),
    ← Nat.mul_add_lt_is_or hb]
  omega

theorem utf8_lead1 (x : Nat) (hx : x < 128) :
    UTF8.expectedByteCount (x % 256 % 256) = 1 ∧ x % 256 % 256 = x := by
  have h : ∀ y : Fin 128,
      UTF8.expectedByteCount (y.val % 256 % 256) = 1 ∧ y.val % 256 % 256 = y.val := by decide
  exact h ⟨x, hx⟩

theorem utf8_lead2 (x : Nat) (hx : x < 32) :
    UTF8.expectedByteCount ((0xC0 ||| x) % 256 % 256) = 2 ∧
      ((0xC0 ||| x) % 256 % 256) &&& 0x1F = x := by
  have h : ∀ y : Fin 32,
      UTF8.expectedByteCount ((0xC0 ||| y.val) % 256 % 256) = 2 ∧
        ((0xC0 ||| y.val) % 256 % 256) &&& 0x1F = y.val := by decide
  exact h ⟨x, hx⟩

theorem utf8_lead3 (x : Nat) (hx : x < 16) :
    UTF8.expectedByteCount ((0xE0 ||| x) % 256 % 256) = 3 ∧
      ((0xE0 ||| x) % 256 % 256) &&& 0x0F = x := by
  have h : ∀ y : Fin 16,
      UTF8.expectedByteCount ((0xE0 ||| y.val) % 256 % 256) = 3 ∧
        ((0xE0 ||| y.val) % 256 % 256) &&& 0x0F = y.val := by decide
  exact h ⟨x, hx⟩

theorem utf8_lead4 (x : Nat) (hx : x < 8) :
    UTF8.expectedByteCount ((0xF0 ||| x) % 256 % 256) = 4 ∧
      ((0xF0 ||| x) % 256 % 256) &&& 0x07 = x := by
  have h : ∀ y : Fin 8,
      UTF8.expectedByteCount ((0xF0 ||| y.val) % 256 % 256) = 4 ∧
        ((0xF0 ||| y.val) % 256 % 256) &&& 0x07 = y.val := by decide
  exact h ⟨x, hx⟩

theorem utf8_cont (y : Nat) (hy : y < 64) :
    UTF8.isValidContinuationByte ((0x80 ||| y) % 256 % 256) = true ∧
      ((0x80 ||| y) % 256 % 256) % 64 = y := by
  have h : ∀ z : Fin 64,
      UTF8.isValidContinuationByte ((0x80 ||| z.val) % 256 % 256) = true ∧
        ((0x80 ||| z.val) % 256 % 256) % 64 = z.val := by decide
  exact h ⟨y, hy⟩

/-- One turn of the `for` loop on a continuation byte that `append_utf8`
wrote. -/
theorem readContinuation_cont (n codepoint y : Nat) (rest : List Nat) (hy : y < 64)
    (hc : codepoint < 2 ^ 26) :
    UTF8.readContinuation (n + 1) codepoint ((0x80 ||| y) % 256 :: rest)
      = UTF8.readContinuation n (codepoint * 64 + y) rest := by
  obtain ⟨h1, h2⟩ := utf8_cont y hy
  simp only [UTF8.readContinuation, h1, Bool.not_true, Bool.false_eq_true, if_false,
    push6_eq codepoint _ hc, h2]

/-- C29: for every code point `cp <= 0x10FFFF`, `UTF8::nextCodepoint` on an
iterator that yields exactly the bytes `append_utf8` produces for `cp` returns
`cp` with the result code `SUCCESS` and `cp` in `result`, and leaves the
iterator at its end. -/
theorem C29_utf8_decode_undoes_encode (cp : Nat) (h : cp ≤ 0x10FFFF) :
    UTF8.nextCodepoint (append_utf8 [] cp)
      = ((cp, { codepoint := cp, error_code := UTF8.ResultCodes.SUCCESS }), []) := by
  unfold append_utf8
  by_cases h1 : cp ≤ 0x7F
  · obtain ⟨e1, e2⟩ := utf8_lead1 cp (by omega)
    simp only [h1, if_true, List.nil_append, UTF8.nextCodepoint, e1]
    simp only [e2]
  · by_cases h2 : cp ≤ 0x7FF
    · simp only [h1, h2, if_true, if_false, List.nil_append, and_3F_eq_mod, and_1F_eq_mod,
        Nat.shiftRight_eq_div_pow]
      obtain ⟨e1, e2⟩ := utf8_lead2 (cp / 2 ^ 6 % 32) (Nat.mod_lt _ (by decide))
      simp only [UTF8.nextCodepoint, e1, e2]
      rw [readContinuation_cont 0 _ _ _ (Nat.mod_lt _ (by decide)) (by omega)]
      have hv : cp / 2 ^ 6 % 32 * 64 + cp % 64 = cp := by omega
      simp only [UTF8.readContinuation, hv]
    · by_cases h3 : cp ≤ 0xFFFF
      · simp only [h1, h2, h3, if_true, if_false, List.nil_append, utf8Bytes3, and_3F_eq_mod,
          and_0F_eq_mod, Nat.shiftRight_eq_div_pow]
        obtain ⟨e1, e2⟩ := utf8_lead3 (cp / 2 ^ 12 % 16) (Nat.mod_lt _ (by decide))
        simp only [UTF8.nextCodepoint, e1, e2]
        rw [readContinuation_cont 1 _ _ _ (Nat.mod_lt _ (by decide)) (by omega),
          readContinuation_cont 0 _ _ _ (Nat.mod_lt _ (by decide)) (by omega)]
        have hv : (cp / 2 ^ 12 % 16 * 64 + cp / 2 ^ 6 % 64) * 64 + cp % 64 = cp := by omega
        simp only [UTF8.readContinuation, hv]
      · simp only [h1, h2, h3, h, if_true, if_false, List.nil_append, and_3F_eq_mod,
          and_07_eq_mod, Nat.shiftRight_eq_div_pow]
        obtain ⟨e1, e2⟩ := utf8_lead4 (cp / 2 ^ 18 % 8) (Nat.mod_lt _ (by decide))
        simp only [UTF8.nextCodepoint, e1, e2]
        rw [readContinuation_cont 2 _ _ _ (Nat.mod_lt _ (by decide)) (by omega),
          readContinuation_cont 1 _ _ _ (Nat.mod_lt _ (by decide)) (by omega),
          readContinuation_cont 0 _ _ _ (Nat.mod_lt _ (by decide)) (by omega)]
        have hv : ((cp / 2 ^ 18 % 8 * 64 + cp / 2 ^ 12 % 64) * 64 + cp / 2 ^ 6 % 64) * 64
            + cp % 64 = cp := by omega
        simp only [UTF8.readContinuation, hv]

/-- C29 at samples: the euro sign, three bytes, and the last code point, four
bytes. -/
theorem C29_utf8_decode_undoes_encode_witness :
    (0x20AC ≤ 0x10FFFF ∧
      UTF8.nextCodepoint (append_utf8 [] 0x20AC)
        = ((0x20AC, { codepoint := 0x20AC, error_code := UTF8.ResultCodes.SUCCESS }), [])) ∧
    UTF8.nextCodepoint (append_utf8 [] 0x10FFFF)
      = ((0x10FFFF, { codepoint := 0x10FFFF, error_code := UTF8.ResultCodes.SUCCESS }), []) :=
  ⟨⟨by decide, C29_utf8_decode_undoes_encode 0x20AC (by decide)⟩,
    C29_utf8_decode_undoes_encode 0x10FFFF (by decide)⟩

/-- A remark on C29: the round trip is about the elements the iterator
yields.  A `std::istream_iterator<char>` over a stream in its default mode
skips white space, so on the one byte `20` that `append_utf8` writes for a
blank it yields nothing, and `nextCodepoint` answers 0. -/
theorem utf8_blank_is_skipped_by_default_stream :
    append_utf8 [] 0x20 = [0x20] ∧ istreamChars (append_utf8 [] 0x20) = [] ∧
    UTF8.nextCodepoint (istreamChars (append_utf8 [] 0x20))
      = ((0, { codepoint := 0, error_code := UTF8.ResultCodes.SUCCESS }), []) := by
  refine ⟨by decide, by decide, by decide⟩

/-! ## The report line -/

theorem bracket_join (s : String) : "]" ++ ("[" ++ s) = "][" ++ s := by
  rw [← String.append_assoc]
  rfl

theorem printChanged_length (codes : ProtoCodes) (answer : Nat → LayerAnswer)
    (changed : List (EventKey × Nat)) (cache : List (Nat × String)) :
    (printChanged codes answer cache changed).length = changed.length := by
  induction changed generalizing cache with
  | nil => rfl
  | cons e rest ih => simp [printChanged, ih]

/-- C24: for every key whose protocol number fits the 8 bits of `ipProtocol`
and every count, the line that `doPrint` writes is
`[decision][layer name][protocol][direction] local -> remote  (xcount) ` followed
by the application name, where the layer name is what `layerIdToName` returns,
the count is written in decimal, decision is `ALLOW`, `DROP` or `OTHER` by the
type of the key, direction is `IN`, `OUT` or `UNK` by its direction, and
protocol is `TCP`, `UDP`, `ICMP` or `IP` followed by the decimal protocol
number for any other protocol; `doPrint` writes one such line for each changed
entry. -/
theorem C24_report_line_format (codes : ProtoCodes) (cache : List (Nat × String))
    (answer : Nat → LayerAnswer) (k : EventKey) (total : Nat) (hp : k.protocol < 256) :
    (∃ decision protocol direction : String,
      (printEntry codes cache answer k total).1 =
        { text := "[" ++ decision ++ "][" ++ (layerIdToName cache answer k.layerId).1 ++ "]["
            ++ protocol ++ "][" ++ direction ++ "] " ++ k.localSocket ++ " -> "
            ++ k.remoteSocket ++ "  (x" ++ String.mk (Nat.toDigits 10 total) ++ ") "
          subject := k.appName } ∧
      (k.type = EventType.Allow ∧ decision = "ALLOW" ∨
        k.type = EventType.Drop ∧ decision = "DROP" ∨
        k.type = EventType.Other ∧ decision = "OTHER") ∧
      (k.direction = EventDirection.Inbound ∧ direction = "IN" ∨
        k.direction = EventDirection.Outbound ∧ direction = "OUT" ∨
        k.direction = EventDirection.Unknown ∧ direction = "UNK") ∧
      (k.protocol = codes.IPPROTO_TCP ∧ protocol = "TCP" ∨
        k.protocol = codes.IPPROTO_UDP ∧ protocol = "UDP" ∨
        k.protocol = codes.IPPROTO_ICMP ∧ protocol = "ICMP" ∨
        (k.protocol ≠ codes.IPPROTO_TCP ∧ k.protocol ≠ codes.IPPROTO_UDP ∧
          k.protocol ≠ codes.IPPROTO_ICMP ∧
          protocol = "IP" ++ String.mk (Nat.toDigits 10 k.protocol)))) ∧
    ∀ changed : List (EventKey × Nat),
      (printChanged codes answer cache changed).length = changed.length := by
  refine ⟨⟨to_string_EventType k.type, to_string_IPPROTO codes k.protocol,
    to_string_EventDirection k.direction, ?_, ?_, ?_, ?_⟩,
    fun changed => printChanged_length codes answer changed cache⟩
  · simp only [printEntry, to_string_EventKey, String.append_assoc, bracket_join]
    rfl
  · cases k.type
    · exact Or.inr (Or.inr ⟨rfl, rfl⟩)
    · exact Or.inr (Or.inl ⟨rfl, rfl⟩)
    · exact Or.inl ⟨rfl, rfl⟩
  · cases k.direction
    · exact Or.inr (Or.inr ⟨rfl, rfl⟩)
    · exact Or.inl ⟨rfl, rfl⟩
    · exact Or.inr (Or.inl ⟨rfl, rfl⟩)
  · unfold to_string_IPPROTO
    by_cases h1 : k.protocol = codes.IPPROTO_TCP
    · exact Or.inl ⟨h1, if_pos h1⟩
    · by_cases h2 : k.protocol = codes.IPPROTO_UDP
      · exact Or.inr (Or.inl ⟨h2, by rw [if_neg h1, if_pos h2]⟩)
      · by_cases h3 : k.protocol = codes.IPPROTO_ICMP
        · exact Or.inr (Or.inr (Or.inl ⟨h3, by rw [if_neg h1, if_neg h2, if_pos h3]⟩))
        · refine Or.inr (Or.inr (Or.inr ⟨h1, h2, h3, ?_⟩))
          rw [if_neg h1, if_neg h2, if_neg h3, Nat.mod_eq_of_lt hp]
          rfl

/-- C24 at samples: the lines for the TCP key `keyA` with count 3 on an engine
that names its layer, and for the protocol-47 key `keyGre` with count 12 on a
layer the engine does not know. -/
theorem C24_report_line_format_witness :
    keyGre.protocol < 256 ∧
    (printEntry sdkProtoCodes [] layerAnswer0 keyA 3).1 =
      { text := "[ALLOW][Inbound Transport v4][TCP][IN] 10.0.0.1:80 -> 10.0.0.2:5000  (x3) "
        subject := [97] } ∧
    (printEntry sdkProtoCodes [] layerAnswer0 keyGre 12).1 =
      { text := "[OTHER][LAYER_44][IP47][UNK] 10.0.0.1:80 -> 10.0.0.2:5000  (x12) "
        subject := [97] } ∧
    (∃ decision protocol direction : String,
      (printEntry sdkProtoCodes [] layerAnswer0 keyGre 12).1 =
        { text := "[" ++ decision ++ "]["
            ++ (layerIdToName [] layerAnswer0 keyGre.layerId).1 ++ "]["
            ++ protocol ++ "][" ++ direction ++ "] " ++ keyGre.localSocket ++ " -> "
            ++ keyGre.remoteSocket ++ "  (x" ++ String.mk (Nat.toDigits 10 12) ++ ") "
          subject := keyGre.appName } ∧
      (keyGre.type = EventType.Allow ∧ decision = "ALLOW" ∨
        keyGre.type = EventType.Drop ∧ decision = "DROP" ∨
        keyGre.type = EventType.Other ∧ decision = "OTHER") ∧
      (keyGre.direction = EventDirection.Inbound ∧ direction = "IN" ∨
        keyGre.direction = EventDirection.Outbound ∧ direction = "OUT" ∨
        keyGre.direction = EventDirection.Unknown ∧ direction = "UNK") ∧
      (keyGre.protocol = sdkProtoCodes.IPPROTO_TCP ∧ protocol = "TCP" ∨
        keyGre.protocol = sdkProtoCodes.IPPROTO_UDP ∧ protocol = "UDP" ∨
        keyGre.protocol = sdkProtoCodes.IPPROTO_ICMP ∧ protocol = "ICMP" ∨
        (keyGre.protocol ≠ sdkProtoCodes.IPPROTO_TCP ∧
          keyGre.protocol ≠ sdkProtoCodes.IPPROTO_UDP ∧
          keyGre.protocol ≠ sdkProtoCodes.IPPROTO_ICMP ∧
          protocol = "IP" ++ String.mk (Nat.toDigits 10 keyGre.protocol)))) :=
  ⟨by decide, by decide, by decide,
    (C24_report_line_format sdkProtoCodes [] layerAnswer0 keyGre 12 (by decide)).1⟩

/-! ## The Reporter and the final drain -/

theorem RunPrinter_length (rounds : List (List EventKey)) (agg : Aggregator) :
    (RunPrinter rounds agg).1.length = rounds.length := by
  induction rounds generalizing agg with
  | nil => rfl
  | cons batch rounds ih => simp [RunPrinter, ih]

theorem RunPrinter_append (rounds : List (List EventKey)) (batch : List EventKey)
    (agg : Aggregator) :
    (RunPrinter (rounds ++ [batch]) agg).2
      = batch.foldl recordEvent (doPrint (RunPrinter rounds agg).2).2 := by
  induction rounds generalizing agg with
  | nil => rfl
  | cons b rounds ih =>
    simp only [List.cons_append, RunPrinter]
    exact ih _

theorem mem_doPrint_of_changed (agg : Aggregator) (k : EventKey) (st : EventStats)
    (hmem : (k, st) ∈ agg.map) (hne : st.count ≠ st.lastPrinted) :
    (k, st.count) ∈ (doPrint agg).1 := by
  simp only [doPrint, mem_drainMap_fst]
  exact ⟨st, hmem, hne, rfl⟩

theorem doPrint_doPrint (agg : Aggregator) : (doPrint (doPrint agg).2).1 = [] := by
  simp only [doPrint, drainMap_drainMap]

/-- C25, counterexample: the Reporter runs one turn of its loop on an empty
aggregator, the callback records `keyA` during the wait, and the stop is
requested.  `RunPrinter` returns having emitted only the empty report of its
one drain: the count 1 of `keyA` is left unreported in the aggregator
(`lastPrinted` is still 0), and it is the `doPrint` at the end of `main` that
reports it.  In general `RunPrinter` drains once per turn of its loop and not
after the last wait. -/
theorem C25_reporter_exits_without_final_drain :
    RunPrinter [[keyA]] {} = ([[]], { map := [(keyA, { count := 1, lastPrinted := 0 })] }) ∧
    (doPrint (RunPrinter [[keyA]] {}).2).1 = [(keyA, 1)] ∧
    (∀ (rounds : List (List EventKey)) (agg : Aggregator),
      (RunPrinter rounds agg).1.length = rounds.length) ∧
    (∀ (rounds : List (List EventKey)) (batch : List EventKey) (agg : Aggregator),
      (RunPrinter (rounds ++ [batch]) agg).2
        = batch.foldl recordEvent (doPrint (RunPrinter rounds agg).2).2) ∧
    ((main (mainApiOf enabledApi okApi 0) 0 sublayer0 filter0 [] [] [[keyA]] [] mainSys0).map
        (fun r => (r.1, r.2.log.drop 10)))
      = some (0, [MainCall.NetEventSubscribe4 6 0 9, MainCall.wcoutActive,
          MainCall.sys (SysCall.getline (some "")), MainCall.doPrint true [],
          MainCall.NetEventUnsubscribe0 6 9, MainCall.sys (SysCall.EngineClose0 6),
          MainCall.WSACleanup, MainCall.doPrint false [(keyA, 1)]]) :=
  ⟨by decide, by decide, RunPrinter_length, RunPrinter_append, by decide⟩

/-- C25, amended: when the subscription has succeeded, the Reporter drains
once per turn of its loop and returns on the stop without a further drain;
`main` then ends the subscription, releases its resources, and makes the final
unconditional `doPrint` itself, as its last action, with exit code 0.  That
drain reports every entry of the aggregator whose count differs from its last
reported count, with that count, and leaves nothing for a later drain. -/
theorem C25_final_drain_is_made_by_the_controller {σ : Type} (api : MainApi σ)
    (tempEngine : FwpmEngine) (netState : NetEventState) (wsaOk : Bool)
    (early : List EventKey) (rounds : List (List EventKey)) (late : List EventKey)
    (m : MainSys σ)
    (hsub : (api.FwpmNetEventSubscribe4 m.eng tempEngine.m_engine).1.1
      = api.session.ERROR_SUCCESS) :
    (subscribeAndRun api tempEngine netState wsaOk early rounds late m).1 = 0 ∧
    (subscribeAndRun api tempEngine netState wsaOk early rounds late m).2.log.getLast?
      = some (MainCall.doPrint false (doPrint (aggregatorAtExit early rounds late)).1) ∧
    (RunPrinter rounds (early.foldl recordEvent {})).1.length = rounds.length ∧
    (∀ (k : EventKey) (st : EventStats), (k, st) ∈ (aggregatorAtExit early rounds late).map →
      st.count ≠ st.lastPrinted →
      (k, st.count) ∈ (doPrint (aggregatorAtExit early rounds late)).1) ∧
    (doPrint (doPrint (aggregatorAtExit early rounds late)).2).1 = [] := by
  refine ⟨?_, ?_, RunPrinter_length _ _, ?_, doPrint_doPrint _⟩
  · simp only [subscribeAndRun, hsub, ne_eq, not_true_eq_false, if_false]
  · simp only [subscribeAndRun, hsub, ne_eq, not_true_eq_false, if_false, MainSys.note,
      List.getLast?_concat, aggregatorAtExit]
  · intro k st hmem hne
    exact mem_doPrint_of_changed _ k st hmem hne

/-- C25, amended, on the sample engine: the Reporter makes one empty report,
`keyA` is recorded during its wait and `keyB` after it has stopped, and the
final `doPrint` of `main` reports both. -/
theorem C25_final_drain_is_made_by_the_controller_witness :
    (subscribeAndRun (mainApiOf enabledApi okApi 0) { m_engine := 6 } {} true [] [[keyA]] [keyB]
      mainSysInstalled).1 = 0 ∧
    (subscribeAndRun (mainApiOf enabledApi okApi 0) { m_engine := 6 } {} true [] [[keyA]] [keyB]
      mainSysInstalled).2.log.getLast?
      = some (MainCall.doPrint false (doPrint (aggregatorAtExit [] [[keyA]] [keyB])).1) ∧
    (RunPrinter [[keyA]] (([] : List EventKey).foldl recordEvent {})).1.length
      = [[keyA]].length ∧
    (∀ (k : EventKey) (st : EventStats), (k, st) ∈ (aggregatorAtExit [] [[keyA]] [keyB]).map →
      st.count ≠ st.lastPrinted →
      (k, st.count) ∈ (doPrint (aggregatorAtExit [] [[keyA]] [keyB])).1) ∧
    (doPrint (doPrint (aggregatorAtExit [] [[keyA]] [keyB])).2).1 = [] :=
  C25_final_drain_is_made_by_the_controller (mainApiOf enabledApi okApi 0) { m_engine := 6 } {}
    true [] [[keyA]] [keyB] mainSysInstalled (by decide)

/-! ## The controller: release of the sessions when start-up fails -/

theorem mainCloseCount_append (h : HANDLE) (a b : List MainCall) :
    mainCloseCount h (a ++ b) = mainCloseCount h a + mainCloseCount h b :=
  List.count_append _ _ _

theorem wsaDestroy_closeCount {σ : Type} (api : MainApi σ) (ok : Bool) (m : MainSys σ)
    (h : HANDLE) : mainCloseCount h (wsaDestroy api ok m).log = mainCloseCount h m.log := by
  cases ok
  · rfl
  · simp [wsaDestroy, mainCloseCount]

/-- The destructors that run when `main` leaves its `try` block close the
handle of a valid `tempEngine` once more, whatever was done to it before. -/
theorem unwindMain_closes {σ : Type} (api : MainApi σ) (tempEngine : FwpmEngine)
    (netState : NetEventState) (wsaOk : Bool) (m : MainSys σ)
    (hvalid : tempEngine.toBool api.session.INVALID_HANDLE_VALUE = true) :
    mainCloseCount tempEngine.m_engine m.log + 1
      ≤ mainCloseCount tempEngine.m_engine
          (unwindMain api (some tempEngine) netState wsaOk m).log := by
  simp only [unwindMain, wsaDestroy_closeCount, MainSys.ofSys, mainCloseCount_append,
    FwpmEngine.destroy, hvalid, if_true, engineClose, MainSys.toSys, List.nil_append,
    List.map_cons, List.map_nil]
  have h1 : mainCloseCount tempEngine.m_engine
      [MainCall.sys (SysCall.EngineClose0 tempEngine.m_engine)] = 1 := by
    simp [mainCloseCount]
  omega

/-- When the subscription fails on a valid temporary session, `main` returns
1 and has closed the handle of that session at least twice since the
subscription call. -/
theorem subscribe_failure_closes_twice {σ : Type} (api : MainApi σ) (tempEngine : FwpmEngine)
    (netState : NetEventState) (wsaOk : Bool) (early : List EventKey)
    (rounds : List (List EventKey)) (late : List EventKey) (m : MainSys σ)
    (hfail : (api.FwpmNetEventSubscribe4 m.eng tempEngine.m_engine).1.1
      ≠ api.session.ERROR_SUCCESS)
    (hvalid : tempEngine.toBool api.session.INVALID_HANDLE_VALUE = true) :
    (subscribeAndRun api tempEngine netState wsaOk early rounds late m).1 = 1 ∧
    mainCloseCount tempEngine.m_engine m.log + 2
      ≤ mainCloseCount tempEngine.m_engine
          (subscribeAndRun api tempEngine netState wsaOk early rounds late m).2.log := by
  simp only [subscribeAndRun, hfail, ne_eq, not_false_eq_true, if_true, true_and]
  refine Nat.le_trans ?_ (unwindMain_closes api tempEngine netState wsaOk _ hvalid)
  simp only [MainSys.ofSys, MainSys.note, MainSys.toSys, engineClose, List.nil_append,
    List.map_cons, List.map_nil, mainCloseCount_append]
  have h1 : mainCloseCount tempEngine.m_engine
      [MainCall.sys (SysCall.EngineClose0 tempEngine.m_engine)] = 1 := by
    simp [mainCloseCount]
  omega

/-- C26, code defect: on an engine that has the option enabled and accepts
every call except the subscription (status 5), `main` reports failure (exit
code 1 after the diagnostic) but closes the handle 6 of the temporary session
twice: once by the explicit `FwpmEngineClose0(tempEngine)` before `return 1`
and once more by the destructor of `tempEngine`, which still holds the
handle.  This happens on every engine whenever the subscription fails on a
valid session.  On the sibling paths the scoped release alone runs and every
handle is closed once: negotiation refused (exit code 1), temporary session
refused (exit code 0), sublayer rejected (exit code 0, handle 6 closed
once). -/
theorem C26_subscribe_failure_closes_temporary_session_twice :
    ((main (mainApiOf enabledApi okApi 5) 0 sublayer0 filter0 [] [] [] [] mainSys0).map
        (fun r => (r.1, r.2.log.drop 10)))
      = some (1, [MainCall.NetEventSubscribe4 6 5 0, MainCall.cerrSubscribeFailed 5,
          MainCall.sys (SysCall.EngineClose0 6), MainCall.sys (SysCall.EngineClose0 6),
          MainCall.WSACleanup]) ∧
    ((main (mainApiOf enabledApi okApi 5) 0 sublayer0 filter0 [] [] [] [] mainSys0).map
        (fun r => (r.1, mainCloseCount 5 r.2.log, mainCloseCount 6 r.2.log)))
      = some (1, 1, 2) ∧
    (∀ (σ : Type) (api : MainApi σ) (tempEngine : FwpmEngine) (netState : NetEventState)
      (wsaOk : Bool) (early : List EventKey) (rounds : List (List EventKey))
      (late : List EventKey) (m : MainSys σ),
      (api.FwpmNetEventSubscribe4 m.eng tempEngine.m_engine).1.1 ≠ api.session.ERROR_SUCCESS →
      tempEngine.toBool api.session.INVALID_HANDLE_VALUE = true →
      (subscribeAndRun api tempEngine netState wsaOk early rounds late m).1 = 1 ∧
      mainCloseCount tempEngine.m_engine m.log + 2
        ≤ mainCloseCount tempEngine.m_engine
            (subscribeAndRun api tempEngine netState wsaOk early rounds late m).2.log) ∧
    ((main (mainApiOf handleApi okApi 0) 0 sublayer0 filter0 ["--no-prompt"] [] [] []
        mainSys0).map (fun r => (r.1, mainCloseCount 5 r.2.log, mainCloseCount 6 r.2.log)))
      = some (1, 1, 0) ∧
    ((main (mainApiOf noTemporaryApi okApi 0) 0 sublayer0 filter0 [] [] [] [] mainSys0).map
        (fun r => (r.1, mainCloseCount 5 r.2.log, mainCloseCount 6 r.2.log)))
      = some (0, 1, 0) ∧
    ((main (mainApiOf enabledApi rejectApi 0) 0 sublayer0 filter0 [] [] [] [] mainSys0).map
        (fun r => (r.1, mainCloseCount 5 r.2.log, mainCloseCount 6 r.2.log)))
      = some (0, 1, 1) :=
  ⟨by decide, by decide,
    fun _ api tempEngine netState wsaOk early rounds late m hfail hvalid =>
      subscribe_failure_closes_twice api tempEngine netState wsaOk early rounds late m hfail
        hvalid,
    by decide, by decide, by decide⟩

end NetEvents
